import Mathlib

/-!
Mnemosy picture codec layer.

A shallow embedding of `Mnemosy/Code/Engine/Src/Graphics/Utils/Picture.cpp`:
the picture facade (`ReadPicture`, `WritePicture`), the six write adapters, the
input check, the 16-bit endianness swap, the in-place row flip and the PNG
transforms around the encoder and the decoder.

Conventions of the embedding
* a byte is a `Fin 256`, a pixel buffer of integer samples is a `List Byte`
  (little-endian host order), a buffer of 32-bit floats is a `List ℚ`
  (exact arithmetic stands in for IEEE rounding, `powf` is a parameter);
* a null pointer is `none`;
* calls into the codec libraries (libtiff, lodepng, stb, OpenEXR, libktx) are
  recorded as `Event`s, their return codes come from an environment `Env`;
* the caller-owned `PictureInfo` is threaded through every write operation so
  that its state after the call can be compared with the state before;
* unsigned machine arithmetic is written with an explicit `% 2 ^ 32` or `% 65536`
  where the source computes in `uint32_t` or `uint16_t`; the `int` product
  `width * height * numChannels` of `WritePng` reaches `pic_util_SwapEndianness`
  through a `uint32_t` parameter and is reduced modulo `2 ^ 32` there.
-/

namespace Mnemosy

/-! ## Data model -/

abbrev Byte := Fin 256

/-- Modelled from the spec: the enum `TextureFormat` (its header is not among the
sources). One sentinel and the twelve channel-count by bit-depth combinations. -/
inductive TextureFormat
  | MNSY_NONE
  | MNSY_R8 | MNSY_RG8 | MNSY_RGB8 | MNSY_RGBA8
  | MNSY_R16 | MNSY_RG16 | MNSY_RGB16 | MNSY_RGBA16
  | MNSY_R32 | MNSY_RG32 | MNSY_RGB32 | MNSY_RGBA32
  deriving DecidableEq, Repr

open TextureFormat

/-- Modelled from the spec: the ordinal `(uint8_t)format` of the enum, as the
comparisons of `Picture.cpp` rely on it (`> 4` is 16 bit or wider, `> 8` and
`>= 9` is 32 bit, a single-channel format plus 2 is its RGB format). -/
def TextureFormat.ordinal : TextureFormat → Nat
  | MNSY_NONE => 0
  | MNSY_R8 => 1 | MNSY_RG8 => 2 | MNSY_RGB8 => 3 | MNSY_RGBA8 => 4
  | MNSY_R16 => 5 | MNSY_RG16 => 6 | MNSY_RGB16 => 7 | MNSY_RGBA16 => 8
  | MNSY_R32 => 9 | MNSY_RG32 => 10 | MNSY_RGB32 => 11 | MNSY_RGBA32 => 12

/-- The cast `(TextureFormat)n` of an ordinal. Values that name no enumerator do
not occur in the code paths modelled here; they are mapped to the sentinel. -/
def TextureFormat.ofOrdinal : Nat → TextureFormat
  | 1 => MNSY_R8 | 2 => MNSY_RG8 | 3 => MNSY_RGB8 | 4 => MNSY_RGBA8
  | 5 => MNSY_R16 | 6 => MNSY_RG16 | 7 => MNSY_RGB16 | 8 => MNSY_RGBA16
  | 9 => MNSY_R32 | 10 => MNSY_RG32 | 11 => MNSY_RGB32 | 12 => MNSY_RGBA32
  | _ => MNSY_NONE

/-- Modelled from the spec: `TexUtil::get_channels_amount_from_textureFormat`
(not among the sources). The sentinel has no channels. -/
def get_channels_amount_from_textureFormat : TextureFormat → Nat
  | MNSY_NONE => 0
  | MNSY_R8 | MNSY_R16 | MNSY_R32 => 1
  | MNSY_RG8 | MNSY_RG16 | MNSY_RG32 => 2
  | MNSY_RGB8 | MNSY_RGB16 | MNSY_RGB32 => 3
  | MNSY_RGBA8 | MNSY_RGBA16 | MNSY_RGBA32 => 4

/-- Modelled from the spec: `TexUtil::get_channel_textureFormat` (not among the
sources), the single-channel format of the same bit depth. -/
def get_channel_textureFormat : TextureFormat → TextureFormat
  | MNSY_NONE => MNSY_NONE
  | MNSY_R8 | MNSY_RG8 | MNSY_RGB8 | MNSY_RGBA8 => MNSY_R8
  | MNSY_R16 | MNSY_RG16 | MNSY_RGB16 | MNSY_RGBA16 => MNSY_R16
  | MNSY_R32 | MNSY_RG32 | MNSY_RGB32 | MNSY_RGBA32 => MNSY_R32

/-- Bits per channel of a format (second output of
`get_information_from_textureFormat`). -/
def bitsPerChannelOf (f : TextureFormat) : Nat :=
  match get_channel_textureFormat f with
  | MNSY_R8 => 8
  | MNSY_R16 => 16
  | MNSY_R32 => 32
  | _ => 0

/-- Modelled from the spec: `TexUtil::get_information_from_textureFormat` (not
among the sources); returns `(channels, bitsPerChannel, bytesPerPixel)`. -/
def get_information_from_textureFormat (f : TextureFormat) : Nat × Nat × Nat :=
  let channels := get_channels_amount_from_textureFormat f
  let bits := bitsPerChannelOf f
  (channels, bits, channels * (bits / 8))

/-- The detector result `ImageFileFormat`. -/
inductive ImageFileFormat
  | MNSY_FILE_FORMAT_NONE
  | MNSY_FILE_FORMAT_TIF
  | MNSY_FILE_FORMAT_PNG
  | MNSY_FILE_FORMAT_JPG
  | MNSY_FILE_FORMAT_HDR
  | MNSY_FILE_FORMAT_EXR
  | MNSY_FILE_FORMAT_KTX2
  deriving DecidableEq, Repr

open ImageFileFormat

/-- The memory behind `PictureInfo::pixels`: integer samples as raw bytes, 32-bit
float samples, or 16-bit half-float samples (each half by the value it stands
for). -/
inductive PixelData
  | bytes (data : List Byte)
  | floats (data : List ℚ)
  | halfs (data : List ℚ)
  deriving DecidableEq

/-- The view `(unsigned char*)pixels`. Reinterpreting float samples as bytes is not
modelled: that view is empty. -/
def PixelData.asBytes : PixelData → List Byte
  | .bytes d => d
  | .floats _ => []
  | .halfs _ => []

/-- The view `(float*)pixels`. Reinterpreting integer samples as floats is not
modelled: that view is empty. -/
def PixelData.asFloats : PixelData → List ℚ
  | .bytes _ => []
  | .floats d => d
  | .halfs _ => []

/-- The view `(Imath::half*)pixels`. Reinterpreting other samples as halfs is not
modelled: that view is empty. -/
def PixelData.asHalfs : PixelData → List ℚ
  | .bytes _ => []
  | .floats _ => []
  | .halfs d => d

/-- The struct `PictureInfo`; `width` and `height` are `uint16_t`, `pixels` is a
`void*` (`none` for `nullptr`). -/
structure PictureInfo where
  width : Nat
  height : Nat
  textureFormat : TextureFormat
  isHalfFloat : Bool
  pixels : Option PixelData
  deriving DecidableEq

/-- Modelled from the spec: the default-constructed `PictureInfo()` (its header is
not among the sources): no pixel buffer, zero size, no format. -/
def PictureInfo.empty : PictureInfo :=
  ⟨0, 0, MNSY_NONE, false, none⟩

/-- The struct `PictureError`. -/
structure PictureError where
  wasSuccessfull : Bool
  what : String
  deriving DecidableEq, Repr

/-- The colour types of lodepng (`LodePNGColorType`). -/
inductive LodePNGColorType
  | LCT_GREY | LCT_RGB | LCT_PALETTE | LCT_GREY_ALPHA | LCT_RGBA
  deriving DecidableEq, Repr

/-- The six codec adapters. -/
inductive Codec
  | Tiff | Png | Jpg | Hdr | Exr | Ktx2
  deriving DecidableEq, Repr

/-- Observable steps of a facade call: entering an adapter, and the library calls
that create a file or run an encoder. -/
inductive Event
  | ReadAdapter (c : Codec)
  | WriteAdapter (c : Codec)
  | TIFFOpenExt (path : String)
  | TIFFWriteScanline (srcSampleOffset : Nat) (row : Nat)
  | TIFFClose
  | exrOutputFile (path : String) (width height : Nat)
  | exrWritePixels (height : Nat)
  | stbi_write_hdr (path : String) (w h comp : Nat) (data : List ℚ) (flip : Bool)
  | stbi_write_jpg (path : String) (w h comp : Nat) (data : List Byte) (flip : Bool)
  | lodepng_encode (data : List Byte) (w h : Nat) (fmt : TextureFormat)
      (mode : Option (LodePNGColorType × Nat))
  | lodepng_save_file (path : String)
  | ktxSave_WithoutMips (path : String) (flip : Bool)
  deriving DecidableEq

/-- An event that calls an encoder or creates a file. -/
def Event.isLibraryCall : Event → Bool
  | .ReadAdapter _ => false
  | .WriteAdapter _ => false
  | _ => true

/-- An event that enters a codec adapter. -/
def Event.isAdapterCall : Event → Bool
  | .ReadAdapter _ => true
  | .WriteAdapter _ => true
  | _ => false

/-- Everything outside `Picture.cpp` that a call depends on: the file system, the
path and extension helpers, `powf`, the return codes of the encoders and the five
read adapters (whose result depends on the file contents). -/
structure Env where
  fileExists : String → Bool
  extension : String → String
  get_imageFileFormat_from_fileExtentionString : String → ImageFileFormat
  powf : ℚ → ℚ → ℚ
  stbi_write_hdr : String → Nat
  stbi_write_jpg : String → Nat
  lodepng_encode : List Byte → Nat
  lodepng_save_file : String → Nat
  lodepng_error_text : Nat → String
  ktxSave_WithoutMips : String → Nat
  ktxErrorString : Nat → String
  ReadTiff : String → Bool → Bool → PictureInfo × PictureError
  ReadPng : String → Bool → Bool → PictureInfo × PictureError
  ReadJpg : String → Bool → Bool → PictureInfo × PictureError
  ReadHdr : String → Bool → Bool → PictureInfo × PictureError
  ReadExr : String → Bool → Bool → Bool → PictureInfo × PictureError

/-- Result of a write operation: the error struct, the caller's `PictureInfo` as
it is after the call, and the events in order. -/
structure WriteResult where
  err : PictureError
  info : PictureInfo
  trace : List Event

/-- Result of a read operation. -/
structure ReadResult where
  info : PictureInfo
  err : PictureError
  trace : List Event

/-- A counted loop `for (i = 0; i < n; i++) body`. -/
def forLoop {σ : Type} (n : Nat) (body : Nat → σ → σ) (s : σ) : σ :=
  (List.range n).foldl (fun acc i => body i acc) s

/-! ## Utilities -/

/-- `Picture::pic_util_check_input_pictureInfo`. -/
def pic_util_check_input_pictureInfo (pictureInfo : PictureInfo) : PictureError :=
  if pictureInfo.pixels = none then
    ⟨false, "pictureInfo does not contain any pixel data"⟩
  else if pictureInfo.textureFormat = MNSY_NONE then
    ⟨false, "pictureInfo format is not specified."⟩
  else if pictureInfo.height = 0 ∨ pictureInfo.width = 0 then
    ⟨false, "pictureInfo has either width or height set to 0."⟩
  else
    ⟨true, ""⟩

/-- `Picture::pic_util_srgb2linear_float`, over an ordered field with the power
function as a parameter. -/
def pic_util_srgb2linear_float {α : Type} [LinearOrderedField α] (pow : α → α → α)
    (srgbValue : α) : α :=
  if srgbValue ≤ 4045 / 100000 then
    srgbValue / (1292 / 100)
  else
    pow ((srgbValue + 55 / 1000) / (1055 / 1000)) (24 / 10)

/-- `Picture::pic_util_linear2srgb_float`, over an ordered field with the power
function as a parameter. -/
def pic_util_linear2srgb_float {α : Type} [LinearOrderedField α] (pow : α → α → α)
    (linearValue : α) : α :=
  if linearValue ≤ 31308 / 10000000 then
    linearValue * (1292 / 100)
  else
    (1055 / 1000) * pow linearValue (1 / (24 / 10)) - 55 / 1000

/-! ## Raw memory

Reads and writes past the end of a buffer are undefined behaviour in the source.
The memory helpers are total; the theorems about them assume in-bounds ranges. -/

/-- The `n` bytes at byte offset `off` (source of a `memcpy`). -/
def memRead (buf : List Byte) (off n : Nat) : List Byte :=
  (buf.drop off).take n

/-- The buffer after `memcpy(buf + off, src, src.length)`. -/
def memWrite (buf : List Byte) (off : Nat) (src : List Byte) : List Byte :=
  buf.take off ++ src ++ buf.drop (off + src.length)

/-- The 16-bit sample number `i` of a buffer viewed as `uint16_t*` (little endian). -/
def readU16 (buf : List Byte) (i : Nat) : Nat :=
  (buf.getD (2 * i) 0).val + 256 * (buf.getD (2 * i + 1) 0).val

/-! ## 16-bit endianness swap -/

/-- The scalar exchange `std::swap(p[0], p[1])` at byte offset `off`. -/
def swapBytesAt (buf : List Byte) (off : Nat) : List Byte :=
  let b0 := buf.getD off 0
  let b1 := buf.getD (off + 1) 0
  (buf.set off b1).set (off + 1) b0

/-- One 16-bit lane of an SSE register, loaded from byte offset `off`. -/
def loadLane (buf : List Byte) (off : Nat) : Nat :=
  (buf.getD off 0).val + 256 * (buf.getD (off + 1) 0).val

/-- The lane operation `_mm_or_si128(_mm_slli_epi16(x, 8), _mm_srli_epi16(x, 8))`. -/
def swapLane (lane : Nat) : Nat :=
  ((lane * 256) % 65536) ||| (lane / 256)

/-- Store of one 16-bit lane at byte offset `off`. -/
def storeLane (buf : List Byte) (off : Nat) (lane : Nat) : List Byte :=
  (buf.set off ⟨lane % 256, Nat.mod_lt _ (by decide)⟩).set (off + 1)
    ⟨lane / 256 % 256, Nat.mod_lt _ (by decide)⟩

/-- One iteration of the vector loop: load 16 bytes (8 lanes), swap the bytes of
each lane, store the 16 bytes back. -/
def simdStep (buf : List Byte) (start : Nat) : List Byte :=
  let data := (List.range 8).map (fun k => loadLane buf (start + 2 * k))
  let swapped := data.map swapLane
  (List.range 8).foldl (fun b k => storeLane b (start + 2 * k) (swapped.getD k 0)) buf

/-- The vector loop `for (; start + 16 <= end; start += 16)`; returns the position
reached and the buffer. -/
def simdLoop (stop : Nat) : Nat → Nat → List Byte → Nat × List Byte
  | 0, start, buf => (start, buf)
  | fuel + 1, start, buf =>
    if start + 16 ≤ stop then simdLoop stop fuel (start + 16) (simdStep buf start)
    else (start, buf)

/-- The scalar tail `for (; start < end; start += 2) std::swap(start[0], start[1])`. -/
def tailLoop (stop : Nat) : Nat → Nat → List Byte → List Byte
  | 0, _, buf => buf
  | fuel + 1, start, buf =>
    if start < stop then tailLoop stop fuel (start + 2) (swapBytesAt buf start)
    else buf

/-- The fallback loop `for (size_t i = bufStart; i < bufEnd; i++)`. -/
def scalarLoop (bufEnd : Nat) : Nat → Nat → List Byte → List Byte
  | 0, _, buf => buf
  | fuel + 1, i, buf =>
    if i < bufEnd then scalarLoop bufEnd fuel (i + 1) (swapBytesAt buf (i * 2))
    else buf

/-- `pic_util_SwapEndianness(buf, bufStart, bufEnd)`. `disableSimd` is the build
switch `PICTURE_DISABLE_SIMD`. In the vector path the byte offsets `bufStart * 2`
and `bufEnd * 2` are computed in `uint32_t`; the fallback computes `i * 2` in
`size_t`. The loops get as much fuel as there are bytes between the two ends. -/
def pic_util_SwapEndianness (disableSimd : Bool) (buf : List Byte)
    (bufStart bufEnd : Nat) : List Byte :=
  if disableSimd then
    scalarLoop bufEnd (bufEnd - bufStart) bufStart buf
  else
    let start := (bufStart * 2) % 2 ^ 32
    let stop := (bufEnd * 2) % 2 ^ 32
    let r := simdLoop stop (stop - start) start buf
    tailLoop stop (stop - r.1) r.1 r.2

/-- Specification of the byte swap: the two bytes of every 16-bit sample of the
list are exchanged (a trailing odd byte stays). -/
def swapPairs : List Byte → List Byte
  | a :: b :: rest => b :: a :: swapPairs rest
  | l => l

/-! ## In-place vertical flip -/

/-- One iteration of the row-swap loop: exchange the rows at byte offsets `rowTop`
and `rowBottom` through the temporary row buffer. -/
def swapRows (buf : List Byte) (rowSize rowTop rowBottom : Nat) : List Byte :=
  let tempRowBuf := memRead buf rowTop rowSize
  let buf1 := memWrite buf rowTop (memRead buf rowBottom rowSize)
  memWrite buf1 rowBottom tempRowBuf

/-- The row-swap flip of `ReadTiff`, `ReadPng` and `WritePng`:
`uint16_t heightHalf = height / 2; uint16_t heightMinusOne = height - 1;`
`for (uint32_t h = 0; h < heightHalf; h++)` exchanging row `h` and row
`heightMinusOne - h`. `height` is the value of the local `height` (32 bit in the
two readers, 16 bit in `WritePng`); the difference `heightMinusOne - h` is
computed in `uint32_t`. -/
def flipRowsInPlace (buf : List Byte) (rowSize height : Nat) : List Byte :=
  let heightHalf := (height / 2) % 65536
  let heightMinusOne := (height + 65536 - 1) % 65536
  forLoop heightHalf (fun h b =>
    swapRows b rowSize (h * rowSize) (((heightMinusOne + 2 ^ 32 - h) % 2 ^ 32) * rowSize)) buf

/-- The rows the row-swap loop exchanges, in the order of its iterations: in
iteration `h` the row number `h` (`rowTop`) and the row number
`heightMinusOne - h` (`rowBottom`, a `uint32_t` difference). -/
def flipRowsInPlace_rows (height : Nat) : List (Nat × Nat) :=
  let heightHalf := (height / 2) % 65536
  let heightMinusOne := (height + 65536 - 1) % 65536
  (List.range heightHalf).map (fun h => (h, (heightMinusOne + 2 ^ 32 - h) % 2 ^ 32))

/-- The block of `WritePng` between the copy of the pixels and the encoder call:
row flip if requested, then the byte swap of 16-bit samples. The sample count
`width * height * numChannels` is passed on as `uint32_t`. -/
def WritePng_preEncode (disableSimd : Bool) (format : TextureFormat) (width height : Nat)
    (flipVertically : Bool) (bufferCopy : List Byte) : List Byte :=
  let info := get_information_from_textureFormat format
  let numChannels := info.1
  let bitsPerChannel := info.2.1
  let bytesPerPixel := info.2.2
  let flipped :=
    if flipVertically then flipRowsInPlace bufferCopy (width * bytesPerPixel) height
    else bufferCopy
  if bitsPerChannel = 16 then
    pic_util_SwapEndianness disableSimd flipped 0 ((width * height * numChannels) % 2 ^ 32)
  else flipped

/-- The block of `ReadPng` after the decoder call: byte swap of 16-bit samples,
then the row flip if requested. `width` and `height` are the 32-bit values the
decoder returned, the products are computed in `unsigned`. -/
def ReadPng_postDecode (disableSimd : Bool) (format : TextureFormat) (width height : Nat)
    (flipVertically : Bool) (pixelBuffer : List Byte) : List Byte :=
  let info := get_information_from_textureFormat format
  let numChannels := info.1
  let bitsPerChannel := info.2.1
  let bytesPerPixel := info.2.2
  let swapped :=
    if bitsPerChannel = 16 then
      pic_util_SwapEndianness disableSimd pixelBuffer 0 ((width * height * numChannels) % 2 ^ 32)
    else pixelBuffer
  if flipVertically then flipRowsInPlace swapped ((width * bytesPerPixel) % 2 ^ 32) height
  else swapped

/-! ## Write adapters -/

/-- The caller's pixel memory after float samples were stored through the view
`(float*)pixels`. -/
def PixelData.withFloats : PixelData → List ℚ → PixelData
  | .bytes d, _ => .bytes d
  | .floats _, d => .floats d
  | .halfs d, _ => .halfs d

/-- Scanlines of `WriteTiff`: `TIFFWriteScanline(tif, srcBuffer, h, 0)` for each
row `h`, the source pointer walking backward from the last row when flipping and
forward from the first row otherwise. Offsets are in samples; the start offset
`(height - 1) * rowSize` is computed in `uint32_t`. -/
def WriteTiff_scanlines (height rowSize : Nat) (flipVertically : Bool) : List Event :=
  let start : Int :=
    if flipVertically then (((height - 1) * rowSize % 2 ^ 32 : Nat) : Int) else 0
  (forLoop height (fun h (st : Int × List Event) =>
    (if flipVertically then st.1 - rowSize else st.1 + rowSize,
      st.2 ++ [Event.TIFFWriteScanline st.1.toNat h])) (start, [])).2

/-- `Picture::WriteTiff`. -/
def WriteTiff (filepath : String) (pictureInfo : PictureInfo) (flipVertically : Bool) :
    WriteResult :=
  let err := pic_util_check_input_pictureInfo pictureInfo
  if !err.wasSuccessfull then
    ⟨⟨false, "WriteTiff: " ++ err.what⟩, pictureInfo, []⟩
  else
    let info := get_information_from_textureFormat pictureInfo.textureFormat
    let channels := info.1
    let bitsPerChannel := info.2.1
    let rowSize := pictureInfo.width * channels
    let lines :=
      if bitsPerChannel = 8 ∨ bitsPerChannel = 16 ∨ bitsPerChannel = 32 then
        WriteTiff_scanlines pictureInfo.height rowSize flipVertically
      else []
    ⟨⟨true, ""⟩, pictureInfo, [Event.TIFFOpenExt filepath] ++ lines ++ [Event.TIFFClose]⟩

/-- `Picture::WriteExr`: the input check, then the header, the output file and the
pixel write. The per-channel planes are private buffers filled from reads of the
input buffer. -/
def WriteExr (filepath : String) (pictureInfo : PictureInfo) (_flipVertically : Bool)
    (_convertToLinear : Bool) : WriteResult :=
  let e := pic_util_check_input_pictureInfo pictureInfo
  if !e.wasSuccessfull then
    ⟨⟨false, "WriteExr: " ++ e.what⟩, pictureInfo, []⟩
  else
    ⟨⟨true, ""⟩, pictureInfo,
      [Event.exrOutputFile filepath pictureInfo.width pictureInfo.height,
        Event.exrWritePixels pictureInfo.height]⟩

/-- `Picture::WriteHdr`. The function does not initialise `outPictureError`, so the
value the caller passed in is an input. The conversion loop stores through
`(float*)pictureInfo.pixels`, the caller's buffer. -/
def WriteHdr (env : Env) (outPictureError : PictureError) (filepath : String)
    (pictureInfo : PictureInfo) (flipVertically : Bool) (convertToLinear : Bool) :
    WriteResult :=
  let err := pic_util_check_input_pictureInfo pictureInfo
  if !err.wasSuccessfull then
    ⟨⟨false, "WriteHdr: " ++ err.what⟩, pictureInfo, []⟩
  else
    let channels := get_channels_amount_from_textureFormat pictureInfo.textureFormat
    if channels = 2 then
      ⟨⟨false, "WriteHdr: Hdr images do not support dual channel export"⟩, pictureInfo, []⟩
    else if pictureInfo.textureFormat.ordinal < 9 then
      ⟨⟨false, "WriteHdr: hdr images only support 32 bit floating point data"⟩,
        pictureInfo, []⟩
    else
      let buffer := (pictureInfo.pixels.map PixelData.asFloats).getD []
      let width := pictureInfo.width
      let height := pictureInfo.height
      let buffer1 :=
        if convertToLinear then
          forLoop (width * height * channels)
            (fun p b => b.set p (pic_util_srgb2linear_float env.powf (b.getD p 0))) buffer
        else buffer
      let infoAfter : PictureInfo :=
        { pictureInfo with pixels := pictureInfo.pixels.map (fun d => d.withFloats buffer1) }
      let call := Event.stbi_write_hdr filepath width height channels buffer1 flipVertically
      if env.stbi_write_hdr filepath = 0 then
        ⟨⟨false, "WriteHdr: stbi_write_hdr() faild to write"⟩, infoAfter, [call]⟩
      else
        ⟨outPictureError, infoAfter, [call]⟩

/-- The value `(uint8_t)std::clamp(value16, 0, 255)`. -/
def clampToByte (value16 : Nat) : Byte :=
  ⟨min value16 255, Nat.lt_succ_of_le (Nat.min_le_right _ _)⟩

/-- The 16 to 8 bit conversion loop of `WriteJpg` into the temporary buffer
(`malloc`ed, here zero-filled before the loop). -/
def WriteJpg_convert16to8 (srcBuffer : List Byte) (width height channels : Nat) :
    List Byte :=
  forLoop height (fun h buf0 =>
    forLoop width (fun w buf =>
      let offset := (h * width + w) * channels
      let b1 := if channels ≥ 1 then
        buf.set (offset + 0) (clampToByte (readU16 srcBuffer (offset + 0) / 255)) else buf
      let b2 := if channels ≥ 2 then
        b1.set (offset + 1) (clampToByte (readU16 srcBuffer (offset + 1) / 255)) else b1
      let b3 := if channels ≥ 3 then
        b2.set (offset + 2) (clampToByte (readU16 srcBuffer (offset + 2) / 255)) else b2
      if channels = 4 then b3.set (offset + 3) 0 else b3) buf0)
    (List.replicate (width * height * channels) 0)

/-- `Picture::WriteJpg`. -/
def WriteJpg (env : Env) (filepath : String) (pictureInfo : PictureInfo)
    (flipVertically : Bool) : WriteResult :=
  let err := pic_util_check_input_pictureInfo pictureInfo
  if !err.wasSuccessfull then
    ⟨⟨false, "WriteJpg: " ++ err.what⟩, pictureInfo, []⟩
  else
    let channels := get_channels_amount_from_textureFormat pictureInfo.textureFormat
    if channels = 2 then
      ⟨⟨false, "WriteJpg: Jpg images do not support dual channel export"⟩, pictureInfo, []⟩
    else if pictureInfo.textureFormat.ordinal > 8 then
      ⟨⟨false, "WriteJpg: Jpg images do not support 32 bit floating point data"⟩,
        pictureInfo, []⟩
    else
      let width := pictureInfo.width
      let height := pictureInfo.height
      let srcBuffer := (pictureInfo.pixels.map PixelData.asBytes).getD []
      if pictureInfo.textureFormat.ordinal > 4 then
        let buffer := WriteJpg_convert16to8 srcBuffer width height channels
        let call := Event.stbi_write_jpg filepath width height channels buffer flipVertically
        if env.stbi_write_jpg filepath = 0 then
          ⟨⟨false, "WriteJpg: stbi_write_jpg failed"⟩, pictureInfo, [call]⟩
        else ⟨⟨true, ""⟩, pictureInfo, [call]⟩
      else
        let call := Event.stbi_write_jpg filepath width height channels srcBuffer flipVertically
        if env.stbi_write_jpg filepath = 0 then
          ⟨⟨false, "WriteJpg: stbi_write_jpg failed"⟩, pictureInfo, [call]⟩
        else ⟨⟨true, ""⟩, pictureInfo, [call]⟩

/-- The format switch of `WritePng`: the colour type and bit depth stored in
`state.info_raw` (and copied to `state.info_png`). The switch has no default case:
`none` stands for a format that leaves the state as `lodepng_state_init` made it. -/
def WritePng_colorMode : TextureFormat → Option (LodePNGColorType × Nat)
  | MNSY_R8 => some (LodePNGColorType.LCT_GREY, 8)
  | MNSY_RGB8 => some (LodePNGColorType.LCT_RGB, 8)
  | MNSY_RGBA8 => some (LodePNGColorType.LCT_RGBA, 8)
  | MNSY_R16 => some (LodePNGColorType.LCT_GREY, 16)
  | MNSY_RGB16 => some (LodePNGColorType.LCT_RGB, 16)
  | MNSY_RGBA16 => some (LodePNGColorType.LCT_RGBA, 16)
  | _ => none

/-- Specification of the PNG colour type that matches a channel count: grey for
one channel, RGB for three, RGBA for four. -/
def pngColorTypeForChannels : Nat → Option LodePNGColorType
  | 1 => some LodePNGColorType.LCT_GREY
  | 3 => some LodePNGColorType.LCT_RGB
  | 4 => some LodePNGColorType.LCT_RGBA
  | _ => none

/-- `Picture::WritePng`. `disableSimd` is the build switch `PICTURE_DISABLE_SIMD`. -/
def WritePng (env : Env) (disableSimd : Bool) (filepath : String)
    (pictureInfo : PictureInfo) (flipVertically : Bool) : WriteResult :=
  let err := pic_util_check_input_pictureInfo pictureInfo
  if !err.wasSuccessfull then
    ⟨⟨false, "WritePng: PictureInfo was not correct or incomplete: " ++ err.what⟩,
      pictureInfo, []⟩
  else
    let format := pictureInfo.textureFormat
    let channelFormat := get_channel_textureFormat format
    if channelFormat = MNSY_R32 then
      ⟨⟨false, "WritePng: Png files do not support writing 32 bit images."⟩, pictureInfo, []⟩
    else if format = MNSY_RG8 ∨ format = MNSY_RG16 ∨ format = MNSY_RG32 then
      ⟨⟨false, "WritePng: Png files do not support writing dual channel images."⟩,
        pictureInfo, []⟩
    else
      let pixelBuffer := (pictureInfo.pixels.map PixelData.asBytes).getD []
      let width := pictureInfo.width
      let height := pictureInfo.height
      let bytesPerPixel := (get_information_from_textureFormat format).2.2
      let bufferSize := width * bytesPerPixel * height
      let bufferCopy := memRead pixelBuffer 0 bufferSize
      let encoded := WritePng_preEncode disableSimd format width height flipVertically bufferCopy
      let callEncode :=
        Event.lodepng_encode encoded width height format (WritePng_colorMode format)
      let error := env.lodepng_encode encoded
      if error ≠ 0 then
        ⟨⟨false, "WritePng: Failed to encode image data. Message: "
            ++ env.lodepng_error_text error⟩, pictureInfo, [callEncode]⟩
      else
        let error2 := env.lodepng_save_file filepath
        if error2 ≠ 0 then
          ⟨⟨false, "WritePng: Failed to save file. Message: "
              ++ env.lodepng_error_text error2⟩, pictureInfo,
            [callEncode, Event.lodepng_save_file filepath]⟩
        else
          ⟨⟨true, ""⟩, pictureInfo, [callEncode, Event.lodepng_save_file filepath]⟩

/-- `Picture::WriteKtx2`. `KtxImage::Save_WithoutMips` is outside `Picture.cpp`; it
is recorded as one library call whose return code comes from the environment. -/
def WriteKtx2 (env : Env) (filepath : String) (pictureInfo : PictureInfo)
    (flipVertically : Bool) : WriteResult :=
  let err := pic_util_check_input_pictureInfo pictureInfo
  if !err.wasSuccessfull then
    ⟨⟨false, "WriteKtx2: PictureInfo was not correct or incomplete: " ++ err.what⟩,
      pictureInfo, []⟩
  else
    let errorCode := env.ktxSave_WithoutMips filepath
    let call := Event.ktxSave_WithoutMips filepath flipVertically
    if errorCode ≠ 0 then
      ⟨⟨false, "WriteKtx2: Failed " ++ env.ktxErrorString errorCode⟩, pictureInfo, [call]⟩
    else ⟨⟨true, ""⟩, pictureInfo, [call]⟩

/-! ## Picture facade -/

/-- Prefixes the trace of an adapter with the event of entering it. -/
def WriteResult.entered (c : Codec) (r : WriteResult) : WriteResult :=
  { r with trace := Event.WriteAdapter c :: r.trace }

/-- `Picture::WritePicture`. -/
def WritePicture (env : Env) (disableSimd : Bool) (filepath : String)
    (pictureInfo : PictureInfo) (flipVertically : Bool) (convertExrAndHdrToLinear : Bool) :
    WriteResult :=
  let outPictureError : PictureError := ⟨true, ""⟩
  let ext := env.extension filepath
  let fileFormat := env.get_imageFileFormat_from_fileExtentionString ext
  match fileFormat with
  | MNSY_FILE_FORMAT_NONE =>
    ⟨⟨false, "Write: Image File Extention \x27" ++ ext ++ "\x27 is not supported."⟩,
      pictureInfo, []⟩
  | MNSY_FILE_FORMAT_TIF =>
    (WriteTiff filepath pictureInfo flipVertically).entered Codec.Tiff
  | MNSY_FILE_FORMAT_PNG =>
    (WritePng env disableSimd filepath pictureInfo flipVertically).entered Codec.Png
  | MNSY_FILE_FORMAT_JPG =>
    (WriteJpg env filepath pictureInfo flipVertically).entered Codec.Jpg
  | MNSY_FILE_FORMAT_HDR =>
    (WriteHdr env outPictureError filepath pictureInfo flipVertically
      convertExrAndHdrToLinear).entered Codec.Hdr
  | MNSY_FILE_FORMAT_EXR =>
    (WriteExr filepath pictureInfo flipVertically convertExrAndHdrToLinear).entered Codec.Exr
  | MNSY_FILE_FORMAT_KTX2 =>
    (WriteKtx2 env filepath pictureInfo flipVertically).entered Codec.Ktx2

/-- `Picture::ReadPicture`. The five read adapters decode file contents and are
taken from the environment. -/
def ReadPicture (env : Env) (filepath : String) (flipVertically : Bool)
    (convertGrayToRGB : Bool) (convertEXRandHDRToSrgb : Bool) : ReadResult :=
  if !env.fileExists filepath then
    ⟨PictureInfo.empty, ⟨true, "Read: filepath does exist."⟩, []⟩
  else
    let ext := env.extension filepath
    let fileFormat := env.get_imageFileFormat_from_fileExtentionString ext
    match fileFormat with
    | MNSY_FILE_FORMAT_NONE =>
      ⟨PictureInfo.empty,
        ⟨false, "Read: Image File Extention \x27" ++ ext ++ "\x27 is not supported."⟩, []⟩
    | MNSY_FILE_FORMAT_TIF =>
      let r := env.ReadTiff filepath flipVertically convertGrayToRGB
      ⟨r.1, r.2, [Event.ReadAdapter Codec.Tiff]⟩
    | MNSY_FILE_FORMAT_PNG =>
      let r := env.ReadPng filepath flipVertically convertGrayToRGB
      ⟨r.1, r.2, [Event.ReadAdapter Codec.Png]⟩
    | MNSY_FILE_FORMAT_JPG =>
      let r := env.ReadJpg filepath flipVertically convertGrayToRGB
      ⟨r.1, r.2, [Event.ReadAdapter Codec.Jpg]⟩
    | MNSY_FILE_FORMAT_HDR =>
      let r := env.ReadHdr filepath flipVertically convertEXRandHDRToSrgb
      ⟨r.1, r.2, [Event.ReadAdapter Codec.Hdr]⟩
    | MNSY_FILE_FORMAT_EXR =>
      let r := env.ReadExr filepath flipVertically convertEXRandHDRToSrgb convertGrayToRGB
      ⟨r.1, r.2, [Event.ReadAdapter Codec.Exr]⟩
    | MNSY_FILE_FORMAT_KTX2 =>
      ⟨PictureInfo.empty, ⟨false, "Read: File format ktx2 is not yet implemented."⟩, []⟩

/-! ## A concrete environment -/

/-- Modelled from the spec: `TexUtil::get_imageFileFormat_from_fileExtentionString`
(not among the sources). The extension is compared case-insensitively, with or
without its leading dot, against the table of the six encodings. -/
def get_imageFileFormat_from_fileExtentionString (fileExtention : String) :
    ImageFileFormat :=
  let lower := fileExtention.data.map Char.toLower
  let bare := match lower with
    | '.' :: rest => rest
    | other => other
  if bare = "png".data then MNSY_FILE_FORMAT_PNG
  else if bare = "tif".data ∨ bare = "tiff".data then MNSY_FILE_FORMAT_TIF
  else if bare = "jpg".data ∨ bare = "jpeg".data then MNSY_FILE_FORMAT_JPG
  else if bare = "hdr".data then MNSY_FILE_FORMAT_HDR
  else if bare = "exr".data then MNSY_FILE_FORMAT_EXR
  else if bare = "ktx2".data then MNSY_FILE_FORMAT_KTX2
  else MNSY_FILE_FORMAT_NONE

/-- The characters of a file name from its last dot on (none without a dot). -/
def extensionChars : List Char → Option (List Char)
  | [] => none
  | c :: rest =>
    match extensionChars rest with
    | some e => some e
    | none => if c = '.' then some (c :: rest) else none

/-- A stand-in for `std::filesystem::path::extension` on plain file names. -/
def fileNameExtension (filepath : String) : String :=
  ⟨(extensionChars filepath.data).getD []⟩

/-- An environment in which only the listed files exist, every encoder succeeds and
every read adapter fails. -/
def Env.simple (files : List String) : Env where
  fileExists := fun p => files.contains p
  extension := fileNameExtension
  get_imageFileFormat_from_fileExtentionString :=
    Mnemosy.get_imageFileFormat_from_fileExtentionString
  powf := fun _ _ => 0
  stbi_write_hdr := fun _ => 1
  stbi_write_jpg := fun _ => 1
  lodepng_encode := fun _ => 0
  lodepng_save_file := fun _ => 0
  lodepng_error_text := fun _ => ""
  ktxSave_WithoutMips := fun _ => 0
  ktxErrorString := fun _ => ""
  ReadTiff := fun _ _ _ => (PictureInfo.empty, ⟨false, "ReadTiff: failed to open file. corrupted?"⟩)
  ReadPng := fun _ _ _ => (PictureInfo.empty, ⟨false, "ReadPng: failed"⟩)
  ReadJpg := fun _ _ _ => (PictureInfo.empty, ⟨false, "ReadJpg: failed"⟩)
  ReadHdr := fun _ _ _ => (PictureInfo.empty, ⟨false, "ReadHdr: failed"⟩)
  ReadExr := fun _ _ _ _ => (PictureInfo.empty, ⟨false, "ReadExr: file is not a valid .exr file"⟩)

/-! ## EXR adapter

An EXR file is taken as OpenEXR presents it: the leading bytes, the size of the data
window and the channel list with, per channel, its sample type and its samples in
row-major order. Half and float samples are both given by the value they stand for;
`toHalf` is the rounding of a float to a half (`Imath::half(float)`), the widening
`(float)half` is exact. Pixel and sample indices (`int` and `size_t` in the source)
are exact naturals: they agree with the source as long as the `int` expressions
`(h * width + w) * numChannels + c` stay below `2 ^ 31`. -/

/-- The sample types of OpenEXR (`Imf::PixelType`). -/
inductive ExrPixelType
  | UINT | HALF | FLOAT
  deriving DecidableEq, Repr

/-- One channel of an EXR file. -/
structure ExrChannel where
  type : ExrPixelType
  data : List ℚ
  deriving DecidableEq

/-- An EXR file: `magic` are its first bytes, `dataWindowWidth` is
`dw.max.x - dw.min.x + 1` and `dataWindowHeight` is `dw.max.y - dw.min.y + 1`. -/
structure ExrFile where
  magic : List Byte
  dataWindowWidth : Nat
  dataWindowHeight : Nat
  channels : List (String × ExrChannel)
  deriving DecidableEq

/-- The magic number of an OpenEXR file. -/
def exrMagic : List Byte := [0x76, 0x2f, 0x31, 0x01]

/-- The lookup `channelsList.findChannel(name)`. -/
def ExrFile.findChannel (file : ExrFile) (name : String) : Option ExrChannel :=
  file.channels.lookup name

/-- The single-channel format `ReadExr` assigns to a sample type; `MNSY_NONE` for
the unsupported type `UINT`. -/
def exrChannelFormat : ExrPixelType → TextureFormat
  | .HALF => MNSY_R16
  | .FLOAT => MNSY_R32
  | .UINT => MNSY_NONE

/-- The `height` by `width` array a channel is decoded into (`resizeErase` followed
by `readPixels`); cell `[y][x]` is entry `y * width + x`. An absent channel has an
empty array. -/
def exrReadPlane (channel : Option ExrChannel) (width height : Nat) : List ℚ :=
  match channel with
  | some ch => (List.range (height * width)).map (fun i => ch.data.getD i 0)
  | none => []

/-- The four per-channel arrays of the colour path. -/
structure ExrPlanes where
  r : List ℚ
  g : List ℚ
  b : List ℚ
  a : List ℚ
  deriving DecidableEq

/-- The array of channel number `k` (0 for R up to 3 for A). -/
def ExrPlanes.get (p : ExrPlanes) (k : Nat) : List ℚ :=
  if k = 0 then p.r else if k = 1 then p.g else if k = 2 then p.b
  else if k = 3 then p.a else []

/-- Replaces the array of channel number `k`. -/
def ExrPlanes.put (p : ExrPlanes) (k : Nat) (plane : List ℚ) : ExrPlanes :=
  if k = 0 then { p with r := plane } else if k = 1 then { p with g := plane }
  else if k = 2 then { p with b := plane } else if k = 3 then { p with a := plane }
  else p

/-- The copy of one sample of the gray path into the output buffer: the optional
sRGB conversion is stored back into the decoded array, then the cell is copied
once, or three times when gray is expanded to RGB. -/
def ReadExr_grayStep (cvt : ℚ → ℚ) (width height numChannels : Nat)
    (flipVertically convertToSrgb convertGrayToRGB : Bool) (h w : Nat)
    (st : List ℚ × List ℚ) : List ℚ × List ℚ :=
  let x := w
  let y := if flipVertically then height - h - 1 else h
  let pixels1 :=
    if convertToSrgb then st.1.set (y * width + x) (cvt (st.1.getD (y * width + x) 0))
    else st.1
  let offset := (h * width + w) * numChannels
  let value := pixels1.getD (y * width + x) 0
  let buffer1 :=
    if !convertGrayToRGB then st.2.set offset value
    else ((st.2.set (offset + 0) value).set (offset + 1) value).set (offset + 2) value
  (pixels1, buffer1)

/-- The pixel loops of the gray path over the decoded gray array; the buffer is
`malloc`ed (here zero-filled) with `width * height * numChannels` samples. -/
def ReadExr_grayLoop (cvt : ℚ → ℚ) (width height numChannels : Nat)
    (flipVertically convertToSrgb convertGrayToRGB : Bool) (gray_pixels : List ℚ) :
    List ℚ × List ℚ :=
  forLoop height (fun h st0 =>
    forLoop width (fun w st =>
      ReadExr_grayStep cvt width height numChannels flipVertically convertToSrgb
        convertGrayToRGB h w st) st0)
    (gray_pixels, List.replicate (width * height * numChannels) 0)

/-- The gray path of `ReadExr` (no R channel, gray channel `gray_channel` with a
supported sample type). -/
def ReadExr_gray (powf : ℚ → ℚ → ℚ) (toHalf : ℚ → ℚ) (gray_channel : Option ExrChannel)
    (channel_format : TextureFormat) (width height : Nat)
    (flipVertically convertToSrgb convertGrayToRGB : Bool) : PictureInfo × PictureError :=
  let numChannels := if convertGrayToRGB then 3 else 1
  let gray_pixels := exrReadPlane gray_channel width height
  let buffer : Option PixelData :=
    if channel_format = MNSY_R16 then
      some (.halfs (ReadExr_grayLoop (fun v => toHalf (pic_util_linear2srgb_float powf v))
        width height numChannels flipVertically convertToSrgb convertGrayToRGB gray_pixels).2)
    else if channel_format = MNSY_R32 then
      some (.floats (ReadExr_grayLoop (fun v => pic_util_linear2srgb_float powf v)
        width height numChannels flipVertically convertToSrgb convertGrayToRGB gray_pixels).2)
    else none
  let textureFormat :=
    if convertGrayToRGB then TextureFormat.ofOrdinal (channel_format.ordinal + 2)
    else channel_format
  (⟨width, height, textureFormat, decide (channel_format = MNSY_R16), buffer⟩, ⟨true, ""⟩)

/-- The copy of one sample of a colour channel whose array has the sample type of
the output buffer: the optional sRGB conversion is stored back into the array,
then the cell is copied to `buffer[offset]`. -/
def ReadExr_copySample (cvt : ℚ → ℚ) (convertToSrgb : Bool) (k idx offset : Nat)
    (st : ExrPlanes × List ℚ) : ExrPlanes × List ℚ :=
  let plane := st.1.get k
  let plane1 := if convertToSrgb then plane.set idx (cvt (plane.getD idx 0)) else plane
  (st.1.put k plane1, st.2.set offset (plane1.getD idx 0))

/-- The copy of one alpha sample whose array has the other sample type: the value is
read into a temporary, optionally converted to sRGB (through a half), brought to the
sample type of the buffer by `convert` and stored in `buffer[offset]`. -/
def ReadExr_copyAlphaOther (cvtOther convert : ℚ → ℚ) (convertToSrgb : Bool)
    (idx offset : Nat) (st : ExrPlanes × List ℚ) : ExrPlanes × List ℚ :=
  let valueTemp := st.1.a.getD idx 0
  let valueTemp1 := if convertToSrgb then cvtOther valueTemp else valueTemp
  let value := convert valueTemp1
  (st.1, st.2.set offset value)

/-- The body of the colour loops for channel `c` (1 for R up to 4 for A) at row
`h` and column `w`. `sameFormat` is the format of the buffer's samples,
`otherFormat` the other one of `MNSY_R16` and `MNSY_R32`. -/
def ReadExr_colorStep (cvt cvtOther convert : ℚ → ℚ) (sameFormat otherFormat : TextureFormat)
    (a_channel_format : TextureFormat) (width height numChannels : Nat)
    (flipVertically convertToSrgb : Bool) (c h w : Nat)
    (st : ExrPlanes × List ℚ) : ExrPlanes × List ℚ :=
  let x := w
  let y := if flipVertically then height - h - 1 else h
  let offset := (h * width + w) * numChannels + (c - 1)
  if c = 1 then ReadExr_copySample cvt convertToSrgb 0 (y * width + x) offset st
  else if c = 2 then ReadExr_copySample cvt convertToSrgb 1 (y * width + x) offset st
  else if c = 3 then ReadExr_copySample cvt convertToSrgb 2 (y * width + x) offset st
  else if c = 4 then
    if a_channel_format = sameFormat then
      ReadExr_copySample cvt convertToSrgb 3 (y * width + x) offset st
    else if a_channel_format = otherFormat then
      ReadExr_copyAlphaOther cvtOther convert convertToSrgb (y * width + x) offset st
    else st
  else st

/-- The channel, row and column loops of the colour path; the buffer is `malloc`ed
(here zero-filled) with `width * height * numChannels` samples. -/
def ReadExr_colorLoop (cvt cvtOther convert : ℚ → ℚ) (sameFormat otherFormat : TextureFormat)
    (a_channel_format : TextureFormat) (width height numChannels : Nat)
    (flipVertically convertToSrgb : Bool) (planes : ExrPlanes) : ExrPlanes × List ℚ :=
  forLoop numChannels (fun ci st0 =>
    forLoop height (fun h st1 =>
      forLoop width (fun w st =>
        ReadExr_colorStep cvt cvtOther convert sameFormat otherFormat a_channel_format
          width height numChannels flipVertically convertToSrgb (ci + 1) h w st) st1) st0)
    (planes, List.replicate (width * height * numChannels) 0)

/-- The channel count of the colour path: 1 for R, then 2, 3, 4 as G, B and A are
found, each one looked at only when the one before it was counted. -/
def ReadExr_numChannels (file : ExrFile) : Nat :=
  let r_channel_exists := (file.findChannel "R").isSome
  let g_channel_exists := (file.findChannel "G").isSome && r_channel_exists
  let b_channel_exists := (file.findChannel "B").isSome && g_channel_exists
  let a_channel_exists := (file.findChannel "A").isSome && b_channel_exists
  let n1 := if r_channel_exists then 1 else 0
  let n2 := if g_channel_exists then 2 else n1
  let n3 := if b_channel_exists then 3 else n2
  if a_channel_exists then 4 else n3

/-- The arrays the colour path decodes the file into (`setFrameBuffer` and
`readPixels`): one for R and one for each of G, B, A that is counted. -/
def ReadExr_decodedPlanes (file : ExrFile) (width height numChannels : Nat) : ExrPlanes :=
  let g_channel_exists := decide (numChannels ≥ 2)
  let b_channel_exists := decide (numChannels ≥ 3)
  let a_channel_exists := decide (numChannels ≥ 4)
  ⟨exrReadPlane (file.findChannel "R") width height,
    if g_channel_exists then exrReadPlane (file.findChannel "G") width height else [],
    if b_channel_exists then exrReadPlane (file.findChannel "B") width height else [],
    if a_channel_exists then exrReadPlane (file.findChannel "A") width height else []⟩

/-- The end of the colour path of `ReadExr`, after the channel checks: the decoded
arrays, the copy loops of the 16-bit or the 32-bit branch and the returned
`PictureInfo`. -/
def ReadExr_colorCopy (powf : ℚ → ℚ → ℚ) (toHalf : ℚ → ℚ) (file : ExrFile)
    (channel_format a_channel_format : TextureFormat) (width height numChannels : Nat)
    (flipVertically convertToSrgb : Bool) : PictureInfo × PictureError :=
  let planes := ReadExr_decodedPlanes file width height numChannels
  let buffer : Option PixelData :=
    if channel_format = MNSY_R16 then
      some (.halfs (ReadExr_colorLoop
        (fun v => toHalf (pic_util_linear2srgb_float powf v))
        (fun v => toHalf (pic_util_linear2srgb_float powf v)) toHalf
        MNSY_R16 MNSY_R32 a_channel_format width height numChannels
        flipVertically convertToSrgb planes).2)
    else if channel_format = MNSY_R32 then
      some (.floats (ReadExr_colorLoop
        (fun v => pic_util_linear2srgb_float powf v)
        (fun v => toHalf (pic_util_linear2srgb_float powf v)) (fun v => v)
        MNSY_R32 MNSY_R16 a_channel_format width height numChannels
        flipVertically convertToSrgb planes).2)
    else none
  (⟨width, height, TextureFormat.ofOrdinal (channel_format.ordinal + (numChannels - 1)),
      decide (channel_format = MNSY_R16), buffer⟩, ⟨true, ""⟩)

/-- The colour path of `ReadExr` (an R channel with a supported sample type
exists): the G, B, A chain with its `UINT` rejections, the bit-depth check of G and
B against the format of R, then the copy. -/
def ReadExr_color (powf : ℚ → ℚ → ℚ) (toHalf : ℚ → ℚ) (file : ExrFile)
    (channel_format : TextureFormat) (width height : Nat)
    (flipVertically convertToSrgb : Bool) : PictureInfo × PictureError :=
  let outInfo := PictureInfo.empty
  let uintError : PictureInfo × PictureError :=
    (outInfo, ⟨false, "ReadExr: channel format UINT is not supported"⟩)
  let r_channel_exists := (file.findChannel "R").isSome
  let channel_g := file.findChannel "G"
  let g_channel_exists := channel_g.isSome && r_channel_exists
  if g_channel_exists ∧ channel_g.map (·.type) = some ExrPixelType.UINT then uintError
  else
    let g_channel_format :=
      if g_channel_exists then (channel_g.map (fun ch => exrChannelFormat ch.type)).getD MNSY_NONE
      else MNSY_NONE
    let channel_b := file.findChannel "B"
    let b_channel_exists := channel_b.isSome && g_channel_exists
    if b_channel_exists ∧ channel_b.map (·.type) = some ExrPixelType.UINT then uintError
    else
      let b_channel_format :=
        if b_channel_exists then
          (channel_b.map (fun ch => exrChannelFormat ch.type)).getD MNSY_NONE
        else MNSY_NONE
      let channel_a := file.findChannel "A"
      let a_channel_exists := channel_a.isSome && b_channel_exists
      if a_channel_exists ∧ channel_a.map (·.type) = some ExrPixelType.UINT then uintError
      else
        let a_channel_format :=
          if a_channel_exists then
            (channel_a.map (fun ch => exrChannelFormat ch.type)).getD MNSY_NONE
          else MNSY_NONE
        let numChannels := ReadExr_numChannels file
        let throwIncompatibleFormatError :=
          (g_channel_exists && decide (g_channel_format ≠ channel_format))
            || (b_channel_exists && decide (b_channel_format ≠ channel_format))
        if throwIncompatibleFormatError then
          (outInfo, ⟨false, "ReadExr: A channel had a different bit depth than the previous one. This is not supported"⟩)
        else
          ReadExr_colorCopy powf toHalf file channel_format a_channel_format width height
            numChannels flipVertically convertToSrgb

/-- `Picture::ReadExr` on the contents of the file. `width` and `height` are
`uint16_t`. -/
def ReadExr (powf : ℚ → ℚ → ℚ) (toHalf : ℚ → ℚ) (file : ExrFile)
    (flipVertically convertToSrgb convertGrayToRGB : Bool) : PictureInfo × PictureError :=
  let outInfo := PictureInfo.empty
  if file.magic.take 4 ≠ exrMagic then
    (outInfo, ⟨false, "ReadExr: file is not a valid .exr file"⟩)
  else
    let width := file.dataWindowWidth % 65536
    let height := file.dataWindowHeight % 65536
    let channel_r := file.findChannel "R"
    let r_channel_exists := channel_r.isSome
    let r_channel_format := (channel_r.map (fun ch => exrChannelFormat ch.type)).getD MNSY_NONE
    let gray_channel_name :=
      if r_channel_exists then ""
      else if (file.findChannel "Y").isSome then "Y"
      else if (file.findChannel "Z").isSome then "Z"
      else ""
    let gray_channel_exists :=
      !r_channel_exists && ((file.findChannel "Y").isSome || (file.findChannel "Z").isSome)
    let gray_channel := if gray_channel_exists then file.findChannel gray_channel_name else none
    let gray_channel_format :=
      (gray_channel.map (fun ch => exrChannelFormat ch.type)).getD MNSY_NONE
    let channel_format :=
      if r_channel_exists then r_channel_format
      else if gray_channel_exists then gray_channel_format
      else MNSY_NONE
    if !r_channel_exists && !gray_channel_exists then
      (outInfo, ⟨false, "ReadExr: the file does not contain either an R-channel or any grayscale channels - other purposes are not supported"⟩)
    else if channel_format = MNSY_NONE then
      (outInfo, ⟨false, "ReadExr: channel type UINT is not supported"⟩)
    else if gray_channel_exists then
      ReadExr_gray powf toHalf gray_channel channel_format width height flipVertically
        convertToSrgb convertGrayToRGB
    else
      ReadExr_color powf toHalf file channel_format width height flipVertically convertToSrgb

/-- The de-interleaving loops of `WriteExr`: input sample `(h, w, c)` goes through
`value` (promotion and optional conversion) into the array of channel `c` at row
`y` and column `w`, where `y` is `height - h - 1` when flipping and `h` otherwise. -/
def WriteExr_planesLoop (value : ℚ → ℚ) (inputBuffer : List ℚ)
    (width height numChannels : Nat) (flipVertically : Bool) (planes : ExrPlanes) :
    ExrPlanes :=
  forLoop height (fun h p0 =>
    forLoop width (fun w p1 =>
      forLoop numChannels (fun c p =>
        let offsetInputBuffer := (h * width + w) * numChannels + c
        let y := if flipVertically then height - h - 1 else h
        let offsetChannelBuffer := y * width + w
        p.put c ((p.get c).set offsetChannelBuffer
          (value (inputBuffer.getD offsetInputBuffer 0)))) p1) p0) planes

/-- The per-channel arrays `WriteExr` allocates (`malloc`, here zero-filled) for
the channels that exist. -/
def WriteExr_alloc (width height numChannels : Nat) : ExrPlanes :=
  let r_channel_exists := decide (numChannels ≥ 1)
  let g_channel_exists := decide (numChannels ≥ 2)
  let b_channel_exists := decide (numChannels ≥ 3)
  let a_channel_exists := decide (numChannels ≥ 4)
  ⟨if r_channel_exists then List.replicate (width * height) 0 else [],
    if g_channel_exists then List.replicate (width * height) 0 else [],
    if b_channel_exists then List.replicate (width * height) 0 else [],
    if a_channel_exists then List.replicate (width * height) 0 else []⟩

/-- The channels `WriteExr` inserts into the header and the frame buffer: R, G, B, A
for each channel that exists, all of type `pixelType`. -/
def WriteExr_channels (pixelType : ExrPixelType) (planes : ExrPlanes) (numChannels : Nat) :
    List (String × ExrChannel) :=
  let r_channel_exists := decide (numChannels ≥ 1)
  let g_channel_exists := decide (numChannels ≥ 2)
  let b_channel_exists := decide (numChannels ≥ 3)
  let a_channel_exists := decide (numChannels ≥ 4)
  (if r_channel_exists then [("R", ⟨pixelType, planes.r⟩)] else [])
    ++ (if g_channel_exists then [("G", ⟨pixelType, planes.g⟩)] else [])
    ++ (if b_channel_exists then [("B", ⟨pixelType, planes.b⟩)] else [])
    ++ (if a_channel_exists then [("A", ⟨pixelType, planes.a⟩)] else [])

/-- The file `WriteExr` hands to OpenEXR (`none` when the input check fails): the
header of size `width` by `height`, a channel R, G, B, A for each of the first
`numChannels` channels, of type HALF for an 8-bit or 16-bit format and FLOAT for a
32-bit format, and the per-channel arrays as pixel data. -/
def WriteExr_file (powf : ℚ → ℚ → ℚ) (toHalf : ℚ → ℚ) (pictureInfo : PictureInfo)
    (flipVertically convertToLinear : Bool) : Option ExrFile :=
  let e := pic_util_check_input_pictureInfo pictureInfo
  if !e.wasSuccessfull then none
  else
    let format := pictureInfo.textureFormat
    let width := pictureInfo.width
    let height := pictureInfo.height
    let numChannels := (get_information_from_textureFormat format).1
    let channelFormat := TextureFormat.ofOrdinal (format.ordinal - (numChannels - 1))
    let alloc := WriteExr_alloc width height numChannels
    let inputBuffer := pictureInfo.pixels
    let result : Option (ExrPixelType × ExrPlanes) :=
      if channelFormat = MNSY_R8 then
        some (ExrPixelType.HALF,
          WriteExr_planesLoop
            (fun v => if convertToLinear then toHalf (pic_util_srgb2linear_float powf v) else v)
            (((inputBuffer.map PixelData.asBytes).getD []).map (fun b => (b.val : ℚ)))
            width height numChannels flipVertically alloc)
      else if channelFormat = MNSY_R16 then
        some (ExrPixelType.HALF,
          WriteExr_planesLoop
            (fun v => if convertToLinear then toHalf (pic_util_srgb2linear_float powf v) else v)
            ((inputBuffer.map PixelData.asHalfs).getD [])
            width height numChannels flipVertically alloc)
      else if channelFormat = MNSY_R32 then
        some (ExrPixelType.FLOAT,
          WriteExr_planesLoop
            (fun v => if convertToLinear then pic_util_srgb2linear_float powf v else v)
            ((inputBuffer.map PixelData.asFloats).getD [])
            width height numChannels flipVertically alloc)
      else none
    let channels : List (String × ExrChannel) :=
      match result with
      | some (pixelType, planes) => WriteExr_channels pixelType planes numChannels
      | none => []
    some ⟨exrMagic, width, height, channels⟩

/-- Specification of the channels a colour read counts: the longest run of names,
from the front of the list, that the file has a channel for. -/
def exrChainFrom (file : ExrFile) : List String → List ExrChannel
  | [] => []
  | name :: rest =>
    match file.findChannel name with
    | some ch => ch :: exrChainFrom file rest
    | none => []

/-- Specification of the colour channels of a file: the longest prefix of R, G, B, A
whose channels all exist. -/
def exrChain (file : ExrFile) : List ExrChannel :=
  exrChainFrom file ["R", "G", "B", "A"]

/-- Specification of the gray channel of a file: Y if it exists, else Z. -/
def exrGrayChannel (file : ExrFile) : Option ExrChannel :=
  match file.findChannel "Y" with
  | some ch => some ch
  | none => file.findChannel "Z"

/-- Specification of the channels a read uses: the counted colour chain when the
file has an R channel, and otherwise the selected gray channel. -/
def exrUsedChannels (file : ExrFile) : List ExrChannel :=
  if (file.findChannel "R").isSome then exrChain file else (exrGrayChannel file).toList

/-- Specification of the format of a gray read: the 1-channel format of the sample
type, or its 3-channel format when gray is expanded to RGB. -/
def exrGrayFormat : ExrPixelType → Bool → TextureFormat
  | .HALF, false => MNSY_R16
  | .HALF, true => MNSY_RGB16
  | .FLOAT, false => MNSY_R32
  | .FLOAT, true => MNSY_RGB32
  | .UINT, _ => MNSY_NONE

/-- Specification of a decoded sample of type `t` after the optional conversion from
linear to sRGB (a half is widened, converted and rounded to a half again). -/
def exrSrgbSample (powf : ℚ → ℚ → ℚ) (toHalf : ℚ → ℚ) (t : ExrPixelType)
    (convertToSrgb : Bool) (v : ℚ) : ℚ :=
  if convertToSrgb then
    match t with
    | .HALF => toHalf (pic_util_linear2srgb_float powf v)
    | _ => pic_util_linear2srgb_float powf v
  else v

/-- The pixel memory holding samples of type `t`. -/
def exrPixelData (t : ExrPixelType) (samples : List ℚ) : PixelData :=
  match t with
  | .HALF => .halfs samples
  | _ => .floats samples

/-- The name of colour channel number `c` (0 for R up to 3 for A). -/
def exrChannelName (c : Nat) : String :=
  if c = 0 then "R" else if c = 1 then "G" else if c = 2 then "B" else "A"

/-- The sample at index `idx` of colour channel number `c` of a file (0 when the
file has no such channel). -/
def exrSample (file : ExrFile) (c idx : Nat) : ℚ :=
  match file.findChannel (exrChannelName c) with
  | some ch => ch.data.getD idx 0
  | none => 0

/-- Specification of the conversion of a sample to the sample type `t`: rounded to
a half when `t` is half, unchanged when `t` is float (every half is a float). -/
def exrConvertSample (toHalf : ℚ → ℚ) (t : ExrPixelType) (v : ℚ) : ℚ :=
  match t with
  | .HALF => toHalf v
  | _ => v

/-- Specification of the 4-channel format of a sample type. -/
def exrRGBAFormat : ExrPixelType → TextureFormat
  | .HALF => MNSY_RGBA16
  | .FLOAT => MNSY_RGBA32
  | .UINT => MNSY_NONE

/-- Specification of the sample type of the file written for a format: half for
the 8-bit and 16-bit formats, float for the 32-bit formats. -/
def exrTypeOfFormat (f : TextureFormat) : ExrPixelType :=
  if f.ordinal ≤ 8 then .HALF else .FLOAT

/-- The pixel memory of a picture of a 16-bit or 32-bit format `f`: half samples
for a 16-bit format, float samples for a 32-bit one. -/
def pixelsOfFormat (f : TextureFormat) (samples : List ℚ) : PixelData :=
  exrPixelData (exrTypeOfFormat f) samples

/-! ## Loops with a 16-bit counter

`for (uint16_t i = ...; cond(i); i += step)` against a 32-bit bound: the counter
wraps at 65536, so such a loop need not terminate. It is run here for at most
`fuel` tests of its condition; `none` is a loop that has not finished by then. -/

/-- The loop `for (; cond(i); i += step) body(i)` with a `uint16_t` counter `i`;
returns the counter and the state at the exit. -/
def loopU16 {σ : Type} (cond : Nat → Bool) (step : Nat) (body : Nat → σ → Option σ) :
    Nat → Nat → σ → Option (Nat × σ)
  | 0, _, _ => none
  | fuel + 1, i, s =>
    if cond i then
      match body i s with
      | some s1 => loopU16 cond step body fuel ((i + step) % 65536) s1
      | none => none
    else some (i, s)

/-! ## TIFF reader

A TIFF file is taken as libtiff presents it: whether it opens, the four tags (each
a `uint32_t`), the strip size, and for every strip what `TIFFReadEncodedStrip`
decodes. -/

/-- The file behind a `TIFF*` handle. `strips` has one entry per strip: the decoded
bytes of the strip, or `none` when `TIFFReadEncodedStrip` returns -1 for it. -/
structure TiffFile where
  opens : Bool
  width : Nat
  height : Nat
  channels : Nat
  bitsPerChannel : Nat
  stripSize : Nat
  strips : List (Option (List Byte))

/-- The format switch of `ReadTiff`: the texture format (`MNSY_NONE` when no case
applies) and the channel format (left unset in the source, here `MNSY_NONE`, when
the bit depth is none of 8, 16, 32). -/
def ReadTiff_format (bitsPerChannel channels : Nat) : TextureFormat × TextureFormat :=
  if bitsPerChannel = 8 then
    (if channels = 1 then MNSY_R8 else if channels = 2 then MNSY_RG8
      else if channels = 3 then MNSY_RGB8 else if channels = 4 then MNSY_RGBA8
      else MNSY_NONE, MNSY_R8)
  else if bitsPerChannel = 16 then
    (if channels = 1 then MNSY_R16 else if channels = 2 then MNSY_RG16
      else if channels = 3 then MNSY_RGB16 else if channels = 4 then MNSY_RGBA16
      else MNSY_NONE, MNSY_R16)
  else if bitsPerChannel = 32 then
    (if channels = 1 then MNSY_R32 else if channels = 2 then MNSY_RG32
      else if channels = 3 then MNSY_RGB32 else if channels = 4 then MNSY_RGBA32
      else MNSY_NONE, MNSY_R32)
  else (MNSY_NONE, MNSY_NONE)

/-- Bytes per sample of a channel format (`sizeof` of the pointer type the buffer
is viewed through). -/
def ReadTiff_sampleSize (channelFormat : TextureFormat) : Nat :=
  if channelFormat = MNSY_R8 then 1 else if channelFormat = MNSY_R16 then 2 else 4

/-- Byte offset in the buffer at which strip number `strip` is decoded:
`strip * stripSize` for 8-bit data; for wider samples the pointer is advanced by
`strip * stripIncrement` samples, a product of two `uint32_t`. -/
def ReadTiff_stripOffset (stripSize sampleSize strip : Nat) : Nat :=
  if sampleSize = 1 then strip * stripSize
  else ((strip * ((stripSize / sampleSize) % 2 ^ 32)) % 2 ^ 32) * sampleSize

/-- The strip loop of `ReadTiff`: every strip is decoded into the buffer, and
`tiffError` is overwritten with the return value of each call (the number of bytes,
or -1). -/
def ReadTiff_readStrips (tif : TiffFile) (sampleSize : Nat) (buffer : List Byte) :
    List Byte × Int :=
  forLoop tif.strips.length (fun strip st =>
    match tif.strips.getD strip none with
    | some data =>
      (memWrite st.1 (ReadTiff_stripOffset tif.stripSize sampleSize strip) data,
        (data.length : Int))
    | none => (st.1, -1)) (buffer, 0)

/-- The row read for output row `h`: `uint16_t y = height - h - 1` (computed in
`uint32_t`), or `h` without flip. -/
def ReadTiff_srcRow (height : Nat) (flipVertically : Bool) (h : Nat) : Nat :=
  if flipVertically then ((height + 2 ^ 32 - h - 1) % 2 ^ 32) % 65536 else h

/-- The body of the scalar gray-to-RGB loops for samples of `sampleSize` bytes: the
sample at `offsetSrc` is stored three times from `offsetDest` on. Both offsets are
computed in `uint32_t`. -/
def ReadTiff_grayPixel (sampleSize : Nat) (buffer : List Byte) (width height : Nat)
    (flipVertically : Bool) (h w : Nat) (pixels : List Byte) : List Byte :=
  let y := ReadTiff_srcRow height flipVertically h
  let offsetSrc := (y * width + w) % 2 ^ 32
  let offsetDest := ((h * width + w) * 3) % 2 ^ 32
  let val := memRead buffer (offsetSrc * sampleSize) sampleSize
  memWrite (memWrite (memWrite pixels ((offsetDest + 0) * sampleSize) val)
    ((offsetDest + 1) * sampleSize) val) ((offsetDest + 2) * sampleSize) val

/-- The scalar gray-to-RGB loops (8-bit and 32-bit branches, and the 16-bit branch
of the build without SIMD): `uint16_t` counters `h` and `w` against the 32-bit
`height` and `width`. -/
def ReadTiff_grayToRGB_scalar (fuel sampleSize : Nat) (buffer : List Byte)
    (width height : Nat) (flipVertically : Bool) (pixels : List Byte) :
    Option (List Byte) :=
  (loopU16 (fun h => decide (h < height)) 1 (fun h p0 =>
    (loopU16 (fun w => decide (w < width)) 1 (fun w p =>
      some (ReadTiff_grayPixel sampleSize buffer width height flipVertically h w p))
      fuel 0 p0).map Prod.snd) fuel 0 pixels).map Prod.snd

/-- One block of the vector loop: eight 16-bit samples are loaded from
`srcRowOffset + w` and stored three times, at `destRowOffset + w * 3 + 0`, `+ 8`
and `+ 16`. -/
def ReadTiff_simdBlock (buffer : List Byte) (srcRowOffset destRowOffset w : Nat)
    (pixels : List Byte) : List Byte :=
  let grayscale := memRead buffer ((srcRowOffset + w) * 2) 16
  memWrite (memWrite (memWrite pixels ((destRowOffset + w * 3 + 0) * 2) grayscale)
    ((destRowOffset + w * 3 + 8) * 2) grayscale) ((destRowOffset + w * 3 + 16) * 2) grayscale

/-- One pixel of the remainder loop of the vector branch. -/
def ReadTiff_simdRest (buffer : List Byte) (srcRowOffset destRowOffset w : Nat)
    (pixels : List Byte) : List Byte :=
  let val := memRead buffer ((srcRowOffset + w) * 2) 2
  let destOffset := destRowOffset + w * 3
  memWrite (memWrite (memWrite pixels ((destOffset + 0) * 2) val)
    ((destOffset + 1) * 2) val) ((destOffset + 2) * 2) val

/-- One row of the vector branch: the block loop
`for (; w <= width - 8; w += 8)` (`w` is a `uint16_t`, `width - 8` a `uint32_t`),
then the remainder loop `for (; w < width; w++)` from where the first stopped. -/
def ReadTiff_simdRow (fuel : Nat) (buffer : List Byte) (width height : Nat)
    (flipVertically : Bool) (h : Nat) (pixels : List Byte) : Option (List Byte) :=
  let rowStride := (width * 3) % 2 ^ 32
  let y := ReadTiff_srcRow height flipVertically h
  let srcRowOffset := (y * width) % 2 ^ 32
  let destRowOffset := h * rowStride
  match loopU16 (fun w => decide (w ≤ (width + 2 ^ 32 - 8) % 2 ^ 32)) 8
      (fun w p => some (ReadTiff_simdBlock buffer srcRowOffset destRowOffset w p))
      fuel 0 pixels with
  | none => none
  | some (w1, p1) =>
    (loopU16 (fun w => decide (w < width)) 1
      (fun w p => some (ReadTiff_simdRest buffer srcRowOffset destRowOffset w p))
      fuel w1 p1).map Prod.snd

/-- The 16-bit gray-to-RGB branch of the default build (SIMD). -/
def ReadTiff_grayToRGB_simd (fuel : Nat) (buffer : List Byte) (width height : Nat)
    (flipVertically : Bool) (pixels : List Byte) : Option (List Byte) :=
  (loopU16 (fun h => decide (h < height)) 1
    (fun h p => ReadTiff_simdRow fuel buffer width height flipVertically h p)
    fuel 0 pixels).map Prod.snd

/-- The gray-to-RGB block of `ReadTiff` (`channels == 1 && convertGrayToRGB`): the
new buffer of `width * height * 3 * (bitsPerChannel / 8)` bytes (a `uint32_t`
product; `malloc`ed, here zero-filled) filled by the branch of the channel format. -/
def ReadTiff_grayToRGB (fuel : Nat) (disableSimd : Bool) (channelFormat : TextureFormat)
    (buffer : List Byte) (width height bitsPerChannel : Nat) (flipVertically : Bool) :
    Option (List Byte) :=
  let pixels : List Byte :=
    List.replicate ((width * height * 3 * (bitsPerChannel / 8)) % 2 ^ 32) 0
  if channelFormat = MNSY_R8 then
    ReadTiff_grayToRGB_scalar fuel 1 buffer width height flipVertically pixels
  else if channelFormat = MNSY_R16 then
    if disableSimd then
      ReadTiff_grayToRGB_scalar fuel 2 buffer width height flipVertically pixels
    else ReadTiff_grayToRGB_simd fuel buffer width height flipVertically pixels
  else if channelFormat = MNSY_R32 then
    ReadTiff_grayToRGB_scalar fuel 4 buffer width height flipVertically pixels
  else some pixels

/-- The part of `ReadTiff` after the strip loop has succeeded: gray-to-RGB
conversion, the separate row flip when it is still due, and the result. -/
def ReadTiff_finish (fuel : Nat) (disableSimd : Bool) (tif : TiffFile)
    (format channelFormat : TextureFormat) (buffer : List Byte)
    (flipVertically convertGrayToRGB : Bool) : Option (PictureInfo × PictureError) :=
  let width := tif.width
  let height := tif.height
  let channels := tif.channels
  let bytesPerPixel := (channels * (tif.bitsPerChannel / 8)) % 2 ^ 32
  let converted : Option (TextureFormat × List Byte) :=
    if channels = 1 ∧ convertGrayToRGB then
      (ReadTiff_grayToRGB fuel disableSimd channelFormat buffer width height
        tif.bitsPerChannel flipVertically).map
        (fun pixels => (TextureFormat.ofOrdinal (channelFormat.ordinal + 2), pixels))
    else some (format, buffer)
  match converted with
  | none => none
  | some (format1, buffer1) =>
    let alreadyFilpped := decide (channels = 1) && convertGrayToRGB && flipVertically
    let buffer2 :=
      if flipVertically && !alreadyFilpped then
        flipRowsInPlace buffer1 (width * bytesPerPixel) height
      else buffer1
    some (⟨width % 65536, height % 65536, format1, false, some (.bytes buffer2)⟩, ⟨true, ""⟩)

/-- `Picture::ReadTiff` on the contents of the file; `none` when a loop has not
finished within `fuel` iterations. `disableSimd` is the build flag
`PICTURE_DISABLE_SIMD`. -/
def ReadTiff (fuel : Nat) (disableSimd : Bool) (tif : TiffFile)
    (flipVertically convertGrayToRGB : Bool) : Option (PictureInfo × PictureError) :=
  if !tif.opens then
    some (PictureInfo.empty, ⟨false, "ReadTiff: failed to open file. corrupted?"⟩)
  else if tif.width = 0 ∨ tif.height = 0 then
    some (PictureInfo.empty, ⟨false, "ReadTiff: invalid Data - width or height is 0"⟩)
  else
    let format := (ReadTiff_format tif.bitsPerChannel tif.channels).1
    let channelFormat := (ReadTiff_format tif.bitsPerChannel tif.channels).2
    if format = MNSY_NONE then
      some (PictureInfo.empty, ⟨false, "ReadTiff: format could not be deterimined"⟩)
    else
      let bytesPerPixel := (tif.channels * (tif.bitsPerChannel / 8)) % 2 ^ 32
      let bufferSize := ((tif.width * tif.height) % 2 ^ 32) * bytesPerPixel
      let read := ReadTiff_readStrips tif (ReadTiff_sampleSize channelFormat)
        (List.replicate bufferSize 0)
      if read.2 = -1 then
        some (PictureInfo.empty, ⟨false, "ReadTiff: failed to read Stip"⟩)
      else
        ReadTiff_finish fuel disableSimd tif format channelFormat read.1
          flipVertically convertGrayToRGB

/-! ## JPEG and HDR readers

`stbi_load` and `stbi_loadf` return the decoded buffer, or `NULL` when the file
cannot be read or parsed, and fill the `int` locals `width`, `height` and
`channels`. Those locals are not initialised by the readers: after a failed call
they hold whatever they held before. -/

/-- The outcome of a call of `stbi_load` or `stbi_loadf`: the returned buffer
(`none` for `NULL`) and the values of `width`, `height` and `channels` after the
call. -/
structure StbResult (α : Type) where
  data : Option (List α)
  width : Int
  height : Int
  channels : Int

/-- The gray-to-RGB loops of `ReadJpg`: byte `h * width + w` of the decoded buffer
is copied to the three bytes from `(h * width + w) * 3` on; `h` and `w` are
`uint16_t` counters against the `int` height and width. -/
def ReadJpg_grayToRGB (fuel : Nat) (buffer : List Byte) (width height : Int)
    (pixels : List Byte) : Option (List Byte) :=
  (loopU16 (fun h => decide ((h : Int) < height)) 1 (fun h p0 =>
    (loopU16 (fun w => decide ((w : Int) < width)) 1 (fun w p =>
      let offsetSrc := h * width.toNat + w
      let offsetDest := offsetSrc * 3
      let val := memRead buffer offsetSrc 1
      some (memWrite (memWrite (memWrite p (offsetDest + 0) val) (offsetDest + 1) val)
        (offsetDest + 2) val))
      fuel 0 p0).map Prod.snd) fuel 0 pixels).map Prod.snd

/-- `Picture::ReadJpg` on the outcome of `stbi_load`; `none` when a loop has not
finished within `fuel` iterations. The flag set at the start is never changed, and
the returned buffer is never compared with `NULL`. Reading through a `NULL` buffer
in the gray-to-RGB loops is undefined in the source; the model reads an empty
buffer there. -/
def ReadJpg (fuel : Nat) (img : StbResult Byte) (_flipVertically convertGrayToRGB : Bool) :
    Option (PictureInfo × PictureError) :=
  let outPictureError : PictureError := ⟨true, ""⟩
  let format0 := MNSY_R8
  let format1 := if img.channels = 2 then MNSY_RG8 else format0
  let format2 := if img.channels = 3 then MNSY_RGB8 else format1
  let converted : Option (TextureFormat × Option (List Byte)) :=
    if img.channels = 1 ∧ convertGrayToRGB then
      (ReadJpg_grayToRGB fuel (img.data.getD []) img.width img.height
        (List.replicate ((img.width * img.height * 3) % 2 ^ 64).toNat 0)).map
        (fun pixels => (MNSY_RGB8, some pixels))
    else some (format2, img.data)
  converted.map (fun r =>
    (⟨(img.width % 65536).toNat, (img.height % 65536).toNat, r.1, false,
        r.2.map PixelData.bytes⟩, outPictureError))

/-- `pic_util_linear2srgb_floatBuffer`: the first `pixelCount` floats of the
buffer are converted in place (the vector build computes the same value for every
float, eight at a time). -/
def pic_util_linear2srgb_floatBuffer (powf : ℚ → ℚ → ℚ) (buffer : List ℚ)
    (pixelCount : Nat) : List ℚ :=
  forLoop pixelCount (fun p buf => buf.set p (pic_util_linear2srgb_float powf (buf.getD p 0)))
    buffer

/-- `Picture::ReadHdr` on the outcome of `stbi_loadf`. The flag set at the start
is never changed, and the returned buffer is never compared with `NULL`. Converting
a `NULL` buffer is undefined in the source; the model leaves it `NULL`. -/
def ReadHdr (powf : ℚ → ℚ → ℚ) (img : StbResult ℚ) (_flipVertically convertToSrgb : Bool) :
    PictureInfo × PictureError :=
  let outPictureError : PictureError := ⟨true, ""⟩
  let buffer :=
    if convertToSrgb then
      img.data.map (fun b => pic_util_linear2srgb_floatBuffer powf b
        ((img.width * img.height * img.channels) % 2 ^ 64).toNat)
    else img.data
  (⟨(img.width % 65536).toNat, (img.height % 65536).toNat, MNSY_RGB32, false,
      buffer.map PixelData.floats⟩, outPictureError)

/-! ## Facade and input check: theorems -/

/-- The detector on the extension of `out.hdr`. -/
theorem detect_out_hdr :
    get_imageFileFormat_from_fileExtentionString (fileNameExtension "out.hdr")
      = MNSY_FILE_FORMAT_HDR := by decide

/-- Claim C1, evaluated at a failing input. Writing a valid 1 by 1 RGB32 picture
to a `.hdr` path with `convertExrAndHdrToLinear` set reports success and leaves
the caller's pixel buffer changed: every sample 1/25 has become 1/323, so the
`PictureInfo` after the call differs from the one before. -/
theorem WritePicture_hdr_overwrites_caller_pixels :
    (WritePicture (Env.simple []) false "out.hdr"
        ⟨1, 1, MNSY_RGB32, false, some (.floats [1 / 25, 1 / 25, 1 / 25])⟩ false true).err
      = ⟨true, ""⟩ ∧
    (WritePicture (Env.simple []) false "out.hdr"
        ⟨1, 1, MNSY_RGB32, false, some (.floats [1 / 25, 1 / 25, 1 / 25])⟩ false true).info.pixels
      = some (.floats [1 / 323, 1 / 323, 1 / 323]) ∧
    (WritePicture (Env.simple []) false "out.hdr"
        ⟨1, 1, MNSY_RGB32, false, some (.floats [1 / 25, 1 / 25, 1 / 25])⟩ false true).info
      ≠ ⟨1, 1, MNSY_RGB32, false, some (.floats [1 / 25, 1 / 25, 1 / 25])⟩ := by
  have h := detect_out_hdr
  simp [WritePicture, Env.simple, h, WriteHdr, WriteResult.entered,
    pic_util_check_input_pictureInfo, get_channels_amount_from_textureFormat,
    TextureFormat.ordinal, forLoop, pic_util_srgb2linear_float, PixelData.withFloats,
    PixelData.asFloats, List.range, List.range.loop]
  norm_num

/-- Outside the linear conversion of `WriteHdr` no write adapter stores into the
caller's `PictureInfo`: when the detected format is not HDR, or the conversion is
not requested, the `PictureInfo` after `WritePicture` is the one before. -/
theorem WritePicture_info_unchanged (env : Env) (disableSimd : Bool) (filepath : String)
    (pictureInfo : PictureInfo) (flip conv : Bool)
    (h : env.get_imageFileFormat_from_fileExtentionString (env.extension filepath)
        ≠ MNSY_FILE_FORMAT_HDR ∨ conv = false) :
    (WritePicture env disableSimd filepath pictureInfo flip conv).info = pictureInfo := by
  have hfl : ∀ d : PixelData, d.withFloats d.asFloats = d := by
    intro d; cases d <;> rfl
  have hpix : Option.map (fun d : PixelData =>
      d.withFloats ((pictureInfo.pixels.map PixelData.asFloats).getD [])) pictureInfo.pixels
        = pictureInfo.pixels := by
    cases hp : pictureInfo.pixels with
    | none => rfl
    | some d => simp [hfl]
  cases hf : env.get_imageFileFormat_from_fileExtentionString (env.extension filepath) with
  | MNSY_FILE_FORMAT_NONE => simp only [WritePicture, hf]
  | MNSY_FILE_FORMAT_TIF =>
    simp only [WritePicture, hf, WriteResult.entered, WriteTiff]; split_ifs <;> rfl
  | MNSY_FILE_FORMAT_PNG =>
    simp only [WritePicture, hf, WriteResult.entered, WritePng]; split_ifs <;> rfl
  | MNSY_FILE_FORMAT_JPG =>
    simp only [WritePicture, hf, WriteResult.entered, WriteJpg]; split_ifs <;> rfl
  | MNSY_FILE_FORMAT_HDR =>
    have hc : conv = false := by
      rcases h with h | h
      · exact absurd hf h
      · exact h
    subst hc
    simp only [WritePicture, hf, WriteResult.entered, WriteHdr, Bool.false_eq_true, if_false,
      hpix]
    split_ifs <;> rfl
  | MNSY_FILE_FORMAT_EXR =>
    simp only [WritePicture, hf, WriteResult.entered, WriteExr]; split_ifs <;> rfl
  | MNSY_FILE_FORMAT_KTX2 =>
    simp only [WritePicture, hf, WriteResult.entered, WriteKtx2]; split_ifs <;> rfl

/-- Claim C2, evaluated at a failing input. For a path that names no existing file
`ReadPicture` returns the empty `PictureInfo`, but the success flag of the returned
`PictureError` is `true`. -/
theorem ReadPicture_missing_file_reports_success :
    (ReadPicture (Env.simple []) "missing.png" true false false).err
        = ⟨true, "Read: filepath does exist."⟩ ∧
      (ReadPicture (Env.simple []) "missing.png" true false false).info = PictureInfo.empty := by
  decide

/-- The missing-file branch of `ReadPicture` in any environment. -/
theorem ReadPicture_missing_file (env : Env) (filepath : String) (f g s : Bool)
    (h : env.fileExists filepath = false) :
    ReadPicture env filepath f g s = ⟨PictureInfo.empty, ⟨true, "Read: filepath does exist."⟩, []⟩ := by
  simp [ReadPicture, h]

/-- Claim C3. When the format detector returns `MNSY_FILE_FORMAT_NONE` for the
extension of the path, `WritePicture` returns the success flag `false` with the
unsupported-extension message and an empty trace (no adapter entered, no library
call), for any `PictureInfo`; and so does `ReadPicture` for an existing file,
which also returns the empty `PictureInfo`. -/
theorem facade_detection_miss (env : Env) (disableSimd : Bool) (filepath : String)
    (pictureInfo : PictureInfo) (flip conv gray : Bool)
    (hNone : env.get_imageFileFormat_from_fileExtentionString (env.extension filepath)
      = MNSY_FILE_FORMAT_NONE) :
    (WritePicture env disableSimd filepath pictureInfo flip conv).err
        = ⟨false, "Write: Image File Extention \x27" ++ env.extension filepath
            ++ "\x27 is not supported."⟩
      ∧ (WritePicture env disableSimd filepath pictureInfo flip conv).trace = []
      ∧ (env.fileExists filepath = true →
          (ReadPicture env filepath flip gray conv).err
              = ⟨false, "Read: Image File Extention \x27" ++ env.extension filepath
                  ++ "\x27 is not supported."⟩
            ∧ (ReadPicture env filepath flip gray conv).trace = []
            ∧ (ReadPicture env filepath flip gray conv).info = PictureInfo.empty) := by
  refine ⟨?_, ?_, ?_⟩
  · simp [WritePicture, hNone]
  · simp [WritePicture, hNone]
  · intro hx
    simp [ReadPicture, hNone, hx]

/-- Claim C4. `pic_util_check_input_pictureInfo` returns `(true, "")` exactly when
the pixel buffer is not null, the format is not `MNSY_NONE`, and width and height
are positive; and whenever it does not return `(true, "")` its flag is `false`
and its message is not empty. -/
theorem check_input_iff (pictureInfo : PictureInfo) :
    (pic_util_check_input_pictureInfo pictureInfo = ⟨true, ""⟩ ↔
        (pictureInfo.pixels ≠ none ∧ pictureInfo.textureFormat ≠ MNSY_NONE
          ∧ 0 < pictureInfo.width ∧ 0 < pictureInfo.height))
      ∧ (pic_util_check_input_pictureInfo pictureInfo = ⟨true, ""⟩
          ∨ ((pic_util_check_input_pictureInfo pictureInfo).wasSuccessfull = false
              ∧ (pic_util_check_input_pictureInfo pictureInfo).what ≠ "")) := by
  unfold pic_util_check_input_pictureInfo
  by_cases h1 : pictureInfo.pixels = none
  · simp [h1]
  · by_cases h2 : pictureInfo.textureFormat = MNSY_NONE
    · simp [h1, h2]
    · by_cases h3 : pictureInfo.height = 0 ∨ pictureInfo.width = 0
      · simp only [h1, h2, h3, if_true, if_false]
        simp
        intro _ _ hw
        omega
      · simp only [h1, h2, h3, if_false]
        simp
        exact ⟨h1, h2, by omega, by omega⟩

/-- A `PictureInfo` with width or height 0 never passes the input check. -/
theorem check_input_zero_dimension (pictureInfo : PictureInfo)
    (h : pictureInfo.width = 0 ∨ pictureInfo.height = 0) :
    (pic_util_check_input_pictureInfo pictureInfo).wasSuccessfull = false := by
  unfold pic_util_check_input_pictureInfo
  split_ifs with h1 h2 h3
  · rfl
  · rfl
  · rfl
  · exact absurd (Or.symm h) h3

/-- Claim C5. For a `PictureInfo` whose width or height is 0, each of `WriteTiff`,
`WriteExr`, `WriteHdr`, `WriteJpg`, `WritePng` and `WriteKtx2` returns the success
flag `false` with an empty trace: no encoder was called and no file created. -/
theorem write_adapters_reject_zero_dimension (env : Env) (disableSimd : Bool)
    (outPictureError : PictureError) (filepath : String) (pictureInfo : PictureInfo)
    (flip conv : Bool) (h : pictureInfo.width = 0 ∨ pictureInfo.height = 0) :
    ((WriteTiff filepath pictureInfo flip).err.wasSuccessfull = false
        ∧ (WriteTiff filepath pictureInfo flip).trace = [])
      ∧ ((WriteExr filepath pictureInfo flip conv).err.wasSuccessfull = false
        ∧ (WriteExr filepath pictureInfo flip conv).trace = [])
      ∧ ((WriteHdr env outPictureError filepath pictureInfo flip conv).err.wasSuccessfull = false
        ∧ (WriteHdr env outPictureError filepath pictureInfo flip conv).trace = [])
      ∧ ((WriteJpg env filepath pictureInfo flip).err.wasSuccessfull = false
        ∧ (WriteJpg env filepath pictureInfo flip).trace = [])
      ∧ ((WritePng env disableSimd filepath pictureInfo flip).err.wasSuccessfull = false
        ∧ (WritePng env disableSimd filepath pictureInfo flip).trace = [])
      ∧ ((WriteKtx2 env filepath pictureInfo flip).err.wasSuccessfull = false
        ∧ (WriteKtx2 env filepath pictureInfo flip).trace = []) := by
  have hc := check_input_zero_dimension pictureInfo h
  refine ⟨?_, ?_, ?_, ?_, ?_, ?_⟩
  · simp [WriteTiff, hc]
  · simp [WriteExr, hc]
  · simp [WriteHdr, hc]
  · simp [WriteJpg, hc]
  · simp [WritePng, hc]
  · simp [WriteKtx2, hc]

/-- Claim C5 at a 3 by 0 picture. -/
theorem write_adapters_reject_zero_dimension_witness :
    ((3 : Nat) = 0 ∨ (0 : Nat) = 0) ∧
    ((WriteTiff "a.tif" ⟨3, 0, MNSY_RGB8, false, some (.bytes [])⟩ true).err.wasSuccessfull = false
        ∧ (WriteTiff "a.tif" ⟨3, 0, MNSY_RGB8, false, some (.bytes [])⟩ true).trace = []) :=
  ⟨Or.inr rfl,
    (write_adapters_reject_zero_dimension (Env.simple []) false ⟨true, ""⟩ "a.tif"
      ⟨3, 0, MNSY_RGB8, false, some (.bytes [])⟩ true false (Or.inr rfl)).1⟩

/-- Claim C3 at the existing file `a.bmp`. -/
theorem facade_detection_miss_witness :
    (Env.simple ["a.bmp"]).get_imageFileFormat_from_fileExtentionString
        ((Env.simple ["a.bmp"]).extension "a.bmp") = MNSY_FILE_FORMAT_NONE
      ∧ (WritePicture (Env.simple ["a.bmp"]) false "a.bmp" PictureInfo.empty true false).trace = []
      ∧ (ReadPicture (Env.simple ["a.bmp"]) "a.bmp" true false false).err.wasSuccessfull = false :=
  ⟨by decide,
    (facade_detection_miss (Env.simple ["a.bmp"]) false "a.bmp" PictureInfo.empty true false false
      (by decide)).2.1,
    by
      have h := ((facade_detection_miss (Env.simple ["a.bmp"]) false "a.bmp" PictureInfo.empty
        true false false (by decide)).2.2 (by decide)).1
      rw [h]⟩

/-! ## Endianness swap: theorems -/

theorem getD_append_add {α : Type} (pre l : List α) (k : Nat) (d : α) :
    (pre ++ l).getD (pre.length + k) d = l.getD k d := by
  induction pre with
  | nil => simp
  | cons a pre ih =>
    have : (a :: pre).length + k = (pre.length + k) + 1 := by simp; omega
    rw [this]
    simpa using ih

theorem set_append_add {α : Type} (pre l : List α) (k : Nat) (a : α) :
    (pre ++ l).set (pre.length + k) a = pre ++ l.set k a := by
  induction pre with
  | nil => simp
  | cons b pre ih =>
    have : (b :: pre).length + k = (pre.length + k) + 1 := by simp; omega
    rw [this]
    simp [ih]

theorem swapBytesAt_append (pre l : List Byte) (k : Nat) :
    swapBytesAt (pre ++ l) (pre.length + k) = pre ++ swapBytesAt l k := by
  simp only [swapBytesAt, Nat.add_assoc, getD_append_add, set_append_add]

theorem swapBytesAt_zero (a b : Byte) (rest : List Byte) :
    swapBytesAt (a :: b :: rest) 0 = b :: a :: rest := by
  simp [swapBytesAt]

theorem swapLane_eq (a b : Byte) : swapLane (a.val + 256 * b.val) = 256 * a.val + b.val := by
  have ha := a.isLt
  have hb := b.isLt
  unfold swapLane
  have h1 : (a.val + 256 * b.val) * 256 % 65536 = 2 ^ 8 * a.val := by omega
  have h2 : (a.val + 256 * b.val) / 256 = b.val := by omega
  rw [h1, h2, ← Nat.mul_add_lt_is_or (by simp)]

theorem storeLane_loadLane (a b : Byte) (buf : List Byte) (off : Nat) :
    storeLane buf off (swapLane (a.val + 256 * b.val)) = (buf.set off b).set (off + 1) a := by
  have ha := a.isLt
  have hb := b.isLt
  have h1 : (256 * a.val + b.val) % 256 = b.val := by omega
  have h2 : (256 * a.val + b.val) / 256 % 256 = a.val := by omega
  simp only [storeLane, swapLane_eq, h1, h2, Fin.eta]

theorem simdStep_append (pre l : List Byte) (k : Nat) :
    simdStep (pre ++ l) (pre.length + k) = pre ++ simdStep l k := by
  simp only [simdStep, loadLane, storeLane, List.range, List.range.loop, List.map, List.foldl,
    Nat.add_assoc, getD_append_add, set_append_add]

theorem simdStep_zero (a0 a1 a2 a3 a4 a5 a6 a7 a8 a9 a10 a11 a12 a13 a14 a15 : Byte)
    (rest : List Byte) :
    simdStep (a0 :: a1 :: a2 :: a3 :: a4 :: a5 :: a6 :: a7 :: a8 :: a9 :: a10 :: a11 :: a12
        :: a13 :: a14 :: a15 :: rest) 0
      = a1 :: a0 :: a3 :: a2 :: a5 :: a4 :: a7 :: a6 :: a9 :: a8 :: a11 :: a10 :: a13 :: a12
        :: a15 :: a14 :: rest := by
  simp only [simdStep, loadLane, List.range, List.range.loop, List.map, List.foldl,
    List.getD_cons_zero, List.getD_cons_succ, storeLane_loadLane, Nat.zero_add, Nat.mul_zero,
    Nat.mul_one, Nat.reduceMul, Nat.reduceAdd, List.set_cons_zero, List.set_cons_succ]


theorem swapPairs_length : ∀ l : List Byte, (swapPairs l).length = l.length
  | [] => rfl
  | [_] => rfl
  | a :: b :: rest => by simp [swapPairs, swapPairs_length rest]

theorem swapPairs_append : ∀ (l₁ l₂ : List Byte), Even l₁.length →
    swapPairs (l₁ ++ l₂) = swapPairs l₁ ++ swapPairs l₂
  | [], _, _ => by simp [swapPairs]
  | [_], _, h => by simp at h
  | a :: b :: rest, l₂, h => by
    have h' : Even rest.length := by
      simp only [List.length_cons] at h
      rcases h with ⟨r, hr⟩
      exact ⟨r - 1, by omega⟩
    simp [swapPairs, swapPairs_append rest l₂ h']

theorem swapPairs_swapPairs : ∀ l : List Byte, swapPairs (swapPairs l) = l
  | [] => rfl
  | [_] => rfl
  | a :: b :: rest => by simp [swapPairs, swapPairs_swapPairs rest]

/-- The scalar tail loop swaps the whole even-length block it is given. -/
theorem tailLoop_eq : ∀ (fuel : Nat) (pre m rest : List Byte), Even m.length →
    m.length ≤ 2 * fuel →
    tailLoop (pre.length + m.length) fuel pre.length (pre ++ m ++ rest)
      = pre ++ swapPairs m ++ rest
  | 0, pre, m, rest, _, hf => by
    have : m = [] := List.eq_nil_of_length_eq_zero (by omega)
    subst this
    simp [tailLoop, swapPairs]
  | fuel + 1, pre, [], rest, _, _ => by simp [tailLoop, swapPairs]
  | fuel + 1, pre, [_], rest, h, _ => by simp at h
  | fuel + 1, pre, a :: b :: m, rest, h, hf => by
    have h' : Even m.length := by
      simp only [List.length_cons] at h
      rcases h with ⟨r, hr⟩
      exact ⟨r - 1, by omega⟩
    have hf' : m.length ≤ 2 * fuel := by simp only [List.length_cons] at hf; omega
    have hlt : pre.length < pre.length + (a :: b :: m).length := by simp
    have hstep : swapBytesAt (pre ++ (a :: b :: m) ++ rest) pre.length
        = (pre ++ [b, a]) ++ m ++ rest := by
      have := swapBytesAt_append pre (a :: b :: (m ++ rest)) 0
      simp only [Nat.add_zero, swapBytesAt_zero] at this
      simpa using this
    have hlen : pre.length + (a :: b :: m).length = (pre ++ [b, a]).length + m.length := by
      simp; omega
    have hpos : pre.length + 2 = (pre ++ [b, a]).length := by simp
    rw [tailLoop, if_pos hlt, hstep, hlen, hpos, tailLoop_eq fuel (pre ++ [b, a]) m rest h' hf']
    simp [swapPairs]


theorem even_length_drop_two {a b : Byte} {m : List Byte} (h : Even (a :: b :: m).length) :
    Even m.length := by
  simp only [List.length_cons] at h
  rcases h with ⟨r, hr⟩
  exact ⟨r - 1, by omega⟩

theorem exists_sixteen (c : List Byte) (h : c.length = 16) :
    ∃ a0 a1 a2 a3 a4 a5 a6 a7 a8 a9 a10 a11 a12 a13 a14 a15 : Byte,
      c = [a0, a1, a2, a3, a4, a5, a6, a7, a8, a9, a10, a11, a12, a13, a14, a15] := by
  match c, h with
  | [a0, a1, a2, a3, a4, a5, a6, a7, a8, a9, a10, a11, a12, a13, a14, a15], _ =>
    exact ⟨a0, a1, a2, a3, a4, a5, a6, a7, a8, a9, a10, a11, a12, a13, a14, a15, rfl⟩

/-- One vector step swaps a block of 16 bytes that follows `pre`. -/
theorem simdStep_block (pre c rest : List Byte) (h : c.length = 16) :
    simdStep (pre ++ c ++ rest) pre.length = pre ++ swapPairs c ++ rest := by
  obtain ⟨a0, a1, a2, a3, a4, a5, a6, a7, a8, a9, a10, a11, a12, a13, a14, a15, rfl⟩ :=
    exists_sixteen c h
  have := simdStep_append pre ([a0, a1, a2, a3, a4, a5, a6, a7, a8, a9, a10, a11, a12, a13,
    a14, a15] ++ rest) 0
  simp only [Nat.add_zero, List.cons_append, List.nil_append, simdStep_zero] at this
  simp only [List.append_assoc, List.cons_append, List.nil_append, this, swapPairs]

/-- The vector loop swaps an even-length front part of the block and leaves the
remainder of the block for the tail loop. -/
theorem simdLoop_spec : ∀ (fuel : Nat) (pre m rest : List Byte),
    ∃ m1 m2 : List Byte, m = m1 ++ m2 ∧ Even m1.length ∧
      simdLoop (pre.length + m.length) fuel pre.length (pre ++ m ++ rest)
        = (pre.length + m1.length, pre ++ swapPairs m1 ++ m2 ++ rest)
  | 0, pre, m, rest => ⟨[], m, by simp, by simp, by simp [simdLoop, swapPairs]⟩
  | fuel + 1, pre, m, rest => by
    by_cases h16 : 16 ≤ m.length
    · have hc : (m.take 16).length = 16 := by simp [List.length_take]; omega
      obtain ⟨m1, m2, hm, hev, hloop⟩ :=
        simdLoop_spec fuel (pre ++ swapPairs (m.take 16)) (m.drop 16) rest
      refine ⟨m.take 16 ++ m1, m2, ?_, ?_, ?_⟩
      · rw [List.append_assoc, ← hm, List.take_append_drop]
      · rw [List.length_append, hc]
        exact Even.add ⟨8, rfl⟩ hev
      · have hstep : simdStep (pre ++ m ++ rest) pre.length
            = pre ++ swapPairs (m.take 16) ++ m.drop 16 ++ rest := by
          have hb := simdStep_block pre (m.take 16) (m.drop 16 ++ rest) hc
          have e : pre ++ m ++ rest = pre ++ m.take 16 ++ (m.drop 16 ++ rest) := by
            conv_lhs => rw [← List.take_append_drop 16 m]
            simp only [List.append_assoc]
          rw [e, hb]
          simp only [List.append_assoc]
        have hlen : pre.length + m.length
            = (pre ++ swapPairs (m.take 16)).length + (m.drop 16).length := by
          simp [swapPairs_length, List.length_take, List.length_drop]; omega
        have hpos : pre.length + 16 = (pre ++ swapPairs (m.take 16)).length := by
          simp [swapPairs_length, hc]
        have hcond : pre.length + 16 ≤ pre.length + m.length := by omega
        rw [simdLoop, if_pos hcond, hstep, hlen, hpos, hloop]
        rw [swapPairs_append _ _ ⟨8, hc⟩]
        simp [swapPairs_length, hc, List.append_assoc]; omega
    · refine ⟨[], m, by simp, by simp, ?_⟩
      have hcond : ¬ pre.length + 16 ≤ pre.length + m.length := by omega
      rw [simdLoop, if_neg hcond]
      simp [swapPairs]

/-- The fallback loop swaps the block of `n` samples that follows `pre`. -/
theorem scalarLoop_eq : ∀ (fuel n i : Nat) (pre m rest : List Byte), pre.length = i * 2 →
    m.length = 2 * n → n ≤ fuel →
    scalarLoop (i + n) fuel i (pre ++ m ++ rest) = pre ++ swapPairs m ++ rest
  | 0, n, i, pre, m, rest, _, hm, hf => by
    have : m = [] := List.eq_nil_of_length_eq_zero (by omega)
    subst this
    simp [scalarLoop, swapPairs]
  | fuel + 1, 0, i, pre, m, rest, _, hm, _ => by
    have : m = [] := List.eq_nil_of_length_eq_zero (by omega)
    subst this
    simp [scalarLoop, swapPairs]
  | fuel + 1, n + 1, i, pre, [], rest, _, hm, _ => by simp at hm
  | fuel + 1, n + 1, i, pre, [_], rest, _, hm, _ => by simp at hm; omega
  | fuel + 1, n + 1, i, pre, a :: b :: m, rest, hp, hm, hf => by
    have hm' : m.length = 2 * n := by simp only [List.length_cons] at hm; omega
    have hstep : swapBytesAt (pre ++ (a :: b :: m) ++ rest) (i * 2)
        = (pre ++ [b, a]) ++ m ++ rest := by
      have := swapBytesAt_append pre (a :: b :: (m ++ rest)) 0
      simp only [Nat.add_zero, swapBytesAt_zero] at this
      rw [← hp]
      simpa using this
    have hp' : (pre ++ [b, a]).length = (i + 1) * 2 := by simp [hp]; omega
    have hidx : i + (n + 1) = (i + 1) + n := by omega
    have hlt : i < i + (n + 1) := by omega
    rw [scalarLoop, if_pos hlt, hstep, hidx,
      scalarLoop_eq fuel n (i + 1) (pre ++ [b, a]) m rest hp' hm' (by omega)]
    simp [swapPairs]

/-- The vector path on a buffer split at its two (wrapped) byte offsets. -/
theorem swapEndianness_simd_decomp (pre m rest : List Byte) (bufStart bufEnd : Nat)
    (hs : bufStart * 2 % 2 ^ 32 = pre.length)
    (he : bufEnd * 2 % 2 ^ 32 = pre.length + m.length) (hm : Even m.length) :
    pic_util_SwapEndianness false (pre ++ m ++ rest) bufStart bufEnd
      = pre ++ swapPairs m ++ rest := by
  obtain ⟨m1, m2, hsplit, hev, hloop⟩ :=
    simdLoop_spec (pre.length + m.length - pre.length) pre m rest
  have hev2 : Even m2.length := by
    have : m.length = m1.length + m2.length := by rw [hsplit, List.length_append]
    rcases hm with ⟨r, hr⟩
    rcases hev with ⟨q, hq⟩
    exact ⟨r - q, by omega⟩
  have hlen : m.length = m1.length + m2.length := by rw [hsplit, List.length_append]
  have htail := tailLoop_eq (pre.length + m.length - (pre.length + m1.length))
    (pre ++ swapPairs m1) m2 rest hev2 (by omega)
  have hl : (pre ++ swapPairs m1).length = pre.length + m1.length := by
    simp [swapPairs_length]
  rw [hl] at htail
  have hstop : pre.length + m1.length + m2.length = pre.length + m.length := by omega
  rw [hstop] at htail
  simp only [pic_util_SwapEndianness, Bool.false_eq_true, if_false, hs, he, hloop]
  rw [htail, hsplit, swapPairs_append _ _ hev]
  simp [List.append_assoc]

/-- The vector path does nothing when the wrapped end offset is not beyond the
wrapped start offset. -/
theorem swapEndianness_simd_empty (buf : List Byte) (bufStart bufEnd : Nat)
    (h : bufEnd * 2 % 2 ^ 32 ≤ bufStart * 2 % 2 ^ 32) :
    pic_util_SwapEndianness false buf bufStart bufEnd = buf := by
  have h0 : bufEnd * 2 % 2 ^ 32 - bufStart * 2 % 2 ^ 32 = 0 := by omega
  simp only [pic_util_SwapEndianness, Bool.false_eq_true, if_false, h0, simdLoop,
    Nat.sub_self, tailLoop]

/-- The fallback path on a buffer split at its two byte offsets. -/
theorem swapEndianness_scalar_decomp (pre m rest : List Byte) (bufStart bufEnd : Nat)
    (hs : bufStart * 2 = pre.length) (he : bufEnd * 2 = pre.length + m.length) :
    pic_util_SwapEndianness true (pre ++ m ++ rest) bufStart bufEnd
      = pre ++ swapPairs m ++ rest := by
  have hle : bufStart ≤ bufEnd := by omega
  have hm : m.length = 2 * (bufEnd - bufStart) := by omega
  have := scalarLoop_eq (bufEnd - bufStart) (bufEnd - bufStart) bufStart pre m rest hs.symm hm
    (Nat.le_refl _)
  have hidx : bufStart + (bufEnd - bufStart) = bufEnd := by omega
  rw [hidx] at this
  simp only [pic_util_SwapEndianness, if_true, this]


theorem split_three (buf : List Byte) (s e : Nat) (h1 : s ≤ e) (h2 : e ≤ buf.length) :
    buf = buf.take s ++ memRead buf s (e - s) ++ buf.drop e
      ∧ (buf.take s).length = s ∧ (memRead buf s (e - s)).length = e - s := by
  refine ⟨?_, ?_, ?_⟩
  · have h3 : buf.drop e = (buf.drop s).drop (e - s) := by
      rw [List.drop_drop]; congr 1; omega
    rw [memRead, h3, List.append_assoc, List.take_append_drop, List.take_append_drop]
  · simp [List.length_take]; omega
  · simp [memRead, List.length_take, List.length_drop]; omega

/-- Swapping the same in-bounds range twice restores the buffer, in either build. -/
theorem swapEndianness_twice (disableSimd : Bool) (buf : List Byte)
    (bufStart bufEnd : Nat) (h1 : bufStart ≤ bufEnd) (h2 : 2 * bufEnd ≤ buf.length) :
    pic_util_SwapEndianness disableSimd
        (pic_util_SwapEndianness disableSimd buf bufStart bufEnd) bufStart bufEnd = buf := by
  cases disableSimd with
  | true =>
    obtain ⟨hbuf, hpre, hm⟩ := split_three buf (bufStart * 2) (bufEnd * 2) (by omega) (by omega)
    have hs : bufStart * 2 = (buf.take (bufStart * 2)).length := hpre.symm
    have he : bufEnd * 2 = (buf.take (bufStart * 2)).length
        + (memRead buf (bufStart * 2) (bufEnd * 2 - bufStart * 2)).length := by
      rw [hpre, hm]; omega
    have he2 : bufEnd * 2 = (buf.take (bufStart * 2)).length
        + (swapPairs (memRead buf (bufStart * 2) (bufEnd * 2 - bufStart * 2))).length := by
      rw [swapPairs_length]; exact he
    conv_lhs => rw [hbuf]
    rw [swapEndianness_scalar_decomp _ _ _ _ _ hs he,
      swapEndianness_scalar_decomp _ _ _ _ _ hs he2, swapPairs_swapPairs, ← hbuf]
  | false =>
    by_cases hw : bufEnd * 2 % 2 ^ 32 ≤ bufStart * 2 % 2 ^ 32
    · rw [swapEndianness_simd_empty _ _ _ hw, swapEndianness_simd_empty _ _ _ hw]
    · obtain ⟨hbuf, hpre, hm⟩ := split_three buf (bufStart * 2 % 2 ^ 32) (bufEnd * 2 % 2 ^ 32)
        (by omega) (by omega)
      generalize hP : buf.take (bufStart * 2 % 2 ^ 32) = pre at hbuf hpre
      generalize hM : memRead buf (bufStart * 2 % 2 ^ 32)
        (bufEnd * 2 % 2 ^ 32 - bufStart * 2 % 2 ^ 32) = m at hbuf hm
      have hs : bufStart * 2 % 2 ^ 32 = pre.length := hpre.symm
      have he : bufEnd * 2 % 2 ^ 32 = pre.length + m.length := by rw [hpre, hm]; omega
      have hev : Even m.length := by
        rw [hm]
        exact ⟨(bufEnd * 2 % 2 ^ 32 - bufStart * 2 % 2 ^ 32) / 2, by omega⟩
      have he2 : bufEnd * 2 % 2 ^ 32 = pre.length + (swapPairs m).length := by
        rw [swapPairs_length]; exact he
      have hev2 : Even (swapPairs m).length := by rw [swapPairs_length]; exact hev
      conv_lhs => rw [hbuf]
      rw [swapEndianness_simd_decomp _ _ _ _ _ hs he hev,
        swapEndianness_simd_decomp _ _ _ _ _ hs he2 hev2, swapPairs_swapPairs, ← hbuf]

/-- Claim C6. For every byte buffer and every sample range `bufStart <= bufEnd`
that lies inside the buffer, applying `pic_util_SwapEndianness` twice with that
range gives back the original bytes (in the vector build and in the fallback
build). -/
theorem pic_util_SwapEndianness_involution (disableSimd : Bool) (buf : List Byte)
    (bufStart bufEnd : Nat) (h1 : bufStart ≤ bufEnd) (h2 : 2 * bufEnd ≤ buf.length) :
    pic_util_SwapEndianness disableSimd
        (pic_util_SwapEndianness disableSimd buf bufStart bufEnd) bufStart bufEnd = buf :=
  swapEndianness_twice disableSimd buf bufStart bufEnd h1 h2

/-- Claim C6 on six bytes and the sample range 1 to 3. -/
theorem pic_util_SwapEndianness_involution_witness :
    (1 ≤ 3 ∧ 2 * 3 ≤ ([1, 2, 3, 4, 5, 6] : List Byte).length)
      ∧ pic_util_SwapEndianness false
          (pic_util_SwapEndianness false [1, 2, 3, 4, 5, 6] 1 3) 1 3 = [1, 2, 3, 4, 5, 6] :=
  ⟨by decide,
    pic_util_SwapEndianness_involution false [1, 2, 3, 4, 5, 6] 1 3 (by decide) (by decide)⟩

/-- Without 32-bit wrap-around of the byte offsets the vector path and the
fallback path produce the same bytes. -/
theorem swapEndianness_simd_eq_scalar (buf : List Byte) (bufStart bufEnd : Nat)
    (h1 : bufStart ≤ bufEnd) (h2 : 2 * bufEnd ≤ buf.length) (h3 : 2 * bufEnd < 2 ^ 32) :
    pic_util_SwapEndianness false buf bufStart bufEnd
      = pic_util_SwapEndianness true buf bufStart bufEnd := by
  obtain ⟨hbuf, hpre, hm⟩ := split_three buf (bufStart * 2) (bufEnd * 2) (by omega) (by omega)
  generalize hP : buf.take (bufStart * 2) = pre at hbuf hpre
  generalize hM : memRead buf (bufStart * 2) (bufEnd * 2 - bufStart * 2) = m at hbuf hm
  have hs : bufStart * 2 = pre.length := hpre.symm
  have he : bufEnd * 2 = pre.length + m.length := by rw [hpre, hm]; omega
  have hs32 : bufStart * 2 % 2 ^ 32 = pre.length := by omega
  have he32 : bufEnd * 2 % 2 ^ 32 = pre.length + m.length := by omega
  have hev : Even m.length := by
    rw [hm]
    exact ⟨bufEnd - bufStart, by omega⟩
  rw [hbuf, swapEndianness_simd_decomp _ _ _ _ _ hs32 he32 hev,
    swapEndianness_scalar_decomp _ _ _ _ _ hs he]

theorem swapPairs_replicate_zero : ∀ n : Nat,
    swapPairs (List.replicate n (0 : Byte)) = List.replicate n 0
  | 0 => rfl
  | 1 => rfl
  | n + 2 => by
    simp only [List.replicate_succ, swapPairs, swapPairs_replicate_zero n]

/-- The fallback path on a buffer that starts with the sample `1, 2` followed by
zero bytes. -/
theorem swapEndianness_scalar_pair (n : Nat) :
    pic_util_SwapEndianness true (1 :: 2 :: List.replicate (2 * n) 0) 0 (n + 1)
      = 2 :: 1 :: List.replicate (2 * n) 0 := by
  have h := swapEndianness_scalar_decomp [] (1 :: 2 :: List.replicate (2 * n) 0) []
    0 (n + 1) (by simp) (by simp; omega)
  simp only [List.nil_append, List.append_nil] at h
  rw [h, swapPairs, swapPairs_replicate_zero]

/-- Claim C7, evaluated at a failing input. On a buffer of 2^32 bytes that starts
with the bytes 1, 2 and the in-bounds sample range from 0 to 2^31, the vector path
returns the buffer unchanged (its end offset `bufEnd * 2` wraps to 0 in
`uint32_t`), while the fallback path exchanges the bytes of every sample. -/
theorem swapEndianness_simd_differs_from_scalar :
    pic_util_SwapEndianness false (1 :: 2 :: List.replicate (2 ^ 32 - 2) 0) 0 (2 ^ 31)
        = 1 :: 2 :: List.replicate (2 ^ 32 - 2) 0
      ∧ pic_util_SwapEndianness true (1 :: 2 :: List.replicate (2 ^ 32 - 2) 0) 0 (2 ^ 31)
        = 2 :: 1 :: List.replicate (2 ^ 32 - 2) 0 := by
  constructor
  · exact swapEndianness_simd_empty _ 0 (2 ^ 31) (by norm_num)
  · have e1 : 2 ^ 32 - 2 = 2 * (2 ^ 31 - 1) := by norm_num
    have e2 : 2 ^ 31 = (2 ^ 31 - 1) + 1 := by norm_num
    rw [e1]
    conv_lhs => rw [e2]
    exact swapEndianness_scalar_pair (2 ^ 31 - 1)

/-! ## Vertical flip: theorems -/

theorem memRead_getElem? (buf : List Byte) (off n i : Nat) :
    (memRead buf off n)[i]? = if i < n then buf[off + i]? else none := by
  simp [memRead, List.getElem?_take, List.getElem?_drop]

theorem memRead_length (buf : List Byte) (off n : Nat) (h : off + n ≤ buf.length) :
    (memRead buf off n).length = n := by
  simp [memRead, List.length_take, List.length_drop]; omega

theorem memWrite_length (buf : List Byte) (off : Nat) (src : List Byte)
    (h : off + src.length ≤ buf.length) : (memWrite buf off src).length = buf.length := by
  simp [memWrite, List.length_take, List.length_drop]; omega

theorem memWrite_getElem? (buf : List Byte) (off : Nat) (src : List Byte) (j : Nat)
    (h : off ≤ buf.length) :
    (memWrite buf off src)[j]? =
      if j < off then buf[j]? else if j < off + src.length then src[j - off]? else buf[j]? := by
  have hl : (buf.take off).length = off := by simp [List.length_take]; omega
  simp only [memWrite, List.getElem?_append, List.length_append, hl, List.getElem?_take,
    List.getElem?_drop]
  by_cases h1 : j < off
  · simp [h1]
    omega
  · by_cases h2 : j < off + src.length
    · simp [h1, h2]
    · simp only [h1, h2, if_false]
      congr 1
      omega

theorem memRead_memWrite_same (buf : List Byte) (off : Nat) (src : List Byte)
    (h : off + src.length ≤ buf.length) :
    memRead (memWrite buf off src) off src.length = src := by
  apply List.ext_getElem?
  intro i
  rw [memRead_getElem?, memWrite_getElem? _ _ _ _ (by omega)]
  by_cases hi : i < src.length
  · have h1 : ¬ off + i < off := by omega
    have h2 : off + i < off + src.length := by omega
    simp [hi, h1]
  · simp only [hi, if_false]
    exact (List.getElem?_eq_none (by omega)).symm

theorem memRead_memWrite_disjoint (buf : List Byte) (off : Nat) (src : List Byte)
    (o n : Nat) (h : off ≤ buf.length) (hd : o + n ≤ off ∨ off + src.length ≤ o) :
    memRead (memWrite buf off src) o n = memRead buf o n := by
  apply List.ext_getElem?
  intro i
  rw [memRead_getElem?, memRead_getElem?]
  by_cases hi : i < n
  · simp only [hi, if_true]
    rw [memWrite_getElem? _ _ _ _ h]
    rcases hd with hd | hd
    · have : o + i < off := by omega
      simp [this]
    · have h1 : ¬ o + i < off := by omega
      have h2 : ¬ o + i < off + src.length := by omega
      simp [h1, h2]
  · simp [hi]

/-- Effect of one row exchange on the two rows, on every range apart from them and
on the length. -/
theorem swapRows_spec (buf : List Byte) (rs o1 o2 : Nat) (h12 : o1 + rs ≤ o2)
    (h2 : o2 + rs ≤ buf.length) :
    (swapRows buf rs o1 o2).length = buf.length
      ∧ memRead (swapRows buf rs o1 o2) o1 rs = memRead buf o2 rs
      ∧ memRead (swapRows buf rs o1 o2) o2 rs = memRead buf o1 rs
      ∧ ∀ o n, (o + n ≤ o1 ∨ (o1 + rs ≤ o ∧ o + n ≤ o2) ∨ o2 + rs ≤ o) →
          memRead (swapRows buf rs o1 o2) o n = memRead buf o n := by
  have hr1 : (memRead buf o1 rs).length = rs := memRead_length _ _ _ (by omega)
  have hr2 : (memRead buf o2 rs).length = rs := memRead_length _ _ _ (by omega)
  have hl1 : (memWrite buf o1 (memRead buf o2 rs)).length = buf.length :=
    memWrite_length _ _ _ (by omega)
  refine ⟨?_, ?_, ?_, ?_⟩
  · simp only [swapRows]
    rw [memWrite_length _ _ _ (by omega), hl1]
  · simp only [swapRows]
    rw [memRead_memWrite_disjoint _ _ _ _ _ (by omega) (Or.inl (by omega))]
    have := memRead_memWrite_same buf o1 (memRead buf o2 rs) (by omega)
    rwa [hr2] at this
  · simp only [swapRows]
    have := memRead_memWrite_same (memWrite buf o1 (memRead buf o2 rs)) o2 (memRead buf o1 rs)
      (by omega)
    rwa [hr1] at this
  · intro o n hd
    simp only [swapRows]
    rw [memRead_memWrite_disjoint _ _ _ _ _ (by omega) (by omega),
      memRead_memWrite_disjoint _ _ _ _ _ (by omega) (by omega)]

theorem forLoop_succ {σ : Type} (n : Nat) (body : Nat → σ → σ) (s : σ) :
    forLoop (n + 1) body s = body n (forLoop n body s) := by
  simp [forLoop, List.range_succ, List.foldl_append]

theorem forLoop_congr {σ : Type} (n : Nat) (f g : Nat → σ → σ) (s : σ)
    (h : ∀ i, i < n → ∀ x, f i x = g i x) : forLoop n f s = forLoop n g s := by
  induction n with
  | zero => rfl
  | succ n ih =>
    rw [forLoop_succ, forLoop_succ, ih (fun i hi x => h i (by omega) x), h n (by omega)]


theorem row_offset_le (a b rs : Nat) (h : a + 1 ≤ b) : a * rs + rs ≤ b * rs := by
  have := Nat.mul_le_mul_right rs h
  rwa [Nat.add_mul, Nat.one_mul] at this

/-- State of the row-swap loop after `k` iterations: the first `k` and the last `k`
rows are exchanged in mirrored order, everything else is as before. -/
theorem flipLoop_invariant (buf : List Byte) (rs H : Nat) (hlen : H * rs ≤ buf.length) :
    ∀ k, 2 * k ≤ H →
      (forLoop k (fun h b => swapRows b rs (h * rs) ((H - 1 - h) * rs)) buf).length
          = buf.length
        ∧ (∀ r, r < H →
            memRead (forLoop k (fun h b => swapRows b rs (h * rs) ((H - 1 - h) * rs)) buf)
                (r * rs) rs
              = if r < k ∨ H - k ≤ r then memRead buf ((H - 1 - r) * rs) rs
                else memRead buf (r * rs) rs)
        ∧ (∀ o n, H * rs ≤ o →
            memRead (forLoop k (fun h b => swapRows b rs (h * rs) ((H - 1 - h) * rs)) buf) o n
              = memRead buf o n) := by
  intro k
  induction k with
  | zero =>
    intro _
    refine ⟨rfl, ?_, fun _ _ _ => rfl⟩
    intro r hr
    have : ¬ (r < 0 ∨ H - 0 ≤ r) := by omega
    simp only [this, if_false]
    rfl
  | succ k ih =>
    intro hk
    obtain ⟨ihlen, ihrows, ihtail⟩ := ih (by omega)
    rw [forLoop_succ]
    generalize forLoop k (fun h b => swapRows b rs (h * rs) ((H - 1 - h) * rs)) buf = b
      at ihlen ihrows ihtail
    have h12 : k * rs + rs ≤ (H - 1 - k) * rs := row_offset_le _ _ _ (by omega)
    have h2' : (H - 1 - k) * rs + rs ≤ H * rs := row_offset_le _ _ _ (by omega)
    have h2 : (H - 1 - k) * rs + rs ≤ b.length := by omega
    obtain ⟨slen, stop, sbot, sother⟩ := swapRows_spec b rs (k * rs) ((H - 1 - k) * rs) h12 h2
    refine ⟨by rw [slen, ihlen], ?_, ?_⟩
    · intro r hr
      by_cases hrk : r = k
      · subst hrk
        have c1 : r < r + 1 ∨ H - (r + 1) ≤ r := Or.inl (by omega)
        rw [stop, ihrows _ (by omega), if_pos c1]
        have c2 : ¬ (H - 1 - r < r ∨ H - r ≤ H - 1 - r) := by omega
        rw [if_neg c2]
      · by_cases hrb : r = H - 1 - k
        · subst hrb
          have c1 : H - 1 - k < k + 1 ∨ H - (k + 1) ≤ H - 1 - k := Or.inr (by omega)
          rw [sbot, ihrows _ (by omega), if_pos c1]
          have c2 : ¬ (k < k ∨ H - k ≤ k) := by omega
          rw [if_neg c2]
          have : H - 1 - (H - 1 - k) = k := by omega
          rw [this]
        · have hdisj : r * rs + rs ≤ k * rs
              ∨ (k * rs + rs ≤ r * rs ∧ r * rs + rs ≤ (H - 1 - k) * rs)
              ∨ (H - 1 - k) * rs + rs ≤ r * rs := by
            rcases Nat.lt_or_gt_of_ne hrk with hlt | hgt
            · exact Or.inl (row_offset_le _ _ _ (by omega))
            · rcases Nat.lt_or_gt_of_ne hrb with hlt2 | hgt2
              · exact Or.inr (Or.inl ⟨row_offset_le _ _ _ (by omega),
                  row_offset_le _ _ _ (by omega)⟩)
              · exact Or.inr (Or.inr (row_offset_le _ _ _ (by omega)))
          rw [sother _ _ hdisj, ihrows _ hr]
          by_cases c : r < k ∨ H - k ≤ r
          · have c' : r < k + 1 ∨ H - (k + 1) ≤ r := by omega
            rw [if_pos c, if_pos c']
          · have c' : ¬ (r < k + 1 ∨ H - (k + 1) ≤ r) := by omega
            rw [if_neg c, if_neg c']
    · intro o n ho
      rw [sother _ _ (Or.inr (Or.inr (by omega))), ihtail _ _ ho]

/-- For a height of at most 65536 the 16-bit loop bounds are the exact ones. -/
theorem flipRowsInPlace_eq_loop (buf : List Byte) (rs H : Nat) (hH : H ≤ 65536) :
    flipRowsInPlace buf rs H
      = forLoop (H / 2) (fun h b => swapRows b rs (h * rs) ((H - 1 - h) * rs)) buf := by
  unfold flipRowsInPlace
  have e1 : H / 2 % 65536 = H / 2 := by omega
  simp only [e1]
  apply forLoop_congr
  intro i hi x
  have e2 : ((H + 65536 - 1) % 65536 + 2 ^ 32 - i) % 2 ^ 32 = H - 1 - i := by omega
  rw [e2]

/-- Rows of the flipped buffer, its length and the bytes after the picture. -/
theorem flipRowsInPlace_spec (buf : List Byte) (rs H : Nat) (hH : H ≤ 65536)
    (hlen : H * rs ≤ buf.length) :
    (flipRowsInPlace buf rs H).length = buf.length
      ∧ (∀ r, r < H →
          memRead (flipRowsInPlace buf rs H) (r * rs) rs = memRead buf ((H - 1 - r) * rs) rs)
      ∧ (∀ o n, H * rs ≤ o → memRead (flipRowsInPlace buf rs H) o n = memRead buf o n) := by
  rw [flipRowsInPlace_eq_loop buf rs H hH]
  obtain ⟨hl, hrows, htail⟩ := flipLoop_invariant buf rs H hlen (H / 2) (by omega)
  refine ⟨hl, ?_, htail⟩
  intro r hr
  rw [hrows r hr]
  by_cases c : r < H / 2 ∨ H - H / 2 ≤ r
  · rw [if_pos c]
  · rw [if_neg c]
    have : H - 1 - r = r := by omega
    rw [this]

/-- Two buffers with the same rows, the same bytes after the rows and the same
length are equal. -/
theorem eq_of_rows_eq (a b : List Byte) (rs H : Nat) (hl : a.length = b.length)
    (hrows : ∀ r, r < H → memRead a (r * rs) rs = memRead b (r * rs) rs)
    (htail : ∀ o n, H * rs ≤ o → memRead a o n = memRead b o n) : a = b := by
  have htake : ∀ k, k ≤ H → a.take (k * rs) = b.take (k * rs) := by
    intro k
    induction k with
    | zero => intro _; simp
    | succ k ih =>
      intro hk
      have e : (k + 1) * rs = k * rs + rs := by rw [Nat.add_mul, Nat.one_mul]
      have hr := hrows k (by omega)
      simp only [memRead] at hr
      rw [e, List.take_add, List.take_add, ih (by omega), hr]
  have hdrop : a.drop (H * rs) = b.drop (H * rs) := by
    have h1 := htail (H * rs) a.length (Nat.le_refl _)
    simp only [memRead] at h1
    rw [List.take_of_length_le (by simp), hl, List.take_of_length_le (by simp)] at h1
    exact h1
  rw [← List.take_append_drop (H * rs) a, ← List.take_append_drop (H * rs) b,
    htake H (Nat.le_refl _), hdrop]

theorem flipRowsInPlace_involution (buf : List Byte) (rs H : Nat) (hH : H ≤ 65536)
    (hlen : H * rs ≤ buf.length) :
    flipRowsInPlace (flipRowsInPlace buf rs H) rs H = buf := by
  obtain ⟨l1, r1, t1⟩ := flipRowsInPlace_spec buf rs H hH hlen
  obtain ⟨l2, r2, t2⟩ := flipRowsInPlace_spec (flipRowsInPlace buf rs H) rs H hH
    (by rw [l1]; exact hlen)
  apply eq_of_rows_eq _ _ rs H (by rw [l2, l1])
  · intro r hr
    rw [r2 r hr, r1 (H - 1 - r) (by omega)]
    have : H - 1 - (H - 1 - r) = r := by omega
    rw [this]
  · intro o n ho
    rw [t2 o n ho, t1 o n ho]

/-! ## Flip and PNG transforms: claims -/

/-- Inside the range of the 16-bit loop bounds: for every height of at most 65536
and every row size, on a buffer that holds `height` rows, the row-swap loop keeps
the length and leaves in row `h` what row `height - 1 - h` held before, for every
`h < height` (the middle row of an odd height included). -/
theorem flipRowsInPlace_reverses_rows (buf : List Byte) (rowSize height : Nat)
    (h2 : height ≤ 65536) (hlen : height * rowSize ≤ buf.length) :
    (flipRowsInPlace buf rowSize height).length = buf.length
      ∧ ∀ h, h < height →
          memRead (flipRowsInPlace buf rowSize height) (h * rowSize) rowSize
            = memRead buf ((height - 1 - h) * rowSize) rowSize :=
  ⟨(flipRowsInPlace_spec buf rowSize height h2 hlen).1,
    (flipRowsInPlace_spec buf rowSize height h2 hlen).2.1⟩

/-- The row reversal on three rows of two bytes. -/
theorem flipRowsInPlace_reverses_rows_witness :
    (3 ≤ 65536 ∧ 3 * 2 ≤ ([1, 2, 3, 4, 5, 6] : List Byte).length ∧ 0 < 3)
      ∧ memRead (flipRowsInPlace [1, 2, 3, 4, 5, 6] 2 3) (0 * 2) 2
      = memRead [1, 2, 3, 4, 5, 6] ((3 - 1 - 0) * 2) 2 :=
  ⟨by decide,
    (flipRowsInPlace_reverses_rows [1, 2, 3, 4, 5, 6] 2 3 (by decide) (by decide)).2 0
      (by decide)⟩

/-- With a 32-bit height of 131072 the 16-bit `heightHalf` is 0 and the loop does
not run. -/
theorem flipRowsInPlace_height_131072 (buf : List Byte) (rowSize : Nat) :
    flipRowsInPlace buf rowSize 131072 = buf := by
  simp [flipRowsInPlace, forLoop]

theorem memRead_last_of_replicate (n : Nat) :
    memRead (1 :: List.replicate (n + 1) 0) (n + 1) 1 = [0] := by
  simp [memRead, List.drop_replicate]

/-- In the buffer `1, 0, ..., 0` row 0 differs from the last row. -/
theorem flip_counter_general (n : Nat) (buf : List Byte)
    (hflip : buf = 1 :: List.replicate (n + 1) 0) :
    memRead buf (0 * 1) 1 ≠ memRead buf (n + 1) 1 := by
  subst hflip
  rw [memRead_last_of_replicate n]
  simp [memRead]

/-- Claim C8 fails at height 131072 (a height `ReadTiff` and `ReadPng` can read
from a file), row size 1 and the buffer `1, 0, ..., 0`: the loop leaves the buffer
as it is, so row 0 is not what row 131071 held. -/
theorem flipRowsInPlace_not_reversed_at_131072 :
    ¬ ∀ h, h < 131072 →
        memRead (flipRowsInPlace (1 :: List.replicate 131071 0) 1 131072) (h * 1) 1
          = memRead (1 :: List.replicate 131071 0) ((131072 - 1 - h) * 1) 1 := by
  intro hall
  have h0 := hall 0 (by norm_num)
  rw [flipRowsInPlace_height_131072] at h0
  exact flip_counter_general 131070 _ rfl h0

/-- Inside the range of the 16-bit loop bounds: for every buffer, width, height
below 65536 and bytes-per-pixel count, on a buffer that holds the picture,
applying the row-swap flip twice gives back the original buffer byte for byte. -/
theorem flipRowsInPlace_twice (buf : List Byte) (width height bytesPerPixel : Nat)
    (hh : height < 65536) (hlen : height * (width * bytesPerPixel) ≤ buf.length) :
    flipRowsInPlace (flipRowsInPlace buf (width * bytesPerPixel) height)
      (width * bytesPerPixel) height = buf :=
  flipRowsInPlace_involution buf (width * bytesPerPixel) height (by omega) hlen

/-- The double flip on three rows of one 2-byte pixel. -/
theorem flipRowsInPlace_twice_witness :
    (3 < 65536 ∧ 3 * (1 * 2) ≤ ([1, 2, 3, 4, 5, 6] : List Byte).length) ∧
    flipRowsInPlace (flipRowsInPlace [1, 2, 3, 4, 5, 6] (1 * 2) 3) (1 * 2) 3
      = [1, 2, 3, 4, 5, 6] :=
  ⟨by decide, flipRowsInPlace_twice [1, 2, 3, 4, 5, 6] 1 3 2 (by decide) (by decide)⟩

/-- Claim C9 fails at height 65537 (a height `ReadPng` can read from a file): the
16-bit `heightMinusOne` is 0 and the 16-bit `heightHalf` is 32768, so the second
first iteration of the row-swap loop exchanges row 0 with itself and the second
one exchanges row 1 with the row number 4294967295, far outside a buffer of 65537
rows. The loop does not rearrange the rows of the buffer, once or twice. -/
theorem flipRowsInPlace_out_of_bounds_at_65537 :
    (∀ (buf : List Byte) (rowSize : Nat),
        flipRowsInPlace buf rowSize 65537
          = (flipRowsInPlace_rows 65537).foldl
              (fun b p => swapRows b rowSize (p.1 * rowSize) (p.2 * rowSize)) buf)
      ∧ (flipRowsInPlace_rows 65537).length = 32768
      ∧ (flipRowsInPlace_rows 65537)[0]? = some (0, 0)
      ∧ (flipRowsInPlace_rows 65537)[1]? = some (1, 4294967295)
      ∧ ¬ (4294967295 < 65537) := by
  refine ⟨?_, ?_, ?_, ?_, by norm_num⟩
  · intro buf rowSize
    simp only [flipRowsInPlace, flipRowsInPlace_rows, forLoop, List.foldl_map]
  · simp only [flipRowsInPlace_rows, List.length_map, List.length_range]
  · simp only [flipRowsInPlace_rows]
    rw [List.getElem?_map, List.getElem?_range (by norm_num)]
    norm_num
  · simp only [flipRowsInPlace_rows]
    rw [List.getElem?_map, List.getElem?_range (by norm_num)]
    norm_num


/-- The composition of the two PNG transforms in terms of the flip and the swap:
`swap16` tells whether the format has 16-bit samples, `c` is its channel count and
`bpp` its bytes per pixel. -/
theorem png_transforms_core (ds : Bool) (w h c bpp : Nat) (buf : List Byte)
    (hbpp : bpp = 2 * c) (hh : h ≤ 65536) (hlen : h * (w * bpp) ≤ buf.length) :
    (pic_util_SwapEndianness ds
        (pic_util_SwapEndianness ds buf 0 (w * h * c % 2 ^ 32)) 0 (w * h * c % 2 ^ 32) = buf)
      ∧ (pic_util_SwapEndianness ds
          (pic_util_SwapEndianness ds (flipRowsInPlace buf (w * bpp) h) 0 (w * h * c % 2 ^ 32))
          0 (w * h * c % 2 ^ 32) = flipRowsInPlace buf (w * bpp) h) := by
  have hle : w * h * c % 2 ^ 32 ≤ w * h * c := Nat.mod_le _ _
  have he : h * (w * bpp) = 2 * (w * h * c) := by rw [hbpp]; ring
  have hl := (flipRowsInPlace_spec buf (w * bpp) h hh hlen).1
  exact ⟨swapEndianness_twice ds buf 0 _ (Nat.zero_le _) (by omega),
    swapEndianness_twice ds _ 0 _ (Nat.zero_le _) (by omega)⟩

/-- Claim C10. For each of the six formats `WritePng` accepts, every 16-bit width
and height, every buffer that holds the picture and every flag value, the
pre-encode transform of `WritePng` followed by the post-decode transform of
`ReadPng` with the same flag gives back the original buffer; and with the flag set
on the read side only, row `h` of the result is row `height - 1 - h` of the
original. -/
theorem png_transforms_round_trip (disableSimd : Bool) (format : TextureFormat)
    (width height : Nat) (flipVertically : Bool) (buf : List Byte)
    (hfmt : format = MNSY_R8 ∨ format = MNSY_RGB8 ∨ format = MNSY_RGBA8
      ∨ format = MNSY_R16 ∨ format = MNSY_RGB16 ∨ format = MNSY_RGBA16)
    (hw : width < 65536) (hh : height < 65536)
    (hlen : width * (get_information_from_textureFormat format).2.2 * height ≤ buf.length) :
    ReadPng_postDecode disableSimd format width height flipVertically
        (WritePng_preEncode disableSimd format width height flipVertically buf) = buf
      ∧ ∀ h, h < height →
          memRead (ReadPng_postDecode disableSimd format width height true
              (WritePng_preEncode disableSimd format width height false buf))
            (h * (width * (get_information_from_textureFormat format).2.2))
            (width * (get_information_from_textureFormat format).2.2)
          = memRead buf
              ((height - 1 - h) * (width * (get_information_from_textureFormat format).2.2))
              (width * (get_information_from_textureFormat format).2.2) := by
  have key : ∀ (c bits bpp : Nat), get_information_from_textureFormat format = (c, bits, bpp) →
      bpp ≤ 8 → (bits = 16 → bpp = 2 * c) →
      (ReadPng_postDecode disableSimd format width height flipVertically
          (WritePng_preEncode disableSimd format width height flipVertically buf) = buf
        ∧ ∀ h, h < height →
            memRead (ReadPng_postDecode disableSimd format width height true
                (WritePng_preEncode disableSimd format width height false buf))
              (h * (width * (get_information_from_textureFormat format).2.2))
              (width * (get_information_from_textureFormat format).2.2)
            = memRead buf
                ((height - 1 - h) * (width * (get_information_from_textureFormat format).2.2))
                (width * (get_information_from_textureFormat format).2.2)) := by
    intro c bits bpp hinfo hb8 hbits
    rw [hinfo] at hlen
    simp only at hlen
    have hlen' : height * (width * bpp) ≤ buf.length := by
      have : height * (width * bpp) = width * bpp * height := by ring
      omega
    have hmod : width * bpp % 2 ^ 32 = width * bpp := by
      have : width * bpp ≤ 65535 * 8 := Nat.mul_le_mul (by omega) hb8
      omega
    have hspec := flipRowsInPlace_spec buf (width * bpp) height (by omega) hlen'
    simp only [ReadPng_postDecode, WritePng_preEncode, hinfo, hmod]
    by_cases h16 : bits = 16
    · obtain ⟨hsw, hswf⟩ := png_transforms_core disableSimd width height c bpp buf (hbits h16)
        (by omega) hlen'
      simp only [h16, if_true]
      refine ⟨?_, ?_⟩
      · cases flipVertically with
        | true =>
          simp only [if_true, hswf]
          exact flipRowsInPlace_involution buf _ _ (by omega) hlen'
        | false => simpa using hsw
      · intro h hlt
        simp only [if_true, Bool.false_eq_true, if_false, hsw]
        exact hspec.2.1 h hlt
    · simp only [h16, if_false]
      refine ⟨?_, ?_⟩
      · cases flipVertically with
        | true =>
          simp only [if_true]
          exact flipRowsInPlace_involution buf _ _ (by omega) hlen'
        | false => simp
      · intro h hlt
        simp only [if_true, Bool.false_eq_true, if_false]
        exact hspec.2.1 h hlt
  rcases hfmt with h | h | h | h | h | h <;> subst h
  · exact key 1 8 1 rfl (by omega) (by omega)
  · exact key 3 8 3 rfl (by omega) (by omega)
  · exact key 4 8 4 rfl (by omega) (by omega)
  · exact key 1 16 2 rfl (by omega) (by omega)
  · exact key 3 16 6 rfl (by omega) (by omega)
  · exact key 4 16 8 rfl (by omega) (by omega)

/-- Claim C10 on a 1 by 2 picture of format R16, flipped on both sides. -/
theorem png_transforms_round_trip_witness :
    ((1 : Nat) < 65536 ∧ (2 : Nat) < 65536) ∧
    ReadPng_postDecode false MNSY_R16 1 2 true
        (WritePng_preEncode false MNSY_R16 1 2 true [1, 2, 3, 4]) = [1, 2, 3, 4] :=
  ⟨by decide,
    (png_transforms_round_trip false MNSY_R16 1 2 true [1, 2, 3, 4] (by decide) (by decide)
      (by decide) (by decide)).1⟩

/-! ## Format rejections of the write adapters: theorems -/

/-- Claim C12. For every `PictureInfo` that passes the input check and whose format
has 2 channels or fewer than 32 bits per channel, `WriteHdr` returns the success
flag `false` and its trace is empty: the HDR encoder is not called. -/
theorem WriteHdr_rejects_dual_and_narrow (env : Env) (outPictureError : PictureError)
    (filepath : String) (pictureInfo : PictureInfo) (flip conv : Bool)
    (hvalid : (pic_util_check_input_pictureInfo pictureInfo).wasSuccessfull = true)
    (h : get_channels_amount_from_textureFormat pictureInfo.textureFormat = 2
      ∨ bitsPerChannelOf pictureInfo.textureFormat < 32) :
    (WriteHdr env outPictureError filepath pictureInfo flip conv).err.wasSuccessfull = false
      ∧ (WriteHdr env outPictureError filepath pictureInfo flip conv).trace = [] := by
  unfold WriteHdr
  simp only [hvalid, Bool.not_true, Bool.false_eq_true, if_false]
  cases hf : pictureInfo.textureFormat <;>
    simp_all [get_channels_amount_from_textureFormat, bitsPerChannelOf,
      get_channel_textureFormat, TextureFormat.ordinal]

/-- Claim C12 at a 1 by 1 picture of format RG32. -/
theorem WriteHdr_rejects_dual_and_narrow_witness :
    (pic_util_check_input_pictureInfo
        ⟨1, 1, MNSY_RG32, false, some (.floats [0, 0])⟩).wasSuccessfull = true
      ∧ (WriteHdr (Env.simple []) ⟨true, ""⟩ "a.hdr"
          ⟨1, 1, MNSY_RG32, false, some (.floats [0, 0])⟩ false false).trace = [] :=
  ⟨by decide,
    (WriteHdr_rejects_dual_and_narrow (Env.simple []) ⟨true, ""⟩ "a.hdr"
      ⟨1, 1, MNSY_RG32, false, some (.floats [0, 0])⟩ false false (by decide)
      (Or.inl (by decide))).2⟩

/-- Claim C13 fails at a valid 1 by 1 picture of the 16-bit format R16: `WriteJpg`
reports success and calls the JPEG encoder on the down-converted sample. -/
theorem WriteJpg_accepts_R16 :
    (pic_util_check_input_pictureInfo
        ⟨1, 1, MNSY_R16, false, some (.bytes [0, 1])⟩).wasSuccessfull = true
      ∧ bitsPerChannelOf MNSY_R16 = 16
      ∧ (WriteJpg (Env.simple []) "a.jpg" ⟨1, 1, MNSY_R16, false, some (.bytes [0, 1])⟩
          false).err = ⟨true, ""⟩
      ∧ (WriteJpg (Env.simple []) "a.jpg" ⟨1, 1, MNSY_R16, false, some (.bytes [0, 1])⟩
          false).trace = [Event.stbi_write_jpg "a.jpg" 1 1 1 [1] false] := by
  decide

/-- Claim C13, amended. For every `PictureInfo` that passes the input check,
`WriteJpg` returns the success flag `false` with an empty trace (the JPEG encoder
is not called) when the format has 2 channels and when it is a 32-bit format; a
16-bit format with 1, 3 or 4 channels is not rejected: the encoder is called once,
on the temporary 8-bit buffer. -/
theorem WriteJpg_rejects_dual_and_32bit (env : Env) (filepath : String)
    (pictureInfo : PictureInfo) (flip : Bool)
    (hvalid : (pic_util_check_input_pictureInfo pictureInfo).wasSuccessfull = true) :
    ((get_channels_amount_from_textureFormat pictureInfo.textureFormat = 2
        ∨ bitsPerChannelOf pictureInfo.textureFormat = 32) →
      (WriteJpg env filepath pictureInfo flip).err.wasSuccessfull = false
        ∧ (WriteJpg env filepath pictureInfo flip).trace = [])
    ∧ ((get_channels_amount_from_textureFormat pictureInfo.textureFormat ≠ 2
        ∧ bitsPerChannelOf pictureInfo.textureFormat = 16) →
      (WriteJpg env filepath pictureInfo flip).trace
        = [Event.stbi_write_jpg filepath pictureInfo.width pictureInfo.height
            (get_channels_amount_from_textureFormat pictureInfo.textureFormat)
            (WriteJpg_convert16to8 ((pictureInfo.pixels.map PixelData.asBytes).getD [])
              pictureInfo.width pictureInfo.height
              (get_channels_amount_from_textureFormat pictureInfo.textureFormat)) flip]) := by
  unfold WriteJpg
  simp only [hvalid, Bool.not_true, Bool.false_eq_true, if_false]
  constructor
  · intro h
    cases hf : pictureInfo.textureFormat <;>
      simp_all [get_channels_amount_from_textureFormat, bitsPerChannelOf,
        get_channel_textureFormat, TextureFormat.ordinal]
  · intro h
    cases hf : pictureInfo.textureFormat <;>
      simp_all [get_channels_amount_from_textureFormat, bitsPerChannelOf,
        get_channel_textureFormat, TextureFormat.ordinal] <;>
      split_ifs <;> rfl

/-- Claim C13, amended, at a 1 by 1 picture of format RGB32. -/
theorem WriteJpg_rejects_dual_and_32bit_witness :
    (pic_util_check_input_pictureInfo
        ⟨1, 1, MNSY_RGB32, false, some (.floats [0, 0, 0])⟩).wasSuccessfull = true
      ∧ (WriteJpg (Env.simple []) "a.jpg"
          ⟨1, 1, MNSY_RGB32, false, some (.floats [0, 0, 0])⟩ false).trace = [] :=
  ⟨by decide,
    ((WriteJpg_rejects_dual_and_32bit (Env.simple []) "a.jpg"
      ⟨1, 1, MNSY_RGB32, false, some (.floats [0, 0, 0])⟩ false (by decide)).1
        (Or.inr (by decide))).2⟩

/-- Claim C14. For every `PictureInfo` that passes the input check: `WritePng`
returns the success flag `false` with an empty trace (nothing is encoded) when the
format is one of the four 32-bit formats or one of the three 2-channel formats;
and for each remaining format (R8, RGB8, RGBA8, R16, RGB16, RGBA16) the format
switch sets the colour type that matches the channel count and the bit depth of
the format, and the encoder is called with that mode. -/
theorem WritePng_format_checks (env : Env) (disableSimd : Bool) (filepath : String)
    (pictureInfo : PictureInfo) (flip : Bool)
    (hvalid : (pic_util_check_input_pictureInfo pictureInfo).wasSuccessfull = true) :
    ((bitsPerChannelOf pictureInfo.textureFormat = 32
        ∨ get_channels_amount_from_textureFormat pictureInfo.textureFormat = 2) →
      (WritePng env disableSimd filepath pictureInfo flip).err.wasSuccessfull = false
        ∧ (WritePng env disableSimd filepath pictureInfo flip).trace = [])
    ∧ ((pictureInfo.textureFormat = MNSY_R8 ∨ pictureInfo.textureFormat = MNSY_RGB8
        ∨ pictureInfo.textureFormat = MNSY_RGBA8 ∨ pictureInfo.textureFormat = MNSY_R16
        ∨ pictureInfo.textureFormat = MNSY_RGB16 ∨ pictureInfo.textureFormat = MNSY_RGBA16) →
      (∃ colorType,
          pngColorTypeForChannels
              (get_channels_amount_from_textureFormat pictureInfo.textureFormat)
            = some colorType
          ∧ WritePng_colorMode pictureInfo.textureFormat
            = some (colorType, bitsPerChannelOf pictureInfo.textureFormat))
        ∧ (WritePng env disableSimd filepath pictureInfo flip).trace.head?
          = some (Event.lodepng_encode
              (WritePng_preEncode disableSimd pictureInfo.textureFormat pictureInfo.width
                pictureInfo.height flip
                (memRead ((pictureInfo.pixels.map PixelData.asBytes).getD []) 0
                  (pictureInfo.width
                    * (get_information_from_textureFormat pictureInfo.textureFormat).2.2
                    * pictureInfo.height)))
              pictureInfo.width pictureInfo.height pictureInfo.textureFormat
              (WritePng_colorMode pictureInfo.textureFormat))) := by
  unfold WritePng
  simp only [hvalid, Bool.not_true, Bool.false_eq_true, if_false]
  constructor
  · intro h
    cases hf : pictureInfo.textureFormat <;>
      simp_all [get_channels_amount_from_textureFormat, bitsPerChannelOf,
        get_channel_textureFormat]
  · intro h
    refine ⟨?_, ?_⟩
    · rcases h with h | h | h | h | h | h <;> rw [h] <;>
        simp [pngColorTypeForChannels, WritePng_colorMode,
          get_channels_amount_from_textureFormat, bitsPerChannelOf, get_channel_textureFormat]
    · rcases h with h | h | h | h | h | h <;>
        simp only [h, get_channel_textureFormat, reduceCtorEq, if_false, or_self] <;>
        split_ifs <;> rfl

/-- Claim C14 at a 1 by 1 picture of format RG8. -/
theorem WritePng_format_checks_witness :
    (pic_util_check_input_pictureInfo
        ⟨1, 1, MNSY_RG8, false, some (.bytes [0, 0])⟩).wasSuccessfull = true
      ∧ (WritePng (Env.simple []) false "a.png"
          ⟨1, 1, MNSY_RG8, false, some (.bytes [0, 0])⟩ false).trace = [] :=
  ⟨by decide,
    ((WritePng_format_checks (Env.simple []) false "a.png"
      ⟨1, 1, MNSY_RG8, false, some (.bytes [0, 0])⟩ false (by decide)).1
        (Or.inr (by decide))).2⟩

/-! ## EXR adapter, channel detection: theorems -/

/-- The channel count of the colour path is the length of the counted chain. -/
theorem ReadExr_numChannels_eq_chain (file : ExrFile) :
    ReadExr_numChannels file = (exrChain file).length := by
  unfold ReadExr_numChannels exrChain
  cases hR : file.findChannel "R" <;> cases hG : file.findChannel "G" <;>
    cases hB : file.findChannel "B" <;> cases hA : file.findChannel "A" <;>
    simp [exrChainFrom, hR, hG, hB, hA]

/-- Claim C19. For every EXR file (the magic number is there) that has none of the
channels R, Y and Z, whatever else it has, `ReadExr` returns the success flag
`false` with the message that the file has neither an R channel nor a grayscale
channel, and the empty `PictureInfo` (no pixel buffer). -/
theorem ReadExr_no_R_no_gray (powf : ℚ → ℚ → ℚ) (toHalf : ℚ → ℚ) (file : ExrFile)
    (flip srgb gray : Bool) (hmagic : file.magic.take 4 = exrMagic)
    (hR : file.findChannel "R" = none) (hY : file.findChannel "Y" = none)
    (hZ : file.findChannel "Z" = none) :
    ReadExr powf toHalf file flip srgb gray
      = (PictureInfo.empty, ⟨false, "ReadExr: the file does not contain either an R-channel or any grayscale channels - other purposes are not supported"⟩) := by
  simp [ReadExr, hmagic, hR, hY, hZ]

/-- Claim C19 at a file that only has the channels G, B and A. -/
theorem ReadExr_no_R_no_gray_witness :
    (ReadExr (fun _ _ => 0) id
        ⟨exrMagic, 1, 1, [("G", ⟨.HALF, [1]⟩), ("B", ⟨.HALF, [1]⟩), ("A", ⟨.HALF, [1]⟩)]⟩
        false false false).2.wasSuccessfull = false := by
  rw [ReadExr_no_R_no_gray (fun _ _ => 0) id
    ⟨exrMagic, 1, 1, [("G", ⟨.HALF, [1]⟩), ("B", ⟨.HALF, [1]⟩), ("A", ⟨.HALF, [1]⟩)]⟩
    false false false (by decide) (by decide) (by decide) (by decide)]

/-- Claim C20. For every EXR file in which a channel the read uses (R; the selected
gray channel when there is no R; G when R exists; B when G is counted; A when B is
counted) has the sample type `UINT`, `ReadExr` returns the success flag `false`
and the empty `PictureInfo` (no pixel buffer). -/
theorem ReadExr_rejects_uint (powf : ℚ → ℚ → ℚ) (toHalf : ℚ → ℚ) (file : ExrFile)
    (flip srgb gray : Bool)
    (h : ∃ ch ∈ exrUsedChannels file, ch.type = ExrPixelType.UINT) :
    (ReadExr powf toHalf file flip srgb gray).2.wasSuccessfull = false
      ∧ (ReadExr powf toHalf file flip srgb gray).1 = PictureInfo.empty := by
  obtain ⟨ch, hmem, hty⟩ := h
  by_cases hmagic : file.magic.take 4 = exrMagic
  · rcases hR : file.findChannel "R" with _ | ⟨tr, dr⟩
    · rcases hY : file.findChannel "Y" with _ | ⟨ty, dy⟩
      · rcases hZ : file.findChannel "Z" with _ | ⟨tz, dz⟩
        · simp [exrUsedChannels, exrGrayChannel, hR, hY, hZ] at hmem
        · simp [exrUsedChannels, exrGrayChannel, hR, hY, hZ] at hmem
          subst hmem
          simp only at hty
          subst hty
          simp [ReadExr, hmagic, hR, hY, hZ, exrChannelFormat]
      · simp [exrUsedChannels, exrGrayChannel, hR, hY] at hmem
        subst hmem
        simp only at hty
        subst hty
        simp [ReadExr, hmagic, hR, hY, exrChannelFormat]
    · cases tr
      · simp [ReadExr, hmagic, hR, exrChannelFormat]
      all_goals
        rcases hG : file.findChannel "G" with _ | ⟨tg, dg⟩
        · simp [exrUsedChannels, exrChain, exrChainFrom, hR, hG] at hmem
          subst hmem
          simp at hty
        · cases tg
          · simp [ReadExr, ReadExr_color, hmagic, hR, hG, exrChannelFormat]
          all_goals
            rcases hB : file.findChannel "B" with _ | ⟨tb, db⟩
            · simp [exrUsedChannels, exrChain, exrChainFrom, hR, hG, hB] at hmem
              rcases hmem with hmem | hmem <;> subst hmem <;> simp at hty
            · cases tb
              · simp [ReadExr, ReadExr_color, hmagic, hR, hG, hB, exrChannelFormat]
              all_goals
                rcases hA : file.findChannel "A" with _ | ⟨ta, da⟩
                · simp [exrUsedChannels, exrChain, exrChainFrom, hR, hG, hB, hA] at hmem
                  rcases hmem with hmem | hmem | hmem <;> subst hmem <;> simp at hty
                · cases ta
                  · simp [ReadExr, ReadExr_color, hmagic, hR, hG, hB, hA, exrChannelFormat]
                  all_goals
                    simp [exrUsedChannels, exrChain, exrChainFrom, hR, hG, hB, hA] at hmem
                    rcases hmem with hmem | hmem | hmem | hmem <;> subst hmem <;> simp at hty
  · simp [ReadExr, hmagic]

/-- Claim C20 at a file with R and G of type HALF and B of type UINT. -/
theorem ReadExr_rejects_uint_witness :
    (∃ ch ∈ exrUsedChannels
        ⟨exrMagic, 1, 1, [("R", ⟨.HALF, [1]⟩), ("G", ⟨.HALF, [1]⟩), ("B", ⟨.UINT, [1]⟩)]⟩,
        ch.type = ExrPixelType.UINT)
      ∧ (ReadExr (fun _ _ => 0) id
          ⟨exrMagic, 1, 1, [("R", ⟨.HALF, [1]⟩), ("G", ⟨.HALF, [1]⟩), ("B", ⟨.UINT, [1]⟩)]⟩
          false false false).2.wasSuccessfull = false :=
  ⟨⟨⟨.UINT, [1]⟩, by decide, rfl⟩,
    (ReadExr_rejects_uint (fun _ _ => 0) id
      ⟨exrMagic, 1, 1, [("R", ⟨.HALF, [1]⟩), ("G", ⟨.HALF, [1]⟩), ("B", ⟨.UINT, [1]⟩)]⟩
      false false false ⟨⟨.UINT, [1]⟩, by decide, rfl⟩).1⟩

/-- With an R channel the read is the colour path on the format of R's type. -/
theorem ReadExr_of_R (powf : ℚ → ℚ → ℚ) (toHalf : ℚ → ℚ) (file : ExrFile)
    (flip srgb gray : Bool) (r : ExrChannel) (hmagic : file.magic.take 4 = exrMagic)
    (hR : file.findChannel "R" = some r) :
    ReadExr powf toHalf file flip srgb gray
      = if exrChannelFormat r.type = MNSY_NONE then
          (PictureInfo.empty, ⟨false, "ReadExr: channel type UINT is not supported"⟩)
        else ReadExr_color powf toHalf file (exrChannelFormat r.type)
          (file.dataWindowWidth % 65536) (file.dataWindowHeight % 65536) flip srgb := by
  simp [ReadExr, hmagic, hR]

/-- A successful colour path returns the size, the format of the channel count and
the half-float flag of the channel format. -/
theorem ReadExr_color_success (powf : ℚ → ℚ → ℚ) (toHalf : ℚ → ℚ) (file : ExrFile)
    (cf : TextureFormat) (width height : Nat) (flip srgb : Bool)
    (h : (ReadExr_color powf toHalf file cf width height flip srgb).2.wasSuccessfull = true) :
    (ReadExr_color powf toHalf file cf width height flip srgb).1.width = width
      ∧ (ReadExr_color powf toHalf file cf width height flip srgb).1.height = height
      ∧ (ReadExr_color powf toHalf file cf width height flip srgb).1.textureFormat
        = TextureFormat.ofOrdinal (cf.ordinal + (ReadExr_numChannels file - 1))
      ∧ (ReadExr_color powf toHalf file cf width height flip srgb).1.isHalfFloat
        = decide (cf = MNSY_R16) := by
  unfold ReadExr_color at h ⊢
  simp only at h ⊢
  split_ifs at h ⊢
  all_goals exact ⟨rfl, rfl, rfl, rfl⟩

/-- Claim C15. When an EXR file has an R channel, the channel count of `ReadExr` is
the length of the longest prefix of R, G, B, A whose channels all exist, a number
from 1 to 4; and when the read succeeds, the returned format is the single-channel
format of R's sample type (R16 for half, R32 for float) moved up by the channel
count minus one, and the half-float flag is set exactly when R's type is half. -/
theorem ReadExr_channel_count_and_format (powf : ℚ → ℚ → ℚ) (toHalf : ℚ → ℚ)
    (file : ExrFile) (flip srgb gray : Bool) (r : ExrChannel)
    (hR : file.findChannel "R" = some r) :
    ReadExr_numChannels file = (exrChain file).length
      ∧ 1 ≤ (exrChain file).length ∧ (exrChain file).length ≤ 4
      ∧ ((ReadExr powf toHalf file flip srgb gray).2.wasSuccessfull = true →
          (r.type = ExrPixelType.HALF ∨ r.type = ExrPixelType.FLOAT)
          ∧ (ReadExr powf toHalf file flip srgb gray).1.textureFormat
            = TextureFormat.ofOrdinal
                ((exrChannelFormat r.type).ordinal + ((exrChain file).length - 1))
          ∧ ((ReadExr powf toHalf file flip srgb gray).1.isHalfFloat = true
              ↔ r.type = ExrPixelType.HALF)) := by
  have hlen := ReadExr_numChannels_eq_chain file
  refine ⟨hlen, ?_, ?_, ?_⟩
  · rw [← hlen]
    unfold ReadExr_numChannels
    simp only [hR, Option.isSome_some, Bool.and_true]
    split_ifs <;> omega
  · rw [← hlen]
    unfold ReadExr_numChannels
    simp only
    split_ifs <;> omega
  · intro hs
    by_cases hmagic : file.magic.take 4 = exrMagic
    · rw [ReadExr_of_R powf toHalf file flip srgb gray r hmagic hR] at hs ⊢
      by_cases hn : exrChannelFormat r.type = MNSY_NONE
      · rw [if_pos hn] at hs
        exact absurd hs (by simp)
      · rw [if_neg hn] at hs ⊢
        obtain ⟨_, _, hfmt, hhalf⟩ := ReadExr_color_success powf toHalf file _ _ _ flip srgb hs
        rw [hfmt, hhalf, hlen]
        refine ⟨?_, rfl, ?_⟩
        · cases hty : r.type <;> simp_all [exrChannelFormat]
        · cases hty : r.type <;> simp [exrChannelFormat]
    · simp [ReadExr, hmagic] at hs

/-- Claim C15 at a file with the channels R, G and A (no B) of type FLOAT: two
channels are counted and the format is RG32. -/
theorem ReadExr_channel_count_and_format_witness :
    ReadExr_numChannels
        ⟨exrMagic, 1, 1, [("R", ⟨.FLOAT, [1]⟩), ("G", ⟨.FLOAT, [2]⟩), ("A", ⟨.FLOAT, [3]⟩)]⟩ = 2
      ∧ (ReadExr (fun _ _ => 0) id
          ⟨exrMagic, 1, 1, [("R", ⟨.FLOAT, [1]⟩), ("G", ⟨.FLOAT, [2]⟩), ("A", ⟨.FLOAT, [3]⟩)]⟩
          false false false).1.textureFormat = MNSY_RG32 := by
  have h := ReadExr_channel_count_and_format (fun _ _ => 0) id
    ⟨exrMagic, 1, 1, [("R", ⟨.FLOAT, [1]⟩), ("G", ⟨.FLOAT, [2]⟩), ("A", ⟨.FLOAT, [3]⟩)]⟩
    false false false ⟨.FLOAT, [1]⟩ (by decide)
  refine ⟨by rw [h.1]; decide, ?_⟩
  rw [(h.2.2.2 (by decide)).2.1]
  decide

/-- Claim C17 fails at a file whose R channel is HALF and whose G channel is UINT:
G is counted and its type differs from R's, but the message is the one for the
unsupported type `UINT`, not the one for inconsistent bit depths. -/
theorem ReadExr_uint_G_message :
    exrChain ⟨exrMagic, 1, 1, [("R", ⟨.HALF, [1]⟩), ("G", ⟨.UINT, [1]⟩)]⟩
        = [⟨.HALF, [1]⟩, ⟨.UINT, [1]⟩]
      ∧ ReadExr (fun _ _ => 0) id
          ⟨exrMagic, 1, 1, [("R", ⟨.HALF, [1]⟩), ("G", ⟨.UINT, [1]⟩)]⟩ false false false
        = (PictureInfo.empty, ⟨false, "ReadExr: channel format UINT is not supported"⟩)
      ∧ (ReadExr (fun _ _ => 0) id
          ⟨exrMagic, 1, 1, [("R", ⟨.HALF, [1]⟩), ("G", ⟨.UINT, [1]⟩)]⟩ false false false).2.what
        ≠ "ReadExr: A channel had a different bit depth than the previous one. This is not supported" := by
  decide

/-- Claim C17, amended. For every EXR file in which no channel counted by the
R, G, B, A chain has the type `UINT`, and in which the counted G channel or the
counted B channel has a sample type different from R's, `ReadExr` returns the
success flag `false` with the inconsistent-bit-depth message and the empty
`PictureInfo` (no pixel buffer). -/
theorem ReadExr_inconsistent_depth (powf : ℚ → ℚ → ℚ) (toHalf : ℚ → ℚ) (file : ExrFile)
    (flip srgb gray : Bool) (r g : ExrChannel) (hmagic : file.magic.take 4 = exrMagic)
    (hR : file.findChannel "R" = some r) (hG : file.findChannel "G" = some g)
    (hno : ∀ ch ∈ exrChain file, ch.type ≠ ExrPixelType.UINT)
    (hmis : g.type ≠ r.type ∨ ∃ b, file.findChannel "B" = some b ∧ b.type ≠ r.type) :
    ReadExr powf toHalf file flip srgb gray
      = (PictureInfo.empty, ⟨false, "ReadExr: A channel had a different bit depth than the previous one. This is not supported"⟩) := by
  obtain ⟨tr, dr⟩ := r
  obtain ⟨tg, dg⟩ := g
  rw [ReadExr_of_R powf toHalf file flip srgb gray _ hmagic hR]
  have hr : tr ≠ ExrPixelType.UINT := by
    apply hno ⟨tr, dr⟩
    simp [exrChain, exrChainFrom, hR]
  have hg : tg ≠ ExrPixelType.UINT := by
    apply hno ⟨tg, dg⟩
    simp [exrChain, exrChainFrom, hR, hG]
  rcases hB : file.findChannel "B" with _ | ⟨tb, db⟩
  · have hm : tg ≠ tr := by
      rcases hmis with h | ⟨b, hb, _⟩
      · exact h
      · rw [hB] at hb; cases hb
    cases tr <;> cases tg <;>
      simp_all [ReadExr_color, exrChannelFormat]
  · have hb : tb ≠ ExrPixelType.UINT := by
      apply hno ⟨tb, db⟩
      simp [exrChain, exrChainFrom, hR, hG, hB]
    have hm : tg ≠ tr ∨ tb ≠ tr := by
      rcases hmis with h | ⟨b, hb', hne⟩
      · exact Or.inl h
      · rw [hB] at hb'
        cases hb'
        exact Or.inr hne
    rcases hA : file.findChannel "A" with _ | ⟨ta, da⟩
    · cases tr <;> cases tg <;> cases tb <;>
        simp_all [ReadExr_color, exrChannelFormat]
    · have ha : ta ≠ ExrPixelType.UINT := by
        apply hno ⟨ta, da⟩
        simp [exrChain, exrChainFrom, hR, hG, hB, hA]
      cases tr <;> cases tg <;> cases tb <;> cases ta <;>
        simp_all [ReadExr_color, exrChannelFormat]

/-- Claim C17, amended, at a file with R of type FLOAT and G of type HALF. -/
theorem ReadExr_inconsistent_depth_witness :
    (ReadExr (fun _ _ => 0) id
        ⟨exrMagic, 1, 1, [("R", ⟨.FLOAT, [1]⟩), ("G", ⟨.HALF, [1]⟩)]⟩
        false false false).2.wasSuccessfull = false := by
  rw [ReadExr_inconsistent_depth (fun _ _ => 0) id
    ⟨exrMagic, 1, 1, [("R", ⟨.FLOAT, [1]⟩), ("G", ⟨.HALF, [1]⟩)]⟩ false false false
    ⟨.FLOAT, [1]⟩ ⟨.HALF, [1]⟩ (by decide) (by decide) (by decide) (by decide)
    (Or.inl (by decide))]

/-! ## Copy loops: general lemmas -/

theorem getD_set_eq {α : Type} (l : List α) (i : Nat) (a d : α) (h : i < l.length) :
    (l.set i a).getD i d = a := by
  simp [List.getD_eq_getElem?_getD, List.getElem?_set, h]

theorem getD_set_ne {α : Type} (l : List α) (i j : Nat) (a d : α) (h : i ≠ j) :
    (l.set i a).getD j d = l.getD j d := by
  simp [List.getD_eq_getElem?_getD, List.getElem?_set, h]

/-- Two nested loops run their body over the product of the two index lists, in
order. -/
theorem foldl_product {σ α β : Type} (f : α → β → σ → σ) (l₂ : List β) :
    ∀ (l₁ : List α) (s : σ),
      l₁.foldl (fun acc a => l₂.foldl (fun acc2 b => f a b acc2) acc) s
        = (List.product l₁ l₂).foldl (fun acc p => f p.1 p.2 acc) s
  | [], s => by simp [List.product]
  | a :: l₁, s => by
    have ih := foldl_product f l₂ l₁
    simp only [List.foldl_cons, List.product, List.flatMap_cons, List.foldl_append,
      List.foldl_map] at ih ⊢
    rw [ih]

theorem forLoop_nest2 {σ : Type} (H W : Nat) (body : Nat → Nat → σ → σ) (s : σ) :
    forLoop H (fun h acc => forLoop W (fun w acc2 => body h w acc2) acc) s
      = (List.product (List.range H) (List.range W)).foldl
          (fun acc p => body p.1 p.2 acc) s := by
  unfold forLoop
  exact foldl_product body (List.range W) (List.range H) s

theorem forLoop_nest3 {σ : Type} (A B C : Nat) (body : Nat → Nat → Nat → σ → σ) (s : σ) :
    forLoop A (fun a acc => forLoop B (fun b acc1 =>
        forLoop C (fun c acc2 => body a b c acc2) acc1) acc) s
      = (List.product (List.range A) (List.product (List.range B) (List.range C))).foldl
          (fun acc p => body p.1 p.2.1 p.2.2 acc) s := by
  have h1 : ∀ a acc, forLoop B (fun b acc1 => forLoop C (fun c acc2 => body a b c acc2) acc1) acc
      = (List.product (List.range B) (List.range C)).foldl
          (fun acc2 q => body a q.1 q.2 acc2) acc := fun a acc => forLoop_nest2 B C (body a) acc
  simp only [h1]
  unfold forLoop
  exact foldl_product (fun a (q : Nat × Nat) acc => body a q.1 q.2 acc) _ (List.range A) s

/-- A fold whose steps each read one source value and store a function of it in
some destination cells: when different steps have different sources and disjoint
destinations, every destination cell ends up holding the value computed from the
source as it was before the fold, and every other cell is unchanged. -/
theorem foldl_gather_scatter {σ ι δ α κ : Type} (step : ι → σ → σ) (Inv : σ → Prop)
    (out : σ → δ → α) (srcVal : ι → σ → α) (key : ι → κ) (dsts : ι → List δ)
    (g : ι → α → α) :
    ∀ (l : List ι), l.Nodup →
      (∀ i ∈ l, ∀ s, Inv s → Inv (step i s)) →
      (∀ i ∈ l, ∀ s, Inv s → ∀ d ∈ dsts i, out (step i s) d = g i (srcVal i s)) →
      (∀ i ∈ l, ∀ s, Inv s → ∀ d, d ∉ dsts i → out (step i s) d = out s d) →
      (∀ i ∈ l, ∀ j ∈ l, key i ≠ key j → ∀ s, Inv s → srcVal j (step i s) = srcVal j s) →
      (∀ i ∈ l, ∀ j ∈ l, i ≠ j → key i ≠ key j) →
      (∀ i ∈ l, ∀ j ∈ l, i ≠ j → ∀ d ∈ dsts i, d ∉ dsts j) →
      ∀ s0, Inv s0 →
        Inv (l.foldl (fun s i => step i s) s0)
          ∧ (∀ i ∈ l, ∀ d ∈ dsts i,
              out (l.foldl (fun s i => step i s) s0) d = g i (srcVal i s0))
          ∧ (∀ d, (∀ i ∈ l, d ∉ dsts i) →
              out (l.foldl (fun s i => step i s) s0) d = out s0 d)
  | [], _, _, _, _, _, _, _, s0, h0 => by
    refine ⟨h0, ?_, fun _ _ => rfl⟩
    intro i hi
    cases hi
  | a :: l, hnd, hInv, hout, hkeep, hsrc, hkey, hdst, s0, h0 => by
    have ha : a ∉ l := (List.nodup_cons.mp hnd).1
    have hl : l.Nodup := (List.nodup_cons.mp hnd).2
    have h1 : Inv (step a s0) := hInv a (List.mem_cons_self a l) s0 h0
    obtain ⟨ihInv, ihout, ihkeep⟩ := foldl_gather_scatter step Inv out srcVal key dsts g l hl
      (fun i hi => hInv i (List.mem_cons_of_mem a hi))
      (fun i hi => hout i (List.mem_cons_of_mem a hi))
      (fun i hi => hkeep i (List.mem_cons_of_mem a hi))
      (fun i hi j hj => hsrc i (List.mem_cons_of_mem a hi) j (List.mem_cons_of_mem a hj))
      (fun i hi j hj => hkey i (List.mem_cons_of_mem a hi) j (List.mem_cons_of_mem a hj))
      (fun i hi j hj => hdst i (List.mem_cons_of_mem a hi) j (List.mem_cons_of_mem a hj))
      (step a s0) h1
    simp only [List.foldl_cons]
    refine ⟨ihInv, ?_, ?_⟩
    · intro i hi d hd
      rcases List.mem_cons.mp hi with rfl | hil
      · have hnone : ∀ j ∈ l, d ∉ dsts j := by
          intro j hj
          have hne : i ≠ j := fun e => ha (e ▸ hj)
          exact hdst i (List.mem_cons_self i l) j (List.mem_cons_of_mem i hj) hne d hd
        rw [ihkeep d hnone]
        exact hout i (List.mem_cons_self i l) s0 h0 d hd
      · have hne : a ≠ i := fun e => ha (e ▸ hil)
        rw [ihout i hil d hd]
        have hk := hkey a (List.mem_cons_self a l) i hi hne
        rw [hsrc a (List.mem_cons_self a l) i hi hk s0 h0]
    · intro d hd
      rw [ihkeep d (fun i hi => hd i (List.mem_cons_of_mem a hi))]
      exact hkeep a (List.mem_cons_self a l) s0 h0 d (hd a (List.mem_cons_self a l))

/-- A number is written as `a * m + b` with `b < m` in one way only. -/
theorem mul_add_inj (m a b a' b' : Nat) (hb : b < m) (hb' : b' < m)
    (h : a * m + b = a' * m + b') : a = a' ∧ b = b' := by
  rcases Nat.lt_trichotomy a a' with hlt | heq | hgt
  · have := row_offset_le a a' m (by omega)
    omega
  · subst heq
    exact ⟨rfl, by omega⟩
  · have := row_offset_le a' a m (by omega)
    omega

theorem mul_add_lt (m n a b : Nat) (ha : a < n) (hb : b < m) : a * m + b < n * m := by
  have := row_offset_le a n m (by omega)
  omega

/-- The source row of output row `h`: `height - h - 1` when flipping, `h`
otherwise. It is a row of the picture, and different rows have different source
rows. -/
theorem flipRow_lt (flip : Bool) (H h : Nat) (hh : h < H) :
    (if flip then H - h - 1 else h) < H := by
  split_ifs <;> omega

theorem flipRow_inj (flip : Bool) (H h h' : Nat) (hh : h < H) (hh' : h' < H)
    (e : (if flip then H - h - 1 else h) = (if flip then H - h' - 1 else h')) : h = h' := by
  split_ifs at e <;> omega

/-! ## EXR adapter, gray path: theorems -/

theorem mem_range_product {h w H W : Nat} :
    (h, w) ∈ List.product (List.range H) (List.range W) ↔ h < H ∧ w < W := by
  show (h, w) ∈ (List.range H ×ˢ List.range W) ↔ _
  rw [List.mem_product, List.mem_range, List.mem_range]

/-- Result of the pixel loops of the gray path on a decoded array of
`height * width` cells: the buffer has `width * height * numChannels` samples and
each of the `numChannels` samples of pixel `(h, w)` is the (optionally converted)
gray value of row `y`, column `w`, with `y = height - h - 1` when flipping and
`y = h` otherwise. -/
theorem ReadExr_grayLoop_spec (cvt : ℚ → ℚ) (W H nc : Nat) (flip srgb rgb : Bool)
    (plane : List ℚ) (hp : plane.length = H * W) (hnc : nc = if rgb then 3 else 1) :
    (ReadExr_grayLoop cvt W H nc flip srgb rgb plane).2.length = W * H * nc
      ∧ ∀ h w k, h < H → w < W → k < nc →
          (ReadExr_grayLoop cvt W H nc flip srgb rgb plane).2.getD ((h * W + w) * nc + k) 0
            = if srgb then cvt (plane.getD ((if flip then H - h - 1 else h) * W + w) 0)
              else plane.getD ((if flip then H - h - 1 else h) * W + w) 0 := by
  have hWH : W * H = H * W := Nat.mul_comm W H
  have hnc0 : 0 < nc := by rw [hnc]; split_ifs <;> omega
  have main := foldl_gather_scatter
    (fun (i : Nat × Nat) s => ReadExr_grayStep cvt W H nc flip srgb rgb i.1 i.2 s)
    (fun s => s.1.length = H * W ∧ s.2.length = W * H * nc)
    (fun s d => s.2.getD d 0)
    (fun i s => s.1.getD ((if flip then H - i.1 - 1 else i.1) * W + i.2) 0)
    (fun i => (if flip then H - i.1 - 1 else i.1) * W + i.2)
    (fun i => (List.range nc).map (fun k => (i.1 * W + i.2) * nc + k))
    (fun _ v => if srgb then cvt v else v)
    (List.product (List.range H) (List.range W))
    (List.Nodup.product (List.nodup_range H) (List.nodup_range W))
    (by
      rintro ⟨h, w⟩ _ s ⟨h1, h2⟩
      simp only [ReadExr_grayStep]
      refine ⟨?_, ?_⟩
      · split_ifs <;> simp [h1]
      · split_ifs <;> simp [h2])
    (by
      rintro ⟨h, w⟩ hi s ⟨h1, h2⟩ d hd
      obtain ⟨hh, hw⟩ := mem_range_product.mp hi
      obtain ⟨k, hk, rfl⟩ := List.mem_map.mp hd
      have hk' : k < nc := List.mem_range.mp hk
      have hidx : (if flip then H - h - 1 else h) * W + w < s.1.length := by
        rw [h1]
        exact mul_add_lt W H _ w (flipRow_lt flip H h hh) hw
      have hoff : (h * W + w) * nc + k < s.2.length := by
        rw [h2, hWH]
        exact mul_add_lt nc (H * W) _ k (mul_add_lt W H h w hh hw) hk'
      simp only [ReadExr_grayStep]
      have hval : (if srgb = true then
            s.1.set ((if flip then H - h - 1 else h) * W + w)
              (cvt (s.1.getD ((if flip then H - h - 1 else h) * W + w) 0))
          else s.1).getD ((if flip then H - h - 1 else h) * W + w) 0
          = if srgb = true then cvt (s.1.getD ((if flip then H - h - 1 else h) * W + w) 0)
            else s.1.getD ((if flip then H - h - 1 else h) * W + w) 0 := by
        by_cases hs : srgb = true
        · rw [if_pos hs, if_pos hs, getD_set_eq _ _ _ _ hidx]
        · rw [if_neg hs, if_neg hs]
      rw [hval]
      cases rgb with
      | false =>
        have : nc = 1 := by simpa using hnc
        subst this
        have hk0 : k = 0 := by omega
        subst hk0
        simp only [Bool.not_false, if_true, Nat.add_zero] at hoff ⊢
        rw [getD_set_eq _ _ _ _ hoff]
      | true =>
        have : nc = 3 := by simpa using hnc
        subst this
        simp only [Bool.not_true, Bool.false_eq_true, if_false]
        have hlen1 : ∀ (l : List ℚ) i v, (l.set i v).length = l.length := fun l i v => by simp
        have hk3 : k = 0 ∨ k = 1 ∨ k = 2 := by omega
        rcases hk3 with rfl | rfl | rfl
        · rw [getD_set_ne _ _ _ _ _ (by omega), getD_set_ne _ _ _ _ _ (by omega),
            getD_set_eq _ _ _ _ (by omega)]
        · rw [getD_set_ne _ _ _ _ _ (by omega), getD_set_eq _ _ _ _ (by rw [hlen1]; omega)]
        · rw [getD_set_eq _ _ _ _ (by rw [hlen1, hlen1]; omega)])
    (by
      rintro ⟨h, w⟩ _ s _ d hd
      have hne : ∀ k, k < nc → (h * W + w) * nc + k ≠ d := by
        intro k hk e
        exact hd (List.mem_map.mpr ⟨k, List.mem_range.mpr hk, e⟩)
      simp only [ReadExr_grayStep]
      cases rgb with
      | false =>
        have : nc = 1 := by simpa using hnc
        subst this
        simp only [Bool.not_false, if_true]
        rw [getD_set_ne _ _ _ _ _ (by have := hne 0 (by omega); omega)]
      | true =>
        have : nc = 3 := by simpa using hnc
        subst this
        simp only [Bool.not_true, Bool.false_eq_true, if_false]
        rw [getD_set_ne _ _ _ _ _ (hne 2 (by omega)),
          getD_set_ne _ _ _ _ _ (hne 1 (by omega)),
          getD_set_ne _ _ _ _ _ (hne 0 (by omega))])
    (by
      rintro ⟨h, w⟩ _ ⟨h', w'⟩ _ hk s _
      simp only [ReadExr_grayStep]
      dsimp only at hk ⊢
      cases srgb with
      | true =>
        rw [if_pos (rfl : true = true)]
        exact getD_set_ne _ _ _ _ _ hk
      | false => rw [if_neg Bool.false_ne_true])
    (by
      rintro ⟨h, w⟩ hi ⟨h', w'⟩ hj hne e
      obtain ⟨hh, hw⟩ := mem_range_product.mp hi
      obtain ⟨hh', hw'⟩ := mem_range_product.mp hj
      simp only at e
      obtain ⟨e1, e2⟩ := mul_add_inj W _ w _ w' hw hw' e
      have := flipRow_inj flip H h h' hh hh' e1
      exact hne (by rw [this, e2]))
    (by
      rintro ⟨h, w⟩ hi ⟨h', w'⟩ hj hne d hd hd'
      obtain ⟨hh, hw⟩ := mem_range_product.mp hi
      obtain ⟨hh', hw'⟩ := mem_range_product.mp hj
      obtain ⟨k, hk, rfl⟩ := List.mem_map.mp hd
      obtain ⟨k', hk', e⟩ := List.mem_map.mp hd'
      obtain ⟨e1, _⟩ := mul_add_inj nc _ k' _ k (List.mem_range.mp hk') (List.mem_range.mp hk) e
      obtain ⟨e2, e3⟩ := mul_add_inj W h' w' h w hw' hw e1
      exact hne (by rw [e2, e3]))
    (plane, List.replicate (W * H * nc) 0) ⟨hp, by simp⟩
  obtain ⟨⟨_, hlen⟩, hvals, _⟩ := main
  have hloop : ReadExr_grayLoop cvt W H nc flip srgb rgb plane
      = (List.product (List.range H) (List.range W)).foldl
          (fun s (i : Nat × Nat) => ReadExr_grayStep cvt W H nc flip srgb rgb i.1 i.2 s)
          (plane, List.replicate (W * H * nc) 0) := by
    unfold ReadExr_grayLoop
    exact forLoop_nest2 H W _ _
  rw [hloop]
  refine ⟨hlen, ?_⟩
  intro h w k hh hw hk
  have := hvals (h, w) (mem_range_product.mpr ⟨hh, hw⟩) ((h * W + w) * nc + k)
    (List.mem_map.mpr ⟨k, List.mem_range.mpr hk, rfl⟩)
  simpa using this

theorem exrReadPlane_length (ch : ExrChannel) (W H : Nat) :
    (exrReadPlane (some ch) W H).length = H * W := by
  simp [exrReadPlane]

theorem exrReadPlane_getD (ch : ExrChannel) (W H idx : Nat) (h : idx < H * W) :
    (exrReadPlane (some ch) W H).getD idx 0 = ch.data.getD idx 0 := by
  simp [exrReadPlane, List.getD_eq_getElem?_getD, List.getElem?_map, List.getElem?_range h]

/-- Without an R channel the read is the gray path on the selected gray channel. -/
theorem ReadExr_of_gray (powf : ℚ → ℚ → ℚ) (toHalf : ℚ → ℚ) (file : ExrFile)
    (flip srgb rgb : Bool) (gch : ExrChannel) (hmagic : file.magic.take 4 = exrMagic)
    (hR : file.findChannel "R" = none) (hgray : exrGrayChannel file = some gch) :
    ReadExr powf toHalf file flip srgb rgb
      = if exrChannelFormat gch.type = MNSY_NONE then
          (PictureInfo.empty, ⟨false, "ReadExr: channel type UINT is not supported"⟩)
        else ReadExr_gray powf toHalf (some gch) (exrChannelFormat gch.type)
          (file.dataWindowWidth % 65536) (file.dataWindowHeight % 65536) flip srgb rgb := by
  unfold exrGrayChannel at hgray
  rcases hY : file.findChannel "Y" with _ | y
  · rw [hY] at hgray
    simp only at hgray
    simp [ReadExr, hmagic, hR, hY, hgray]
  · rw [hY] at hgray
    simp only [Option.some.injEq] at hgray
    subst hgray
    simp [ReadExr, hmagic, hR, hY]

/-- Claim C16. When an EXR file has no R channel, `ReadExr` reads the channel Y if
it exists and the channel Z otherwise; when that channel is half or float the read
succeeds, the format is the 1-channel format of that sample type, or with
`convertGrayToRGB` its 3-channel format, and every sample of output pixel `(h, w)`
(all three of them in the RGB case) is the gray value of row `y`, column `w`, after
the optional sRGB conversion, where `y = height - h - 1` when flipping and `y = h`
otherwise. Index arithmetic is the exact one, as `int` gives it for
`width * height * numChannels < 2 ^ 31`. -/
theorem ReadExr_gray_channel (powf : ℚ → ℚ → ℚ) (toHalf : ℚ → ℚ) (file : ExrFile)
    (flip srgb rgb : Bool) (gch : ExrChannel) (hmagic : file.magic.take 4 = exrMagic)
    (hR : file.findChannel "R" = none) (hgray : exrGrayChannel file = some gch)
    (hty : gch.type ≠ ExrPixelType.UINT)
    (_hfit : file.dataWindowWidth % 65536 * (file.dataWindowHeight % 65536)
      * (if rgb then 3 else 1) < 2 ^ 31) :
    ∃ buf : List ℚ,
      ReadExr powf toHalf file flip srgb rgb
          = (⟨file.dataWindowWidth % 65536, file.dataWindowHeight % 65536,
              exrGrayFormat gch.type rgb, decide (gch.type = ExrPixelType.HALF),
              some (exrPixelData gch.type buf)⟩, ⟨true, ""⟩)
        ∧ buf.length = file.dataWindowWidth % 65536 * (file.dataWindowHeight % 65536)
            * (if rgb then 3 else 1)
        ∧ ∀ h w k, h < file.dataWindowHeight % 65536 → w < file.dataWindowWidth % 65536 →
            k < (if rgb then 3 else 1) →
            buf.getD ((h * (file.dataWindowWidth % 65536) + w) * (if rgb then 3 else 1) + k) 0
              = exrSrgbSample powf toHalf gch.type srgb
                  (gch.data.getD
                    ((if flip then file.dataWindowHeight % 65536 - h - 1 else h)
                      * (file.dataWindowWidth % 65536) + w) 0) := by
  rw [ReadExr_of_gray powf toHalf file flip srgb rgb gch hmagic hR hgray]
  generalize file.dataWindowWidth % 65536 = W
  generalize file.dataWindowHeight % 65536 = H
  obtain ⟨t, data⟩ := gch
  have hidx : ∀ h w, h < H → w < W → (if flip then H - h - 1 else h) * W + w < H * W :=
    fun h w hh hw => mul_add_lt W H _ w (flipRow_lt flip H h hh) hw
  cases t with
  | UINT => exact absurd rfl hty
  | HALF =>
    obtain ⟨hlen, hval⟩ := ReadExr_grayLoop_spec
      (fun v => toHalf (pic_util_linear2srgb_float powf v)) W H (if rgb then 3 else 1)
      flip srgb rgb (exrReadPlane (some ⟨.HALF, data⟩) W H) (exrReadPlane_length _ W H) rfl
    refine ⟨_, ?_, hlen, ?_⟩
    · simp only [exrChannelFormat, reduceCtorEq, if_false, ReadExr_gray, if_true,
        exrPixelData, TextureFormat.ordinal]
      cases rgb <;> simp [exrGrayFormat, TextureFormat.ofOrdinal]
    · intro h w k hh hw hk
      rw [hval h w k hh hw hk, exrReadPlane_getD _ W H _ (hidx h w hh hw)]
      simp only [exrSrgbSample]
  | FLOAT =>
    obtain ⟨hlen, hval⟩ := ReadExr_grayLoop_spec
      (fun v => pic_util_linear2srgb_float powf v) W H (if rgb then 3 else 1)
      flip srgb rgb (exrReadPlane (some ⟨.FLOAT, data⟩) W H) (exrReadPlane_length _ W H) rfl
    refine ⟨_, ?_, hlen, ?_⟩
    · simp only [exrChannelFormat, reduceCtorEq, if_false, ReadExr_gray, if_true,
        exrPixelData, TextureFormat.ordinal]
      cases rgb <;> simp [exrGrayFormat, TextureFormat.ofOrdinal]
    · intro h w k hh hw hk
      rw [hval h w k hh hw hk, exrReadPlane_getD _ W H _ (hidx h w hh hw)]
      simp only [exrSrgbSample]

/-- Claim C16 at a 1 by 2 file with a half Z channel and a float Y channel, read
flipped and expanded to RGB: the Y channel is read (the format is RGB32) and the
first sample is the Y value of the last row. -/
theorem ReadExr_gray_channel_witness :
    ∃ buf : List ℚ,
      ReadExr (fun _ _ => 0) id
          ⟨exrMagic, 1, 2, [("Z", ⟨.HALF, [1, 2]⟩), ("Y", ⟨.FLOAT, [5, 6]⟩)]⟩ true false true
        = (⟨1, 2, MNSY_RGB32, false, some (.floats buf)⟩, ⟨true, ""⟩)
      ∧ buf.getD 0 0 = 6 := by
  obtain ⟨buf, h1, _, h3⟩ := ReadExr_gray_channel (fun _ _ => 0) id
    ⟨exrMagic, 1, 2, [("Z", ⟨.HALF, [1, 2]⟩), ("Y", ⟨.FLOAT, [5, 6]⟩)]⟩ true false true
    ⟨.FLOAT, [5, 6]⟩ (by decide) (by decide) (by decide) (by decide) (by decide)
  refine ⟨buf, h1, ?_⟩
  have := h3 0 0 0 (by decide) (by decide) (by decide)
  simpa [exrSrgbSample] using this

/-! ## EXR adapter, colour path: theorems -/

theorem ExrPlanes_get_put_eq (p : ExrPlanes) (k : Nat) (x : List ℚ) (hk : k < 4) :
    (p.put k x).get k = x := by
  interval_cases k <;> rfl

theorem ExrPlanes_get_put_ne (p : ExrPlanes) (k j : Nat) (x : List ℚ) (h : j ≠ k) :
    (p.put k x).get j = p.get j := by
  unfold ExrPlanes.put ExrPlanes.get
  split_ifs <;> first | rfl | omega

/-- The body of the colour loops is the plain copy for R, G, B and for an alpha of
the buffer's sample type, and the converting copy for an alpha of the other type. -/
theorem ReadExr_colorStep_eq (cvt cvtOther convert : ℚ → ℚ)
    (same other afmt : TextureFormat) (W H n : Nat) (flip srgb : Bool) (ci h w : Nat)
    (st : ExrPlanes × List ℚ) (hci : ci < 4) (hA : ci = 3 → afmt = same ∨ afmt = other) :
    ReadExr_colorStep cvt cvtOther convert same other afmt W H n flip srgb (ci + 1) h w st
      = if ci = 3 ∧ afmt ≠ same then
          ReadExr_copyAlphaOther cvtOther convert srgb
            ((if flip then H - h - 1 else h) * W + w) ((h * W + w) * n + ci) st
        else
          ReadExr_copySample cvt srgb ci
            ((if flip then H - h - 1 else h) * W + w) ((h * W + w) * n + ci) st := by
  interval_cases ci
  · simp [ReadExr_colorStep]
  · simp [ReadExr_colorStep]
  · simp [ReadExr_colorStep]
  · by_cases hs : afmt = same
    · simp [ReadExr_colorStep, hs]
    · have ho : afmt = other := (hA rfl).resolve_left hs
      simp [ReadExr_colorStep, hs, ho]

theorem mem_range_product3 {c h w N H W : Nat} :
    (c, h, w) ∈ List.product (List.range N) (List.product (List.range H) (List.range W))
      ↔ c < N ∧ h < H ∧ w < W := by
  show (c, h, w) ∈ (List.range N ×ˢ (List.range H ×ˢ List.range W)) ↔ _
  rw [List.mem_product, List.mem_product]
  simp

/-- The colour loops fill the whole buffer: sample `c` of output pixel `(h, w)` is
the cell of row `y`, column `w` of the array of channel `c`, after the optional sRGB
conversion, and for an alpha of the other sample type after the conversion to the
sample type of the buffer as well. -/
theorem ReadExr_colorLoop_spec (cvt cvtOther convert : ℚ → ℚ)
    (same other afmt : TextureFormat) (W H n : Nat) (flip srgb : Bool) (planes : ExrPlanes)
    (hn : n ≤ 4) (hA : n = 4 → afmt = same ∨ afmt = other)
    (hp : ∀ k, k < n → (planes.get k).length = H * W) :
    (ReadExr_colorLoop cvt cvtOther convert same other afmt W H n flip srgb planes).2.length
        = W * H * n
      ∧ ∀ c h w, c < n → h < H → w < W →
          (ReadExr_colorLoop cvt cvtOther convert same other afmt W H n flip srgb
              planes).2.getD ((h * W + w) * n + c) 0
            = if c = 3 ∧ afmt ≠ same then
                convert (if srgb then
                    cvtOther ((planes.get c).getD ((if flip then H - h - 1 else h) * W + w) 0)
                  else (planes.get c).getD ((if flip then H - h - 1 else h) * W + w) 0)
              else if srgb then
                cvt ((planes.get c).getD ((if flip then H - h - 1 else h) * W + w) 0)
              else (planes.get c).getD ((if flip then H - h - 1 else h) * W + w) 0 := by
  have hWH : W * H = H * W := Nat.mul_comm W H
  have hstep : ∀ (i : Nat × Nat × Nat),
      i ∈ List.product (List.range n) (List.product (List.range H) (List.range W)) →
      ∀ s, ReadExr_colorStep cvt cvtOther convert same other afmt W H n flip srgb
          (i.1 + 1) i.2.1 i.2.2 s
        = if i.1 = 3 ∧ afmt ≠ same then
            ReadExr_copyAlphaOther cvtOther convert srgb
              ((if flip then H - i.2.1 - 1 else i.2.1) * W + i.2.2)
              ((i.2.1 * W + i.2.2) * n + i.1) s
          else
            ReadExr_copySample cvt srgb i.1
              ((if flip then H - i.2.1 - 1 else i.2.1) * W + i.2.2)
              ((i.2.1 * W + i.2.2) * n + i.1) s := by
    rintro ⟨c, h, w⟩ hi s
    obtain ⟨hc, _, _⟩ := mem_range_product3.mp hi
    exact ReadExr_colorStep_eq cvt cvtOther convert same other afmt W H n flip srgb c h w s
      (by omega) (fun e => hA (by omega))
  have main := foldl_gather_scatter
    (fun (i : Nat × Nat × Nat) s =>
      ReadExr_colorStep cvt cvtOther convert same other afmt W H n flip srgb
        (i.1 + 1) i.2.1 i.2.2 s)
    (fun s => (∀ k, k < n → (s.1.get k).length = H * W) ∧ s.2.length = W * H * n)
    (fun s d => s.2.getD d 0)
    (fun i s => (s.1.get i.1).getD ((if flip then H - i.2.1 - 1 else i.2.1) * W + i.2.2) 0)
    (fun i => (i.1, (if flip then H - i.2.1 - 1 else i.2.1) * W + i.2.2))
    (fun i => [(i.2.1 * W + i.2.2) * n + i.1])
    (fun i v => if i.1 = 3 ∧ afmt ≠ same then convert (if srgb then cvtOther v else v)
      else if srgb then cvt v else v)
    (List.product (List.range n) (List.product (List.range H) (List.range W)))
    (List.Nodup.product (List.nodup_range n)
      (List.Nodup.product (List.nodup_range H) (List.nodup_range W)))
    (by
      intro i hi s hs
      obtain ⟨h1, h2⟩ := hs
      obtain ⟨c, h, w⟩ := i
      obtain ⟨hc, _, _⟩ := mem_range_product3.mp hi
      dsimp only
      rw [hstep (c, h, w) hi s]
      dsimp only
      by_cases hcase : c = 3 ∧ afmt ≠ same
      · rw [if_pos hcase]
        exact ⟨h1, by simp [ReadExr_copyAlphaOther, h2]⟩
      · rw [if_neg hcase]
        refine ⟨?_, by simp [ReadExr_copySample, h2]⟩
        intro k hk
        simp only [ReadExr_copySample]
        by_cases hkc : k = c
        · subst hkc
          rw [ExrPlanes_get_put_eq _ _ _ (by omega)]
          cases srgb <;> simp [h1 k hk]
        · rw [ExrPlanes_get_put_ne _ _ _ _ hkc]
          exact h1 k hk)
    (by
      intro i hi s hs d hd
      obtain ⟨h1, h2⟩ := hs
      obtain ⟨c, h, w⟩ := i
      obtain ⟨hc, hh, hw⟩ := mem_range_product3.mp hi
      have hd' : d = (h * W + w) * n + c := by simpa using hd
      subst hd'
      have hidx : (if flip then H - h - 1 else h) * W + w < (s.1.get c).length := by
        rw [h1 c hc]
        exact mul_add_lt W H _ w (flipRow_lt flip H h hh) hw
      have hoff : (h * W + w) * n + c < s.2.length := by
        rw [h2, hWH]
        exact mul_add_lt n (H * W) _ c (mul_add_lt W H h w hh hw) hc
      dsimp only
      rw [hstep (c, h, w) hi s]
      dsimp only
      by_cases hcase : c = 3 ∧ afmt ≠ same
      · rw [if_pos hcase, if_pos hcase]
        obtain ⟨rfl, _⟩ := hcase
        simp only [ReadExr_copyAlphaOther]
        rw [getD_set_eq _ _ _ _ hoff]
        rfl
      · rw [if_neg hcase, if_neg hcase]
        simp only [ReadExr_copySample]
        rw [getD_set_eq _ _ _ _ hoff]
        cases srgb with
        | true =>
          rw [if_pos (rfl : true = true), if_pos (rfl : true = true),
            getD_set_eq _ _ _ _ hidx]
        | false => rw [if_neg Bool.false_ne_true, if_neg Bool.false_ne_true])
    (by
      intro i hi s _ d hd
      obtain ⟨c, h, w⟩ := i
      have hne : (h * W + w) * n + c ≠ d := by
        intro e
        exact hd (by simp [e])
      dsimp only
      rw [hstep (c, h, w) hi s]
      dsimp only
      by_cases hcase : c = 3 ∧ afmt ≠ same
      · rw [if_pos hcase]
        simp only [ReadExr_copyAlphaOther]
        exact getD_set_ne _ _ _ _ _ hne
      · rw [if_neg hcase]
        simp only [ReadExr_copySample]
        exact getD_set_ne _ _ _ _ _ hne)
    (by
      intro i hi j _ hk s _
      obtain ⟨c, h, w⟩ := i
      obtain ⟨c', h', w'⟩ := j
      obtain ⟨hc, _, _⟩ := mem_range_product3.mp hi
      dsimp only at hk ⊢
      rw [hstep (c, h, w) hi s]
      dsimp only
      by_cases hcase : c = 3 ∧ afmt ≠ same
      · rw [if_pos hcase]
        rfl
      · rw [if_neg hcase]
        simp only [ReadExr_copySample]
        by_cases hcc : c' = c
        · subst hcc
          rw [ExrPlanes_get_put_eq _ _ _ (by omega)]
          have hidx : (if flip then H - h - 1 else h) * W + w
              ≠ (if flip then H - h' - 1 else h') * W + w' := by
            intro e
            exact hk (by rw [e])
          cases srgb with
          | true =>
            rw [if_pos (rfl : true = true)]
            exact getD_set_ne _ _ _ _ _ hidx
          | false => rw [if_neg Bool.false_ne_true]
        · rw [ExrPlanes_get_put_ne _ _ _ _ hcc])
    (by
      intro i hi j hj hne e
      obtain ⟨c, h, w⟩ := i
      obtain ⟨c', h', w'⟩ := j
      obtain ⟨_, hh, hw⟩ := mem_range_product3.mp hi
      obtain ⟨_, hh', hw'⟩ := mem_range_product3.mp hj
      simp only [Prod.mk.injEq] at e
      obtain ⟨ec, e⟩ := e
      obtain ⟨e1, e2⟩ := mul_add_inj W _ w _ w' hw hw' e
      have := flipRow_inj flip H h h' hh hh' e1
      exact hne (by rw [ec, this, e2]))
    (by
      intro i hi j hj hne d hd hd'
      obtain ⟨c, h, w⟩ := i
      obtain ⟨c', h', w'⟩ := j
      obtain ⟨hc, hh, hw⟩ := mem_range_product3.mp hi
      obtain ⟨hc', hh', hw'⟩ := mem_range_product3.mp hj
      have e1 : d = (h * W + w) * n + c := by simpa using hd
      have e2 : d = (h' * W + w') * n + c' := by simpa using hd'
      rw [e1] at e2
      obtain ⟨e3, e4⟩ := mul_add_inj n _ c _ c' hc hc' e2
      obtain ⟨e5, e6⟩ := mul_add_inj W h w h' w' hw hw' e3
      exact hne (by rw [e4, e5, e6]))
    (planes, List.replicate (W * H * n) 0) ⟨hp, by simp⟩
  obtain ⟨⟨_, hlen⟩, hvals, _⟩ := main
  have hloop : ReadExr_colorLoop cvt cvtOther convert same other afmt W H n flip srgb planes
      = (List.product (List.range n) (List.product (List.range H) (List.range W))).foldl
          (fun s (i : Nat × Nat × Nat) =>
            ReadExr_colorStep cvt cvtOther convert same other afmt W H n flip srgb
              (i.1 + 1) i.2.1 i.2.2 s)
          (planes, List.replicate (W * H * n) 0) := by
    unfold ReadExr_colorLoop
    exact forLoop_nest3 n H W _ _
  rw [hloop]
  refine ⟨hlen, ?_⟩
  intro c h w hc hh hw
  have := hvals (c, h, w) (mem_range_product3.mpr ⟨hc, hh, hw⟩) ((h * W + w) * n + c)
    (by simp)
  simpa using this

theorem ReadExr_decodedPlanes_get (file : ExrFile) (W H n c : Nat) (hc : c < n)
    (hn : n ≤ 4) :
    (ReadExr_decodedPlanes file W H n).get c
      = exrReadPlane (file.findChannel (exrChannelName c)) W H := by
  have h4 : c < 4 := by omega
  interval_cases c
  · rfl
  · have : n ≥ 2 := hc
    simp [ReadExr_decodedPlanes, ExrPlanes.get, exrChannelName, this]
  · have : n ≥ 3 := hc
    simp [ReadExr_decodedPlanes, ExrPlanes.get, exrChannelName, this]
  · have : n ≥ 4 := hc
    simp [ReadExr_decodedPlanes, ExrPlanes.get, exrChannelName, this]

theorem exrReadPlane_sample (file : ExrFile) (W H c idx : Nat)
    (hex : (file.findChannel (exrChannelName c)).isSome) (h : idx < H * W) :
    (exrReadPlane (file.findChannel (exrChannelName c)) W H).getD idx 0
      = exrSample file c idx := by
  obtain ⟨ch, hch⟩ := Option.isSome_iff_exists.mp hex
  rw [hch, exrReadPlane_getD _ W H idx h]
  simp [exrSample, hch]

/-- Every channel the colour path counts exists in the file. -/
theorem ReadExr_numChannels_exists (file : ExrFile) (c : Nat)
    (hc : c < ReadExr_numChannels file) :
    (file.findChannel (exrChannelName c)).isSome := by
  unfold ReadExr_numChannels at hc
  have h4 : c < 4 := by
    simp only at hc
    split_ifs at hc <;> omega
  cases hR : file.findChannel "R" <;> cases hG : file.findChannel "G" <;>
    cases hB : file.findChannel "B" <;> cases hA : file.findChannel "A" <;>
    simp [hR, hG, hB, hA] at hc <;>
    interval_cases c <;> simp_all [exrChannelName]

/-- The copy of the colour path returns a full buffer of `n` channels: sample `c` of
output pixel `(h, w)` is the sample of channel `c` at row `y`, column `w`, after
the optional sRGB conversion; an alpha of the other sample type is converted to
sRGB through a half and brought to the sample type of the buffer. -/
theorem ReadExr_colorCopy_spec (powf : ℚ → ℚ → ℚ) (toHalf : ℚ → ℚ) (file : ExrFile)
    (t : ExrPixelType) (afmt : TextureFormat) (W H n : Nat) (flip srgb : Bool)
    (ht : t ≠ ExrPixelType.UINT) (hn : n ≤ 4)
    (hex : ∀ c, c < n → (file.findChannel (exrChannelName c)).isSome)
    (hA : n = 4 → afmt = MNSY_R16 ∨ afmt = MNSY_R32) :
    ∃ buf : List ℚ,
      ReadExr_colorCopy powf toHalf file (exrChannelFormat t) afmt W H n flip srgb
          = (⟨W, H, TextureFormat.ofOrdinal ((exrChannelFormat t).ordinal + (n - 1)),
              decide (t = ExrPixelType.HALF), some (exrPixelData t buf)⟩, ⟨true, ""⟩)
        ∧ buf.length = W * H * n
        ∧ ∀ c h w, c < n → h < H → w < W →
            buf.getD ((h * W + w) * n + c) 0
              = if c = 3 ∧ afmt ≠ exrChannelFormat t then
                  exrConvertSample toHalf t
                    (if srgb then
                      toHalf (pic_util_linear2srgb_float powf
                        (exrSample file c ((if flip then H - h - 1 else h) * W + w)))
                    else exrSample file c ((if flip then H - h - 1 else h) * W + w))
                else exrSrgbSample powf toHalf t srgb
                  (exrSample file c ((if flip then H - h - 1 else h) * W + w)) := by
  have hp : ∀ k, k < n → ((ReadExr_decodedPlanes file W H n).get k).length = H * W := by
    intro k hk
    rw [ReadExr_decodedPlanes_get file W H n k hk hn]
    obtain ⟨ch, hch⟩ := Option.isSome_iff_exists.mp (hex k hk)
    rw [hch]
    exact exrReadPlane_length ch W H
  have hv : ∀ c h w, c < n → h < H → w < W →
      ((ReadExr_decodedPlanes file W H n).get c).getD
          ((if flip then H - h - 1 else h) * W + w) 0
        = exrSample file c ((if flip then H - h - 1 else h) * W + w) := by
    intro c h w hc hh hw
    rw [ReadExr_decodedPlanes_get file W H n c hc hn]
    exact exrReadPlane_sample file W H c _ (hex c hc)
      (mul_add_lt W H _ w (flipRow_lt flip H h hh) hw)
  cases t with
  | UINT => exact absurd rfl ht
  | HALF =>
    obtain ⟨hlen, hval⟩ := ReadExr_colorLoop_spec
      (fun v => toHalf (pic_util_linear2srgb_float powf v))
      (fun v => toHalf (pic_util_linear2srgb_float powf v)) toHalf
      MNSY_R16 MNSY_R32 afmt W H n flip srgb (ReadExr_decodedPlanes file W H n) hn hA hp
    refine ⟨_, ?_, hlen, ?_⟩
    · simp [ReadExr_colorCopy, exrChannelFormat, exrPixelData]
    · intro c h w hc hh hw
      rw [hval c h w hc hh hw, hv c h w hc hh hw]
      simp only [exrChannelFormat, exrConvertSample, exrSrgbSample]
  | FLOAT =>
    obtain ⟨hlen, hval⟩ := ReadExr_colorLoop_spec
      (fun v => pic_util_linear2srgb_float powf v)
      (fun v => toHalf (pic_util_linear2srgb_float powf v)) (fun v => v)
      MNSY_R32 MNSY_R16 afmt W H n flip srgb (ReadExr_decodedPlanes file W H n) hn
      (fun e => (hA e).symm) hp
    refine ⟨_, ?_, hlen, ?_⟩
    · simp [ReadExr_colorCopy, exrChannelFormat, exrPixelData]
    · intro c h w hc hh hw
      rw [hval c h w hc hh hw, hv c h w hc hh hw]
      simp only [exrChannelFormat, exrConvertSample, exrSrgbSample]

/-- When R has a supported sample type, the counted G and B channels have R's type
and A is not `UINT`, the read passes every check and is the copy of the colour
path; with four channels the alpha format is the format of A's type. -/
theorem ReadExr_eq_colorCopy (powf : ℚ → ℚ → ℚ) (toHalf : ℚ → ℚ) (file : ExrFile)
    (flip srgb gray : Bool) (r : ExrChannel) (hmagic : file.magic.take 4 = exrMagic)
    (hR : file.findChannel "R" = some r) (ht : r.type ≠ ExrPixelType.UINT)
    (hG : ∀ g, file.findChannel "G" = some g → g.type = r.type)
    (hB : ∀ b, file.findChannel "B" = some b → b.type = r.type)
    (hAu : ∀ a, file.findChannel "A" = some a → a.type ≠ ExrPixelType.UINT) :
    ∃ afmt : TextureFormat,
      ReadExr powf toHalf file flip srgb gray
          = ReadExr_colorCopy powf toHalf file (exrChannelFormat r.type) afmt
              (file.dataWindowWidth % 65536) (file.dataWindowHeight % 65536)
              (ReadExr_numChannels file) flip srgb
        ∧ (ReadExr_numChannels file = 4 →
            ∃ a, file.findChannel "A" = some a ∧ afmt = exrChannelFormat a.type) := by
  refine ⟨if ((file.findChannel "A").isSome && ((file.findChannel "B").isSome
      && ((file.findChannel "G").isSome && (file.findChannel "R").isSome))) then
        ((file.findChannel "A").map (fun ch => exrChannelFormat ch.type)).getD MNSY_NONE
      else MNSY_NONE, ?_, ?_⟩
  · rw [ReadExr_of_R powf toHalf file flip srgb gray r hmagic hR]
    obtain ⟨tr, dr⟩ := r
    have hne : exrChannelFormat tr ≠ MNSY_NONE := by
      cases tr <;> simp_all [exrChannelFormat]
    rw [if_neg hne]
    rcases hG' : file.findChannel "G" with _ | ⟨tg, dg⟩
    · simp [ReadExr_color, hR, hG']
    · have hg : tg = tr := hG _ hG'
      subst hg
      rcases hB' : file.findChannel "B" with _ | ⟨tb, db⟩
      · cases tg <;> simp_all [ReadExr_color, exrChannelFormat]
      · have hb : tb = tg := hB _ hB'
        subst hb
        rcases hA' : file.findChannel "A" with _ | ⟨ta, da⟩
        · cases tb <;> simp_all [ReadExr_color, exrChannelFormat]
        · have ha : ta ≠ ExrPixelType.UINT := hAu _ hA'
          cases tb <;> cases ta <;> simp_all [ReadExr_color, exrChannelFormat]
  · intro h4
    unfold ReadExr_numChannels at h4
    rcases hA' : file.findChannel "A" with _ | a
    · simp [hA'] at h4
      split_ifs at h4 <;> omega
    · refine ⟨a, rfl, ?_⟩
      rcases hB' : file.findChannel "B" with _ | b
      · simp [hA', hB'] at h4
        split_ifs at h4 <;> omega
      · rcases hG' : file.findChannel "G" with _ | g
        · simp [hA', hB', hG'] at h4
          split_ifs at h4
          omega
        · simp [hR]

/-- Claim C18. For every EXR file with R, G, B of one sample type `t` (half or
float) and an A channel of the other type, `ReadExr` succeeds and returns the
4-channel format of `t` with a full buffer of samples of type `t`: the colour
samples of output pixel `(h, w)` are those of row `y`, column `w` of R, G, B after
the optional sRGB conversion, and the alpha sample is the A sample of that cell,
converted to sRGB through a half when asked, then converted to `t` (rounded to a
half when `t` is half, unchanged when `t` is float). Index arithmetic is the exact
one, as `int` gives it for `width * height * 4 < 2 ^ 31`. -/
theorem ReadExr_alpha_other_type (powf : ℚ → ℚ → ℚ) (toHalf : ℚ → ℚ) (file : ExrFile)
    (flip srgb gray : Bool) (t : ExrPixelType) (r g b a : ExrChannel)
    (hmagic : file.magic.take 4 = exrMagic)
    (hR : file.findChannel "R" = some r) (hG : file.findChannel "G" = some g)
    (hB : file.findChannel "B" = some b) (hA : file.findChannel "A" = some a)
    (ht : t ≠ ExrPixelType.UINT) (hrt : r.type = t) (hgt : g.type = t) (hbt : b.type = t)
    (hat : a.type ≠ t) (hau : a.type ≠ ExrPixelType.UINT)
    (_hfit : file.dataWindowWidth % 65536 * (file.dataWindowHeight % 65536) * 4 < 2 ^ 31) :
    ∃ buf : List ℚ,
      ReadExr powf toHalf file flip srgb gray
          = (⟨file.dataWindowWidth % 65536, file.dataWindowHeight % 65536, exrRGBAFormat t,
              decide (t = ExrPixelType.HALF), some (exrPixelData t buf)⟩, ⟨true, ""⟩)
        ∧ buf.length = file.dataWindowWidth % 65536 * (file.dataWindowHeight % 65536) * 4
        ∧ ∀ h w, h < file.dataWindowHeight % 65536 → w < file.dataWindowWidth % 65536 →
            (∀ c, c < 3 →
              buf.getD ((h * (file.dataWindowWidth % 65536) + w) * 4 + c) 0
                = exrSrgbSample powf toHalf t srgb
                    (exrSample file c
                      ((if flip then file.dataWindowHeight % 65536 - h - 1 else h)
                        * (file.dataWindowWidth % 65536) + w)))
            ∧ buf.getD ((h * (file.dataWindowWidth % 65536) + w) * 4 + 3) 0
                = exrConvertSample toHalf t
                    (if srgb then
                      toHalf (pic_util_linear2srgb_float powf
                        (a.data.getD
                          ((if flip then file.dataWindowHeight % 65536 - h - 1 else h)
                            * (file.dataWindowWidth % 65536) + w) 0))
                    else
                      a.data.getD
                        ((if flip then file.dataWindowHeight % 65536 - h - 1 else h)
                          * (file.dataWindowWidth % 65536) + w) 0) := by
  have hn4 : ReadExr_numChannels file = 4 := by
    simp [ReadExr_numChannels, hR, hG, hB, hA]
  obtain ⟨afmt, hread, hafmt⟩ := ReadExr_eq_colorCopy powf toHalf file flip srgb gray r hmagic
    hR (by rw [hrt]; exact ht)
    (fun g' e => by rw [hG] at e; cases e; rw [hgt, hrt])
    (fun b' e => by rw [hB] at e; cases e; rw [hbt, hrt])
    (fun a' e => by rw [hA] at e; cases e; exact hau)
  obtain ⟨a', ha', hafmt'⟩ := hafmt hn4
  rw [hA] at ha'
  cases ha'
  have hne : afmt ≠ exrChannelFormat t := by
    rw [hafmt']
    revert hat hau ht
    cases a.type <;> cases t <;> simp [exrChannelFormat]
  have hA4 : afmt = MNSY_R16 ∨ afmt = MNSY_R32 := by
    rw [hafmt']
    revert hau
    cases a.type <;> simp [exrChannelFormat]
  rw [hread, hn4, hrt]
  obtain ⟨buf, hres, hlen, hval⟩ := ReadExr_colorCopy_spec powf toHalf file t afmt
    (file.dataWindowWidth % 65536) (file.dataWindowHeight % 65536) 4 flip srgb ht
    (le_refl 4)
    (fun c hc => by
      have := ReadExr_numChannels_exists file c (by rw [hn4]; exact hc)
      exact this)
    (fun _ => hA4)
  refine ⟨buf, ?_, hlen, ?_⟩
  · rw [hres]
    revert ht
    cases t <;> simp [exrChannelFormat, exrRGBAFormat, TextureFormat.ordinal,
      TextureFormat.ofOrdinal]
  · intro h w hh hw
    refine ⟨?_, ?_⟩
    · intro c hc
      rw [hval c h w (by omega) hh hw, if_neg (by omega)]
    · rw [hval 3 h w (by omega) hh hw, if_pos ⟨rfl, hne⟩]
      have hs : ∀ idx, exrSample file 3 idx = a.data.getD idx 0 := by
        intro idx
        simp [exrSample, exrChannelName, hA]
      rw [hs]

/-- Claim C18 at a 1 by 1 file with half R, G, B and a float A, and at one with
float R, G, B and a half A, read without conversion: the formats are RGBA16 and
RGBA32, and the alpha sample is the A sample rounded to a half in the first case
and the A sample itself in the second. -/
theorem ReadExr_alpha_other_type_witness :
    (∃ buf : List ℚ,
      ReadExr (fun _ _ => 0) (fun _ => 7)
          ⟨exrMagic, 1, 1, [("R", ⟨.HALF, [1]⟩), ("G", ⟨.HALF, [2]⟩), ("B", ⟨.HALF, [3]⟩),
            ("A", ⟨.FLOAT, [4]⟩)]⟩ false false false
        = (⟨1, 1, MNSY_RGBA16, true, some (.halfs buf)⟩, ⟨true, ""⟩)
      ∧ buf.getD 3 0 = 7)
    ∧ ∃ buf : List ℚ,
      ReadExr (fun _ _ => 0) (fun _ => 7)
          ⟨exrMagic, 1, 1, [("R", ⟨.FLOAT, [1]⟩), ("G", ⟨.FLOAT, [2]⟩), ("B", ⟨.FLOAT, [3]⟩),
            ("A", ⟨.HALF, [4]⟩)]⟩ false false false
        = (⟨1, 1, MNSY_RGBA32, false, some (.floats buf)⟩, ⟨true, ""⟩)
      ∧ buf.getD 3 0 = 4 := by
  refine ⟨?_, ?_⟩
  · obtain ⟨buf, h1, _, h3⟩ := ReadExr_alpha_other_type (fun _ _ => 0) (fun _ => 7)
      ⟨exrMagic, 1, 1, [("R", ⟨.HALF, [1]⟩), ("G", ⟨.HALF, [2]⟩), ("B", ⟨.HALF, [3]⟩),
        ("A", ⟨.FLOAT, [4]⟩)]⟩ false false false .HALF
      ⟨.HALF, [1]⟩ ⟨.HALF, [2]⟩ ⟨.HALF, [3]⟩ ⟨.FLOAT, [4]⟩
      (by decide) (by decide) (by decide) (by decide) (by decide) (by decide) rfl rfl rfl
      (by decide) (by decide) (by decide)
    refine ⟨buf, h1, ?_⟩
    have := (h3 0 0 (by decide) (by decide)).2
    simpa [exrConvertSample] using this
  · obtain ⟨buf, h1, _, h3⟩ := ReadExr_alpha_other_type (fun _ _ => 0) (fun _ => 7)
      ⟨exrMagic, 1, 1, [("R", ⟨.FLOAT, [1]⟩), ("G", ⟨.FLOAT, [2]⟩), ("B", ⟨.FLOAT, [3]⟩),
        ("A", ⟨.HALF, [4]⟩)]⟩ false false false .FLOAT
      ⟨.FLOAT, [1]⟩ ⟨.FLOAT, [2]⟩ ⟨.FLOAT, [3]⟩ ⟨.HALF, [4]⟩
      (by decide) (by decide) (by decide) (by decide) (by decide) (by decide) rfl rfl rfl
      (by decide) (by decide) (by decide)
    refine ⟨buf, h1, ?_⟩
    have := (h3 0 0 (by decide) (by decide)).2
    simpa [exrConvertSample] using this

/-! ## EXR adapter, write and read back: theorems -/

/-- The de-interleaving loops fill every array of a counted channel: the cell of row
`y`, column `w` of channel `c` receives the input sample `(h, w, c)`, taken through
`value`. -/
theorem WriteExr_planesLoop_spec (value : ℚ → ℚ) (input : List ℚ) (W H n : Nat)
    (flip : Bool) (planes : ExrPlanes) (hn : n ≤ 4)
    (hp : ∀ k, k < n → (planes.get k).length = H * W) :
    (∀ k, k < n → ((WriteExr_planesLoop value input W H n flip planes).get k).length = H * W)
      ∧ ∀ c h w, c < n → h < H → w < W →
          ((WriteExr_planesLoop value input W H n flip planes).get c).getD
              ((if flip then H - h - 1 else h) * W + w) 0
            = value (input.getD ((h * W + w) * n + c) 0) := by
  have main := foldl_gather_scatter
    (fun (i : Nat × Nat × Nat) (s : ExrPlanes) =>
      s.put i.2.2 ((s.get i.2.2).set ((if flip then H - i.1 - 1 else i.1) * W + i.2.1)
        (value (input.getD ((i.1 * W + i.2.1) * n + i.2.2) 0))))
    (fun s => ∀ k, k < n → (s.get k).length = H * W)
    (fun s (d : Nat × Nat) => (s.get d.1).getD d.2 0)
    (fun i _ => input.getD ((i.1 * W + i.2.1) * n + i.2.2) 0)
    (fun i => i)
    (fun i => [(i.2.2, (if flip then H - i.1 - 1 else i.1) * W + i.2.1)])
    (fun _ v => value v)
    (List.product (List.range H) (List.product (List.range W) (List.range n)))
    (List.Nodup.product (List.nodup_range H)
      (List.Nodup.product (List.nodup_range W) (List.nodup_range n)))
    (by
      intro i hi s hs k hk
      obtain ⟨h, w, c⟩ := i
      obtain ⟨_, _, hc⟩ := mem_range_product3.mp hi
      dsimp only
      by_cases hkc : k = c
      · subst hkc
        rw [ExrPlanes_get_put_eq _ _ _ (by omega)]
        simp [hs k hk]
      · rw [ExrPlanes_get_put_ne _ _ _ _ hkc]
        exact hs k hk)
    (by
      intro i hi s hs d hd
      obtain ⟨h, w, c⟩ := i
      obtain ⟨hh, hw, hc⟩ := mem_range_product3.mp hi
      have hd' : d = (c, (if flip then H - h - 1 else h) * W + w) := by simpa using hd
      subst hd'
      dsimp only
      rw [ExrPlanes_get_put_eq _ _ _ (by omega)]
      exact getD_set_eq _ _ _ _ (by
        rw [hs c hc]
        exact mul_add_lt W H _ w (flipRow_lt flip H h hh) hw))
    (by
      intro i hi s _ d hd
      obtain ⟨h, w, c⟩ := i
      obtain ⟨_, _, hc⟩ := mem_range_product3.mp hi
      obtain ⟨d1, d2⟩ := d
      have hne : ¬ (d1 = c ∧ d2 = (if flip then H - h - 1 else h) * W + w) := by
        intro e
        exact hd (by simp [e.1, e.2])
      dsimp only
      by_cases hdc : d1 = c
      · subst hdc
        rw [ExrPlanes_get_put_eq _ _ _ (by omega)]
        exact getD_set_ne _ _ _ _ _ (fun e => hne ⟨rfl, e.symm⟩)
      · rw [ExrPlanes_get_put_ne _ _ _ _ hdc])
    (by
      intro i _ j _ _ s _
      rfl)
    (by
      intro i _ j _ hne
      exact hne)
    (by
      intro i hi j hj hne d hd hd'
      obtain ⟨h, w, c⟩ := i
      obtain ⟨h', w', c'⟩ := j
      obtain ⟨hh, hw, _⟩ := mem_range_product3.mp hi
      obtain ⟨hh', hw', _⟩ := mem_range_product3.mp hj
      have e1 : d = (c, (if flip then H - h - 1 else h) * W + w) := by simpa using hd
      have e2 : d = (c', (if flip then H - h' - 1 else h') * W + w') := by simpa using hd'
      rw [e1] at e2
      simp only [Prod.mk.injEq] at e2
      obtain ⟨ec, e⟩ := e2
      obtain ⟨e3, e4⟩ := mul_add_inj W _ w _ w' hw hw' e
      have := flipRow_inj flip H h h' hh hh' e3
      exact hne (by rw [ec, this, e4]))
    planes hp
  obtain ⟨hlen, hvals, _⟩ := main
  have hloop : WriteExr_planesLoop value input W H n flip planes
      = (List.product (List.range H) (List.product (List.range W) (List.range n))).foldl
          (fun (s : ExrPlanes) (i : Nat × Nat × Nat) =>
            s.put i.2.2 ((s.get i.2.2).set ((if flip then H - i.1 - 1 else i.1) * W + i.2.1)
              (value (input.getD ((i.1 * W + i.2.1) * n + i.2.2) 0))))
          planes := by
    unfold WriteExr_planesLoop
    exact forLoop_nest3 H W n _ _
  rw [hloop]
  refine ⟨hlen, ?_⟩
  intro c h w hc hh hw
  have := hvals (h, w, c) (mem_range_product3.mpr ⟨hh, hw, hc⟩)
    (c, (if flip then H - h - 1 else h) * W + w) (by simp)
  simpa using this

theorem WriteExr_alloc_length (W H n k : Nat) (hk : k < n) (hn : n ≤ 4) :
    ((WriteExr_alloc W H n).get k).length = H * W := by
  have h4 : k < 4 := by omega
  interval_cases k
  · have : n ≥ 1 := hk
    simp [WriteExr_alloc, ExrPlanes.get, this, Nat.mul_comm]
  · have : n ≥ 2 := hk
    simp [WriteExr_alloc, ExrPlanes.get, this, Nat.mul_comm]
  · have : n ≥ 3 := hk
    simp [WriteExr_alloc, ExrPlanes.get, this, Nat.mul_comm]
  · have : n ≥ 4 := hk
    simp [WriteExr_alloc, ExrPlanes.get, this, Nat.mul_comm]

/-- The channels of the written file: channel number `c` exists exactly for
`c < n`, with the type of the file and the array of channel `c`. -/
theorem WriteExr_channels_find (t : ExrPixelType) (planes : ExrPlanes) (W H n c : Nat)
    (hc : c < 4) :
    ExrFile.findChannel ⟨exrMagic, W, H, WriteExr_channels t planes n⟩ (exrChannelName c)
      = if c < n then some ⟨t, planes.get c⟩ else none := by
  have hcases : n = 0 ∨ n = 1 ∨ n = 2 ∨ n = 3 ∨ 4 ≤ n := by omega
  rcases hcases with rfl | rfl | rfl | rfl | h4
  · interval_cases c <;> simp [WriteExr_channels, ExrFile.findChannel, exrChannelName]
  · interval_cases c <;>
      simp [WriteExr_channels, ExrFile.findChannel, exrChannelName, ExrPlanes.get, List.lookup]
  · interval_cases c <;>
      simp [WriteExr_channels, ExrFile.findChannel, exrChannelName, ExrPlanes.get, List.lookup]
  · interval_cases c <;>
      simp [WriteExr_channels, ExrFile.findChannel, exrChannelName, ExrPlanes.get, List.lookup]
  · have h1 : 1 ≤ n := by omega
    have h2 : 2 ≤ n := by omega
    have h3 : 3 ≤ n := by omega
    interval_cases c <;>
      simp [WriteExr_channels, ExrFile.findChannel, exrChannelName, ExrPlanes.get, List.lookup,
        h1, h2, h3, h4]
    all_goals omega

theorem list_eq_of_getD (l1 l2 : List ℚ) (hlen : l1.length = l2.length)
    (h : ∀ j, j < l1.length → l1.getD j 0 = l2.getD j 0) : l1 = l2 := by
  apply List.ext_getElem hlen
  intro j h1 h2
  have := h j h1
  rw [List.getD_eq_getElem _ _ h1, List.getD_eq_getElem _ _ h2] at this
  exact this

/-- Every index of an interleaved buffer is the index of one sample of one pixel. -/
theorem interleaved_index (W H n j : Nat) (hj : j < W * H * n) :
    ∃ h w c, h < H ∧ w < W ∧ c < n ∧ j = (h * W + w) * n + c := by
  have hn : 0 < n := by
    rcases Nat.eq_zero_or_pos n with h0 | h0
    · subst h0
      simp at hj
    · exact h0
  have hW : 0 < W := by
    rcases Nat.eq_zero_or_pos W with h0 | h0
    · subst h0
      simp at hj
    · exact h0
  refine ⟨j / n / W, j / n % W, j % n, ?_, Nat.mod_lt _ hW, Nat.mod_lt _ hn, ?_⟩
  · rw [Nat.div_lt_iff_lt_mul hW, Nat.div_lt_iff_lt_mul hn, Nat.mul_comm H W]
    exact hj
  · rw [Nat.div_add_mod' (j / n) W, Nat.div_add_mod' j n]

/-- Reading back what the de-interleaving of `WriteExr` has written, with the same
flip flag and no conversion, gives the interleaved buffer again, with the format of
the sample type and the channel count. -/
theorem ReadExr_of_written (powf : ℚ → ℚ → ℚ) (toHalf : ℚ → ℚ) (t : ExrPixelType)
    (W H n : Nat) (samples : List ℚ) (flip gray : Bool) (ht : t ≠ ExrPixelType.UINT)
    (hn1 : 1 ≤ n) (hn4 : n ≤ 4) (hW : W < 65536) (hH : H < 65536)
    (hlen : samples.length = W * H * n) :
    ReadExr powf toHalf
        ⟨exrMagic, W, H, WriteExr_channels t
          (WriteExr_planesLoop (fun v => v) samples W H n flip (WriteExr_alloc W H n)) n⟩
        flip false gray
      = (⟨W, H, TextureFormat.ofOrdinal ((exrChannelFormat t).ordinal + (n - 1)),
          decide (t = ExrPixelType.HALF), some (exrPixelData t samples)⟩, ⟨true, ""⟩) := by
  obtain ⟨hplen, hpval⟩ := WriteExr_planesLoop_spec (fun v => v) samples W H n flip
    (WriteExr_alloc W H n) hn4 (fun k hk => WriteExr_alloc_length W H n k hk hn4)
  generalize hplanes :
    WriteExr_planesLoop (fun v => v) samples W H n flip (WriteExr_alloc W H n) = planes
    at hplen hpval ⊢
  generalize hfile : (⟨exrMagic, W, H, WriteExr_channels t planes n⟩ : ExrFile) = file
  have hfind : ∀ c, c < 4 →
      file.findChannel (exrChannelName c) = if c < n then some ⟨t, planes.get c⟩ else none := by
    intro c hc
    rw [← hfile]
    exact WriteExr_channels_find t planes W H n c hc
  have hmagic : file.magic.take 4 = exrMagic := by
    rw [← hfile]
    show List.take 4 exrMagic = exrMagic
    decide
  have hw : file.dataWindowWidth % 65536 = W := by
    rw [← hfile]
    exact Nat.mod_eq_of_lt hW
  have hh : file.dataWindowHeight % 65536 = H := by
    rw [← hfile]
    exact Nat.mod_eq_of_lt hH
  have hfR := hfind 0 (by omega)
  have hfG := hfind 1 (by omega)
  have hfB := hfind 2 (by omega)
  have hfA := hfind 3 (by omega)
  have e0 : exrChannelName 0 = "R" := rfl
  have e1 : exrChannelName 1 = "G" := rfl
  have e2 : exrChannelName 2 = "B" := rfl
  have e3 : exrChannelName 3 = "A" := rfl
  rw [e0] at hfR
  rw [e1] at hfG
  rw [e2] at hfB
  rw [e3] at hfA
  rw [if_pos (by omega : 0 < n)] at hfR
  have hnum : ReadExr_numChannels file = n := by
    unfold ReadExr_numChannels
    rw [hfR, hfG, hfB, hfA]
    interval_cases n <;> simp
  obtain ⟨afmt, hread, hafmt⟩ := ReadExr_eq_colorCopy powf toHalf file flip false gray
    ⟨t, planes.get 0⟩ hmagic hfR ht
    (fun g e => by
      rw [hfG] at e
      split_ifs at e
      cases e
      rfl)
    (fun b e => by
      rw [hfB] at e
      split_ifs at e
      cases e
      rfl)
    (fun a e => by
      rw [hfA] at e
      split_ifs at e
      cases e
      exact ht)
  have hafmt4 : n = 4 → afmt = exrChannelFormat t := by
    intro e4
    obtain ⟨a, ha, hfa⟩ := hafmt (by rw [hnum]; exact e4)
    rw [hfA, if_pos (by omega)] at ha
    cases ha
    exact hfa
  obtain ⟨buf, hres, hblen, hbval⟩ := ReadExr_colorCopy_spec powf toHalf file t afmt W H n
    flip false ht hn4
    (fun c hc => by
      rw [hfind c (by omega), if_pos hc]
      rfl)
    (fun e4 => by
      rw [hafmt4 e4]
      revert ht
      cases t <;> simp [exrChannelFormat])
  rw [hread, hnum, hw, hh, hres]
  have hbuf : buf = samples := by
    apply list_eq_of_getD buf samples (by rw [hblen, hlen])
    intro j hj
    rw [hblen] at hj
    obtain ⟨h, w, c, hh', hw', hc, rfl⟩ := interleaved_index W H n j hj
    rw [hbval c h w hc hh' hw']
    have hnot : ¬ (c = 3 ∧ afmt ≠ exrChannelFormat t) := by
      rintro ⟨e3', hne⟩
      exact hne (hafmt4 (by omega))
    rw [if_neg hnot]
    have hs : exrSample file c ((if flip then H - h - 1 else h) * W + w)
        = (planes.get c).getD ((if flip then H - h - 1 else h) * W + w) 0 := by
      simp only [exrSample]
      rw [hfind c (by omega), if_pos hc]
    rw [hs, hpval c h w hc hh' hw']
    simp [exrSrgbSample]
  rw [hbuf]

/-- The file written for a 16-bit or 32-bit picture without conversion. -/
theorem WriteExr_file_written (powf : ℚ → ℚ → ℚ) (toHalf : ℚ → ℚ) (fmt : TextureFormat)
    (W H : Nat) (isHalfFloat : Bool) (samples : List ℚ) (flip : Bool)
    (hfmt : 5 ≤ fmt.ordinal) (hW : 0 < W) (hH : 0 < H) :
    WriteExr_file powf toHalf ⟨W, H, fmt, isHalfFloat, some (pixelsOfFormat fmt samples)⟩
        flip false
      = some ⟨exrMagic, W, H, WriteExr_channels (exrTypeOfFormat fmt)
          (WriteExr_planesLoop (fun v => v) samples W H
            (get_channels_amount_from_textureFormat fmt) flip
            (WriteExr_alloc W H (get_channels_amount_from_textureFormat fmt)))
          (get_channels_amount_from_textureFormat fmt)⟩ := by
  have hW' : W ≠ 0 := by omega
  have hH' : H ≠ 0 := by omega
  cases fmt <;> simp [TextureFormat.ordinal] at hfmt <;>
    simp [WriteExr_file, pic_util_check_input_pictureInfo, get_information_from_textureFormat,
      get_channels_amount_from_textureFormat, TextureFormat.ordinal, TextureFormat.ofOrdinal,
      pixelsOfFormat, exrTypeOfFormat, exrPixelData, PixelData.asHalfs, PixelData.asFloats,
      hW', hH']

theorem format_of_type_and_count (fmt : TextureFormat) (hfmt : 5 ≤ fmt.ordinal) :
    exrTypeOfFormat fmt ≠ ExrPixelType.UINT
      ∧ 1 ≤ get_channels_amount_from_textureFormat fmt
      ∧ get_channels_amount_from_textureFormat fmt ≤ 4
      ∧ TextureFormat.ofOrdinal ((exrChannelFormat (exrTypeOfFormat fmt)).ordinal
          + (get_channels_amount_from_textureFormat fmt - 1)) = fmt
      ∧ decide (exrTypeOfFormat fmt = ExrPixelType.HALF) = decide (fmt.ordinal ≤ 8) := by
  cases fmt <;> simp [TextureFormat.ordinal] at hfmt <;>
    simp [exrTypeOfFormat, get_channels_amount_from_textureFormat, TextureFormat.ordinal,
      TextureFormat.ofOrdinal, exrChannelFormat]

/-- Claim C11. For every 16-bit or 32-bit format with `n` channels, every picture
of that format (width and height from 1 to 65535) and every flip flag,
`WriteExr` without linear conversion writes a file in which the array of channel
`c` holds, at row `y` and column `w`, the input sample `(h, w, c)` (`y` is
`height - h - 1` when flipping and `h` otherwise), and `ReadExr` of that file with
the same flip flag and no sRGB conversion succeeds and returns the original
width, height and format and a buffer equal to the original one, sample for
sample. Index arithmetic is the exact one, as `int` gives it for
`width * height * n < 2 ^ 31`. -/
theorem WriteExr_ReadExr_round_trip (powf : ℚ → ℚ → ℚ) (toHalf : ℚ → ℚ)
    (fmt : TextureFormat) (width height : Nat) (isHalfFloat : Bool) (samples : List ℚ)
    (flip gray : Bool) (hfmt : 5 ≤ fmt.ordinal)
    (hw0 : 0 < width) (hw : width < 65536) (hh0 : 0 < height) (hh : height < 65536)
    (hlen : samples.length = width * height * get_channels_amount_from_textureFormat fmt)
    (_hfit : width * height * get_channels_amount_from_textureFormat fmt < 2 ^ 31) :
    ∃ file : ExrFile,
      WriteExr_file powf toHalf
          ⟨width, height, fmt, isHalfFloat, some (pixelsOfFormat fmt samples)⟩ flip false
        = some file
      ∧ (∀ c h w, c < get_channels_amount_from_textureFormat fmt → h < height → w < width →
          exrSample file c ((if flip then height - h - 1 else h) * width + w)
            = samples.getD
                ((h * width + w) * get_channels_amount_from_textureFormat fmt + c) 0)
      ∧ ReadExr powf toHalf file flip false gray
        = (⟨width, height, fmt, decide (fmt.ordinal ≤ 8),
            some (pixelsOfFormat fmt samples)⟩, ⟨true, ""⟩) := by
  obtain ⟨ht, hn1, hn4, hford, hhalf⟩ := format_of_type_and_count fmt hfmt
  refine ⟨_, WriteExr_file_written powf toHalf fmt width height isHalfFloat samples flip
    hfmt hw0 hh0, ?_, ?_⟩
  · intro c h w hc hh' hw'
    simp only [exrSample]
    rw [WriteExr_channels_find _ _ width height _ c (by omega), if_pos hc]
    exact (WriteExr_planesLoop_spec (fun v => v) samples width height _ flip _ hn4
      (fun k hk => WriteExr_alloc_length width height _ k hk hn4)).2 c h w hc hh' hw'
  · rw [ReadExr_of_written powf toHalf (exrTypeOfFormat fmt) width height
      (get_channels_amount_from_textureFormat fmt) samples flip gray ht hn1 hn4 hw hh hlen,
      hford, hhalf]
    rfl

/-- Claim C11 at a 2 by 2 picture of format RG32, written and read back flipped:
the file holds the first sample of the first row in the last row of R, and the
read returns the picture. -/
theorem WriteExr_ReadExr_round_trip_witness :
    ∃ file : ExrFile,
      WriteExr_file (fun _ _ => 0) id
          ⟨2, 2, MNSY_RG32, false, some (.floats [1, 2, 3, 4, 5, 6, 7, 8])⟩ true false
        = some file
      ∧ exrSample file 0 2 = 1
      ∧ ReadExr (fun _ _ => 0) id file true false false
        = (⟨2, 2, MNSY_RG32, false, some (.floats [1, 2, 3, 4, 5, 6, 7, 8])⟩, ⟨true, ""⟩) := by
  obtain ⟨file, h1, h2, h3⟩ := WriteExr_ReadExr_round_trip (fun _ _ => 0) id MNSY_RG32 2 2
    false [1, 2, 3, 4, 5, 6, 7, 8] true false (by decide) (by decide) (by decide)
    (by decide) (by decide) (by decide) (by decide)
  exact ⟨file, h1, h2 0 0 0 (by decide) (by decide) (by decide), h3⟩

/-! ## Format ordinals and sRGB transfer functions: theorems -/

/-- Claim C21 fails: the single-channel format R16 has ordinal 5, and
`(5 mod 4) + 1` is 2. No other numbering helps: with any ordinals that put the
four 16-bit formats in 5..8 and make R16 plus 2 the format RGB16, the channel
count is not `(ordinal mod 4) + 1` for every format. -/
theorem channel_count_not_ordinal_mod_4 :
    get_channels_amount_from_textureFormat MNSY_R16 ≠ MNSY_R16.ordinal % 4 + 1
      ∧ ¬ ∃ ord : TextureFormat → Nat,
          (∀ f, bitsPerChannelOf f = 16 → 5 ≤ ord f ∧ ord f ≤ 8)
            ∧ ord MNSY_R16 + 2 = ord MNSY_RGB16
            ∧ ∀ f, f ≠ MNSY_NONE →
                get_channels_amount_from_textureFormat f = ord f % 4 + 1 := by
  refine ⟨by decide, ?_⟩
  rintro ⟨ord, hrange, hplus, hmod⟩
  have h1 := hrange MNSY_R16 (by decide)
  have h2 := hrange MNSY_RGB16 (by decide)
  have h3 := hmod MNSY_R16 (by decide)
  simp only [get_channels_amount_from_textureFormat] at h3
  omega

/-- Claim C21, amended. For every format other than the sentinel the channel count
is `((ordinal - 1) mod 4) + 1`; the 8-bit formats have ordinals up to 4, the 16-bit
formats 5 to 8, the 32-bit formats 9 and more, and a single-channel format plus 2
is the 3-channel format of the same bit depth. -/
theorem channel_count_of_ordinal (f : TextureFormat) (hf : f ≠ MNSY_NONE) :
    get_channels_amount_from_textureFormat f = (f.ordinal - 1) % 4 + 1
      ∧ (bitsPerChannelOf f = 8 ↔ f.ordinal ≤ 4)
      ∧ (bitsPerChannelOf f = 16 ↔ 5 ≤ f.ordinal ∧ f.ordinal ≤ 8)
      ∧ (bitsPerChannelOf f = 32 ↔ 9 ≤ f.ordinal)
      ∧ (get_channels_amount_from_textureFormat f = 1 →
          get_channels_amount_from_textureFormat (TextureFormat.ofOrdinal (f.ordinal + 2)) = 3
            ∧ bitsPerChannelOf (TextureFormat.ofOrdinal (f.ordinal + 2))
              = bitsPerChannelOf f) := by
  cases f <;> first | exact absurd rfl hf | decide

/-- Claim C21, amended, at the format RGB16 (ordinal 7, three channels). -/
theorem channel_count_of_ordinal_witness :
    get_channels_amount_from_textureFormat MNSY_RGB16 = (MNSY_RGB16.ordinal - 1) % 4 + 1 :=
  (channel_count_of_ordinal MNSY_RGB16 (by decide)).1

/-- The linear branch of the forward map lands in the linear branch of the
inverse: up to the threshold the round trip is exact. -/
theorem srgb_round_trip_low (x : ℝ) (hx : x ≤ 31308 / 10000000) :
    pic_util_srgb2linear_float Real.rpow (pic_util_linear2srgb_float Real.rpow x) = x := by
  unfold pic_util_linear2srgb_float
  rw [if_pos hx]
  unfold pic_util_srgb2linear_float
  have h : x * (1292 / 100) ≤ 4045 / 100000 := by linarith
  rw [if_pos h]
  field_simp

/-- From one half upwards the power branch of the forward map lands in the power
branch of the inverse, and the two powers cancel. -/
theorem srgb_round_trip_high (x : ℝ) (hx : 1 / 2 ≤ x) :
    pic_util_srgb2linear_float Real.rpow (pic_util_linear2srgb_float Real.rpow x) = x := by
  have hx0 : 0 ≤ x := by linarith
  have hpow : (1 / 2 : ℝ) ≤ Real.rpow x (1 / (24 / 10)) := by
    have h1 : (1 / 2 : ℝ) ≤ Real.rpow (1 / 2) (1 / (24 / 10)) := by
      have := Real.rpow_le_rpow_of_exponent_ge (by norm_num : (0 : ℝ) < 1 / 2)
        (by norm_num : (1 / 2 : ℝ) ≤ 1) (by norm_num : (1 / (24 / 10) : ℝ) ≤ 1)
      simpa using this
    have h2 : Real.rpow (1 / 2) (1 / (24 / 10)) ≤ Real.rpow x (1 / (24 / 10)) :=
      Real.rpow_le_rpow (by norm_num) hx (by norm_num)
    exact le_trans h1 h2
  unfold pic_util_linear2srgb_float
  rw [if_neg (by linarith)]
  unfold pic_util_srgb2linear_float
  rw [if_neg (by linarith)]
  have e : (1055 / 1000 * Real.rpow x (1 / (24 / 10)) - 55 / 1000 + 55 / 1000) / (1055 / 1000)
      = Real.rpow x (1 / (24 / 10)) := by
    field_simp
  rw [e]
  show (x ^ (1 / (24 / 10) : ℝ)) ^ (24 / 10 : ℝ) = x
  rw [← Real.rpow_mul hx0]
  norm_num

/-- Claim C22. Over the real numbers, with `pow` the real power function and the
thresholds 0.0031308 and 0.04045 of the code, `pic_util_srgb2linear_float` of
`pic_util_linear2srgb_float` of `x` is exactly `x` for each `x` among 0, 0.001,
0.0031308, 0.5 and 1. -/
theorem srgb_round_trip_at_points :
    pic_util_srgb2linear_float Real.rpow (pic_util_linear2srgb_float Real.rpow 0) = 0
      ∧ pic_util_srgb2linear_float Real.rpow
          (pic_util_linear2srgb_float Real.rpow (1 / 1000)) = 1 / 1000
      ∧ pic_util_srgb2linear_float Real.rpow
          (pic_util_linear2srgb_float Real.rpow (31308 / 10000000)) = 31308 / 10000000
      ∧ pic_util_srgb2linear_float Real.rpow
          (pic_util_linear2srgb_float Real.rpow (1 / 2)) = 1 / 2
      ∧ pic_util_srgb2linear_float Real.rpow (pic_util_linear2srgb_float Real.rpow 1) = 1 :=
  ⟨srgb_round_trip_low 0 (by norm_num), srgb_round_trip_low _ (by norm_num),
    srgb_round_trip_low _ (le_refl _), srgb_round_trip_high _ (le_refl _),
    srgb_round_trip_high 1 (by norm_num)⟩

/-! ## TIFF reader, results and strip errors: theorems -/

/-- After the strip loop `tiffError` is the return value of the last call only. -/
theorem ReadTiff_readStrips_error (tif : TiffFile) (sampleSize : Nat) (buffer : List Byte) :
    (ReadTiff_readStrips tif sampleSize buffer).2
      = match tif.strips.getLast? with
        | none => 0
        | some (some data) => (data.length : Int)
        | some none => -1 := by
  unfold ReadTiff_readStrips
  rcases List.eq_nil_or_concat tif.strips with h | ⟨l, a, h⟩
  · rw [h]
    rfl
  · rw [h, List.concat_eq_append, List.length_append, List.length_singleton, forLoop_succ,
      List.getLast?_concat]
    have e : (l ++ [a]).getD l.length none = a := by
      simp [List.getD_eq_getElem?_getD]
    rw [e]
    cases a <;> rfl

/-- A read without gray conversion and without flip that passes all checks returns
the decoded buffer with the tags cut to 16 bits. -/
theorem ReadTiff_plain (fuel : Nat) (disableSimd : Bool) (tif : TiffFile)
    (hopen : tif.opens = true) (hw : tif.width ≠ 0) (hh : tif.height ≠ 0)
    (hfmt : (ReadTiff_format tif.bitsPerChannel tif.channels).1 ≠ MNSY_NONE)
    (hlast : tif.strips.getLast? ≠ some none) :
    ReadTiff fuel disableSimd tif false false
      = some (⟨tif.width % 65536, tif.height % 65536,
            (ReadTiff_format tif.bitsPerChannel tif.channels).1, false,
            some (.bytes (ReadTiff_readStrips tif
              (ReadTiff_sampleSize (ReadTiff_format tif.bitsPerChannel tif.channels).2)
              (List.replicate (((tif.width * tif.height) % 2 ^ 32)
                * ((tif.channels * (tif.bitsPerChannel / 8)) % 2 ^ 32)) 0)).1)⟩,
          ⟨true, ""⟩) := by
  have herr : ∀ sz buf, (ReadTiff_readStrips tif sz buf).2 ≠ -1 := by
    intro sz buf
    rw [ReadTiff_readStrips_error]
    rcases hl : tif.strips.getLast? with _ | a
    · simp
    · cases a with
      | none => exact absurd hl hlast
      | some data =>
        simp only
        omega
  unfold ReadTiff
  rw [if_neg (by simp [hopen]), if_neg (by simp [hw, hh])]
  simp only
  rw [if_neg hfmt, if_neg (herr _ _)]
  simp [ReadTiff_finish]

/-- Claim C23 fails at a TIFF whose width tag is 65536 (one row of gray bytes in one
strip): the read reports success and returns a buffer, and the 16-bit width of
the returned `PictureInfo` is 0. -/
theorem ReadTiff_width_65536 :
    (ReadTiff 0 false ⟨true, 65536, 1, 1, 8, 65536, [some (List.replicate 65536 0)]⟩
        false false).map (fun r => (r.1.width, r.1.height, r.1.pixels.isSome, r.2.wasSuccessfull))
      = some (0, 1, true, true) := by
  have h := ReadTiff_plain 0 false
    ⟨true, 65536, 1, 1, 8, 65536, [some (List.replicate 65536 0)]⟩ rfl (by decide)
    (by decide) (by decide) (fun h => Option.noConfusion (Option.some.inj h))
  rw [h]
  rfl

/-- Claim C30 fails at a TIFF of two one-byte strips whose first strip cannot be
decoded: the read reports success and returns a buffer. -/
theorem ReadTiff_first_strip_failure_ignored :
    (ReadTiff 0 false ⟨true, 1, 2, 1, 8, 1, [none, some [7]]⟩ false false).map
        (fun r => (r.2.wasSuccessfull, r.1.pixels.isSome, r.1.width, r.1.height))
      = some (true, true, 1, 2) := by
  decide

/-- Claim C24 fails: when the stb decoder returns `NULL`, whatever the three `int`
locals hold, `ReadJpg` and `ReadHdr` (without conversion) return the success flag
`true` together with a `PictureInfo` without pixel buffer. -/
theorem stb_readers_report_success_on_failure (powf : ℚ → ℚ → ℚ) (fuel : Nat)
    (width height channels : Int) (flip : Bool) :
    (ReadJpg fuel ⟨none, width, height, channels⟩ flip false).map
        (fun r => (r.2.wasSuccessfull, r.1.pixels)) = some (true, none)
      ∧ (ReadHdr powf ⟨none, width, height, channels⟩ flip false).2.wasSuccessfull = true
      ∧ (ReadHdr powf ⟨none, width, height, channels⟩ flip false).1.pixels = none := by
  refine ⟨?_, rfl, rfl⟩
  simp [ReadJpg]

/-! ## Loops with a 16-bit counter: theorems -/

/-- A loop whose condition holds for every 16-bit counter value never finishes. -/
theorem loopU16_never_exits {σ : Type} (cond : Nat → Bool) (step : Nat)
    (body : Nat → σ → Option σ) (hcond : ∀ i, i < 65536 → cond i = true) :
    ∀ (fuel i : Nat) (s : σ), i < 65536 → loopU16 cond step body fuel i s = none
  | 0, _, _, _ => rfl
  | fuel + 1, i, s, hi => by
    rw [loopU16, if_pos (hcond i hi)]
    cases body i s with
    | none => rfl
    | some s1 =>
      exact loopU16_never_exits cond step body hcond fuel _ s1 (Nat.mod_lt _ (by norm_num))

/-- A loop that has to pass the condition once and whose body does not finish does
not finish. -/
theorem loopU16_body_none {σ : Type} (cond : Nat → Bool) (step : Nat)
    (body : Nat → σ → Option σ) (fuel i : Nat) (s : σ) (hc : cond i = true)
    (hb : body i s = none) : loopU16 cond step body fuel i s = none := by
  cases fuel with
  | zero => rfl
  | succ fuel => rw [loopU16, if_pos hc, hb]

/-- A counting loop whose counter stays below 65536 runs its body for the counter
values `i0`, `i0 + step`, ... and stops at the first value that fails the test. -/
theorem loopU16_eq_fold {σ : Type} (cond : Nat → Bool) (step : Nat)
    (body : Nat → σ → Option σ) (f : Nat → σ → σ) :
    ∀ (n fuel i0 : Nat) (s : σ), n < fuel →
      (∀ j, j < n → cond (i0 + j * step) = true) → cond (i0 + n * step) = false →
      i0 + n * step < 65536 →
      (∀ j, j < n → ∀ x, body (i0 + j * step) x = some (f (i0 + j * step) x)) →
      loopU16 cond step body fuel i0 s
        = some (i0 + n * step,
            (List.range n).foldl (fun acc j => f (i0 + j * step) acc) s)
  | 0, fuel, i0, s, hfuel, _, hout, _, _ => by
    obtain ⟨k, rfl⟩ : ∃ k, fuel = k + 1 := ⟨fuel - 1, by omega⟩
    have hout' : cond i0 = false := by simpa using hout
    rw [loopU16, hout']
    simp
  | n + 1, fuel, i0, s, hfuel, hin, hout, hfit, hbody => by
    obtain ⟨k, rfl⟩ : ∃ k, fuel = k + 1 := ⟨fuel - 1, by omega⟩
    have h0 : cond i0 = true := by simpa using hin 0 (by omega)
    have hb0 : body i0 s = some (f i0 s) := by simpa using hbody 0 (by omega) s
    have hstep : i0 + step ≤ i0 + (n + 1) * step := by
      have : step ≤ (n + 1) * step := Nat.le_mul_of_pos_left step (by omega)
      omega
    have hnext : (i0 + step) % 65536 = i0 + step := Nat.mod_eq_of_lt (by omega)
    have hidx : ∀ j, i0 + step + j * step = i0 + (j + 1) * step := by
      intro j
      rw [Nat.add_mul, Nat.one_mul]
      omega
    rw [loopU16, if_pos h0, hb0]
    simp only
    rw [hnext, loopU16_eq_fold cond step body f n k (i0 + step) (f i0 s) (by omega)
      (fun j hj => by rw [hidx]; exact hin (j + 1) (by omega))
      (by rw [hidx]; exact hout) (by rw [hidx]; exact hfit)
      (fun j hj x => by rw [hidx]; exact hbody (j + 1) (by omega) x)]
    rw [hidx, List.range_succ_eq_map, List.foldl_cons, List.foldl_map]
    simp only [hidx, Nat.zero_mul, Nat.add_zero, Nat.succ_eq_add_one]

/-- A loop `for (uint16_t i = 0; i < bound; i++)` with `bound` below 65536 is the
counted loop. -/
theorem loopU16_eq_forLoop {σ : Type} (bound : Nat) (body : Nat → σ → Option σ)
    (f : Nat → σ → σ) (fuel : Nat) (s : σ) (hb : bound < 65536) (hfuel : bound < fuel)
    (hbody : ∀ i, i < bound → ∀ x, body i x = some (f i x)) :
    (loopU16 (fun i => decide (i < bound)) 1 body fuel 0 s).map Prod.snd
      = some (forLoop bound f s) := by
  rw [loopU16_eq_fold (fun i => decide (i < bound)) 1 body f bound fuel 0 s hfuel
    (fun j hj => by simpa using hj) (by simp) (by omega)
    (fun j hj x => by simpa using hbody j hj x)]
  simp [forLoop]

/-! ## TIFF reader, gray to RGB: theorems -/

/-- A single-channel read with gray conversion that passes all checks returns what
the gray-to-RGB block produces: the row-swap flip is not run after it. -/
theorem ReadTiff_gray_eq (fuel : Nat) (disableSimd : Bool) (tif : TiffFile) (flip : Bool)
    (hopen : tif.opens = true) (hw : tif.width ≠ 0) (hh : tif.height ≠ 0)
    (hch : tif.channels = 1)
    (hfmt : (ReadTiff_format tif.bitsPerChannel tif.channels).1 ≠ MNSY_NONE)
    (hlast : tif.strips.getLast? ≠ some none) :
    ReadTiff fuel disableSimd tif flip true
      = (ReadTiff_grayToRGB fuel disableSimd
          (ReadTiff_format tif.bitsPerChannel tif.channels).2
          (ReadTiff_readStrips tif
            (ReadTiff_sampleSize (ReadTiff_format tif.bitsPerChannel tif.channels).2)
            (List.replicate (((tif.width * tif.height) % 2 ^ 32)
              * ((tif.channels * (tif.bitsPerChannel / 8)) % 2 ^ 32)) 0)).1
          tif.width tif.height tif.bitsPerChannel flip).map
        (fun pixels =>
          (⟨tif.width % 65536, tif.height % 65536,
            TextureFormat.ofOrdinal
              ((ReadTiff_format tif.bitsPerChannel tif.channels).2.ordinal + 2),
            false, some (.bytes pixels)⟩, ⟨true, ""⟩)) := by
  have herr : ∀ sz buf, (ReadTiff_readStrips tif sz buf).2 ≠ -1 := by
    intro sz buf
    rw [ReadTiff_readStrips_error]
    rcases hl : tif.strips.getLast? with _ | a
    · simp
    · cases a with
      | none => exact absurd hl hlast
      | some data =>
        simp only
        omega
  unfold ReadTiff
  rw [if_neg (by simp [hopen]), if_neg (by simp [hw, hh])]
  simp only
  rw [if_neg hfmt, if_neg (herr _ _)]
  unfold ReadTiff_finish
  simp only [hch, true_and, if_true]
  cases ReadTiff_grayToRGB fuel disableSimd (ReadTiff_format tif.bitsPerChannel 1).2
      (ReadTiff_readStrips tif (ReadTiff_sampleSize (ReadTiff_format tif.bitsPerChannel 1).2)
        (List.replicate (((tif.width * tif.height) % 2 ^ 32)
          * ((1 * (tif.bitsPerChannel / 8)) % 2 ^ 32)) 0)).1
      tif.width tif.height tif.bitsPerChannel flip with
  | none => rfl
  | some pixels => cases flip <;> simp

/-- For a width from 1 to 7 the bound `width - 8` of the block loop wraps to more
than 65535, so the loop passes its test for every value of the 16-bit counter:
the row is never finished. -/
theorem ReadTiff_simdRow_never_finishes (fuel : Nat) (buffer : List Byte)
    (width height : Nat) (flip : Bool) (h : Nat) (pixels : List Byte)
    (hw0 : 0 < width) (hw8 : width < 8) :
    ReadTiff_simdRow fuel buffer width height flip h pixels = none := by
  unfold ReadTiff_simdRow
  simp only
  rw [loopU16_never_exits _ 8 _ (fun i hi => by
    have : (width + 2 ^ 32 - 8) % 2 ^ 32 = width + 2 ^ 32 - 8 :=
      Nat.mod_eq_of_lt (by omega)
    rw [this]
    simp only [decide_eq_true_eq]
    omega) fuel 0 pixels (by norm_num)]

/-- With the vector build, a 16-bit gray-to-RGB conversion of a picture 1 to 7
pixels wide never finishes. -/
theorem ReadTiff_grayToRGB_simd_never_finishes (fuel : Nat) (buffer : List Byte)
    (width height : Nat) (flip : Bool) (pixels : List Byte)
    (hw0 : 0 < width) (hw8 : width < 8) (hh0 : 0 < height) :
    ReadTiff_grayToRGB_simd fuel buffer width height flip pixels = none := by
  unfold ReadTiff_grayToRGB_simd
  rw [loopU16_body_none _ 1 _ fuel 0 pixels (by simpa using hh0)
    (ReadTiff_simdRow_never_finishes fuel buffer width height flip 0 pixels hw0 hw8)]
  rfl

/-- Claim C27 fails at a 16-bit gray TIFF of one pixel read with gray conversion in
the vector build: whatever the number of iterations allowed, the read has not
finished (the block loop `for (; w <= width - 8; w += 8)` never exits). -/
theorem ReadTiff_simd_narrow_never_finishes (fuel : Nat) (flip : Bool) :
    ReadTiff fuel false ⟨true, 1, 1, 1, 16, 2, [some [1, 0]]⟩ flip true = none := by
  rw [ReadTiff_gray_eq fuel false ⟨true, 1, 1, 1, 16, 2, [some [1, 0]]⟩ flip rfl
    (by decide) (by decide) rfl (by decide) (by decide)]
  have e : (ReadTiff_format 16 1).2 = MNSY_R16 := by decide
  simp only [e, ReadTiff_grayToRGB, reduceCtorEq, if_false, if_true, Bool.false_eq_true]
  rw [ReadTiff_grayToRGB_simd_never_finishes fuel _ 1 1 flip _ (by norm_num) (by norm_num)
    (by norm_num)]
  rfl

set_option maxRecDepth 100000 in
/-- Claim C25 fails at a 16-bit gray TIFF of one row with the samples 1 to 8, read
with gray conversion: the vector build stores the eight samples three times in a
row, so the first output pixel is (1, 2, 3); the build without SIMD returns
(1, 1, 1), (2, 2, 2), and so on. -/
theorem ReadTiff_simd_gray16_layout :
    (ReadTiff 9 false
        ⟨true, 8, 1, 1, 16, 16, [some [1, 0, 2, 0, 3, 0, 4, 0, 5, 0, 6, 0, 7, 0, 8, 0]]⟩
        false true)
      = some (⟨8, 1, MNSY_RGB16, false, some (.bytes
          [1, 0, 2, 0, 3, 0, 4, 0, 5, 0, 6, 0, 7, 0, 8, 0,
           1, 0, 2, 0, 3, 0, 4, 0, 5, 0, 6, 0, 7, 0, 8, 0,
           1, 0, 2, 0, 3, 0, 4, 0, 5, 0, 6, 0, 7, 0, 8, 0])⟩, ⟨true, ""⟩)
    ∧ (ReadTiff 9 true
        ⟨true, 8, 1, 1, 16, 16, [some [1, 0, 2, 0, 3, 0, 4, 0, 5, 0, 6, 0, 7, 0, 8, 0]]⟩
        false true)
      = some (⟨8, 1, MNSY_RGB16, false, some (.bytes
          [1, 0, 1, 0, 1, 0, 2, 0, 2, 0, 2, 0, 3, 0, 3, 0, 3, 0, 4, 0, 4, 0, 4, 0,
           5, 0, 5, 0, 5, 0, 6, 0, 6, 0, 6, 0, 7, 0, 7, 0, 7, 0, 8, 0, 8, 0, 8, 0])⟩,
          ⟨true, ""⟩) := by
  constructor <;> decide

/-! ## JPEG writer: theorems -/

/-- For up to four channels the unrolled body of the conversion loop is a loop
over the channels: colour channels are divided and clamped, alpha is set to 0. -/
theorem WriteJpg_convert16to8_eq_loop (srcBuffer : List Byte) (W H channels : Nat)
    (hch : channels ≤ 4) :
    WriteJpg_convert16to8 srcBuffer W H channels
      = forLoop H (fun h b0 => forLoop W (fun w b1 => forLoop channels (fun c b =>
          b.set ((h * W + w) * channels + c)
            (if c < 3 then clampToByte (readU16 srcBuffer ((h * W + w) * channels + c) / 255)
              else 0)) b1) b0) (List.replicate (W * H * channels) 0) := by
  unfold WriteJpg_convert16to8
  apply forLoop_congr
  intro h _ b0
  apply forLoop_congr
  intro w _ b1
  simp only
  interval_cases channels <;> simp [forLoop, List.range_succ]

/-- The conversion loop fills the whole temporary buffer: the byte of channel `c`
of pixel `(h, w)` is the clamped quotient of the 16-bit sample at the same offset
for a colour channel, and 0 for alpha. -/
theorem WriteJpg_convert16to8_spec (srcBuffer : List Byte) (W H channels : Nat)
    (hch : channels ≤ 4) :
    (WriteJpg_convert16to8 srcBuffer W H channels).length = W * H * channels
      ∧ ∀ h w c, h < H → w < W → c < channels →
          (WriteJpg_convert16to8 srcBuffer W H channels).getD ((h * W + w) * channels + c) 0
            = if c < 3 then
                clampToByte (readU16 srcBuffer ((h * W + w) * channels + c) / 255)
              else 0 := by
  have hWH : W * H = H * W := Nat.mul_comm W H
  have main := foldl_gather_scatter
    (fun (i : Nat × Nat × Nat) (s : List Byte) =>
      s.set ((i.1 * W + i.2.1) * channels + i.2.2)
        (if i.2.2 < 3 then
          clampToByte (readU16 srcBuffer ((i.1 * W + i.2.1) * channels + i.2.2) / 255)
        else 0))
    (fun s => s.length = W * H * channels)
    (fun s d => s.getD d 0)
    (fun i _ => if i.2.2 < 3 then
        clampToByte (readU16 srcBuffer ((i.1 * W + i.2.1) * channels + i.2.2) / 255)
      else 0)
    (fun i => i)
    (fun i => [(i.1 * W + i.2.1) * channels + i.2.2])
    (fun _ v => v)
    (List.product (List.range H) (List.product (List.range W) (List.range channels)))
    (List.Nodup.product (List.nodup_range H)
      (List.Nodup.product (List.nodup_range W) (List.nodup_range channels)))
    (by
      intro i _ s hs
      simp [hs])
    (by
      intro i hi s hs d hd
      obtain ⟨h, w, c⟩ := i
      obtain ⟨hh, hw, hc⟩ := mem_range_product3.mp hi
      have hd' : d = (h * W + w) * channels + c := by simpa using hd
      subst hd'
      exact getD_set_eq _ _ _ _ (by
        rw [hs, hWH]
        exact mul_add_lt channels (H * W) _ c (mul_add_lt W H h w hh hw) hc))
    (by
      intro i _ s _ d hd
      obtain ⟨h, w, c⟩ := i
      have hne : (h * W + w) * channels + c ≠ d := by
        intro e
        exact hd (by simp [e])
      exact getD_set_ne _ _ _ _ _ hne)
    (by
      intro i _ j _ _ s _
      rfl)
    (by
      intro i _ j _ hne
      exact hne)
    (by
      intro i hi j hj hne d hd hd'
      obtain ⟨h, w, c⟩ := i
      obtain ⟨h', w', c'⟩ := j
      obtain ⟨_, hw, hc⟩ := mem_range_product3.mp hi
      obtain ⟨_, hw', hc'⟩ := mem_range_product3.mp hj
      have e1 : d = (h * W + w) * channels + c := by simpa using hd
      have e2 : d = (h' * W + w') * channels + c' := by simpa using hd'
      rw [e1] at e2
      obtain ⟨e3, e4⟩ := mul_add_inj channels _ c _ c' hc hc' e2
      obtain ⟨e5, e6⟩ := mul_add_inj W h w h' w' hw hw' e3
      exact hne (by rw [e4, e5, e6]))
    (List.replicate (W * H * channels) 0) (by simp)
  obtain ⟨hlen, hvals, _⟩ := main
  rw [WriteJpg_convert16to8_eq_loop srcBuffer W H channels hch, forLoop_nest3 H W channels]
  refine ⟨hlen, ?_⟩
  intro h w c hh hw hc
  have := hvals (h, w, c) (mem_range_product3.mpr ⟨hh, hw, hc⟩)
    ((h * W + w) * channels + c) (by simp)
  simpa using this

/-- Claim C28. When `WriteJpg` is given a valid picture of a 16-bit format with 1, 3
or 4 channels, the encoder is called on a temporary buffer of
`width * height * channels` bytes in which the byte of every colour channel
(channels 0 to 2) of every pixel, at the interleaved offset of its 16-bit source
sample `v`, is `min (v div 255) 255`; that value is at most 255, does not decrease
when `v` grows, and is 255 for every `v` from 65025 on. Offsets are the exact
ones, as `int` gives them for `width * height * channels < 2 ^ 31`. -/
theorem WriteJpg_16bit_conversion (env : Env) (filepath : String)
    (pictureInfo : PictureInfo) (flip : Bool)
    (hvalid : (pic_util_check_input_pictureInfo pictureInfo).wasSuccessfull = true)
    (h16 : bitsPerChannelOf pictureInfo.textureFormat = 16)
    (h2 : get_channels_amount_from_textureFormat pictureInfo.textureFormat ≠ 2)
    (_hfit : pictureInfo.width * pictureInfo.height
      * get_channels_amount_from_textureFormat pictureInfo.textureFormat < 2 ^ 31) :
    ∃ buffer : List Byte,
      (WriteJpg env filepath pictureInfo flip).trace
          = [Event.stbi_write_jpg filepath pictureInfo.width pictureInfo.height
              (get_channels_amount_from_textureFormat pictureInfo.textureFormat) buffer flip]
        ∧ buffer.length = pictureInfo.width * pictureInfo.height
            * get_channels_amount_from_textureFormat pictureInfo.textureFormat
        ∧ (∀ h w c, h < pictureInfo.height → w < pictureInfo.width →
            c < get_channels_amount_from_textureFormat pictureInfo.textureFormat → c < 3 →
            (buffer.getD ((h * pictureInfo.width + w)
                * get_channels_amount_from_textureFormat pictureInfo.textureFormat + c) 0).val
              = min (readU16 ((pictureInfo.pixels.map PixelData.asBytes).getD [])
                  ((h * pictureInfo.width + w)
                    * get_channels_amount_from_textureFormat pictureInfo.textureFormat + c)
                  / 255) 255)
        ∧ (∀ u v : Nat, u ≤ v →
            (clampToByte (u / 255)).val ≤ (clampToByte (v / 255)).val)
        ∧ (∀ v : Nat, 65025 ≤ v → (clampToByte (v / 255)).val = 255)
        ∧ ∀ v : Nat, (clampToByte (v / 255)).val = min (v / 255) 255
            ∧ (clampToByte (v / 255)).val ≤ 255 := by
  have hch4 : get_channels_amount_from_textureFormat pictureInfo.textureFormat ≤ 4 := by
    cases pictureInfo.textureFormat <;> decide
  obtain ⟨hlen, hval⟩ := WriteJpg_convert16to8_spec
    ((pictureInfo.pixels.map PixelData.asBytes).getD []) pictureInfo.width pictureInfo.height
    (get_channels_amount_from_textureFormat pictureInfo.textureFormat) hch4
  refine ⟨_, ?_, hlen, ?_, ?_, ?_, ?_⟩
  · unfold WriteJpg
    simp only [hvalid, Bool.not_true, Bool.false_eq_true, if_false]
    cases hf : pictureInfo.textureFormat <;>
      simp_all [get_channels_amount_from_textureFormat, bitsPerChannelOf,
        get_channel_textureFormat, TextureFormat.ordinal] <;>
      split_ifs <;> rfl
  · intro h w c hh hw hc hc3
    rw [hval h w c hh hw hc, if_pos hc3]
    rfl
  · intro u v huv
    show min (u / 255) 255 ≤ min (v / 255) 255
    have : u / 255 ≤ v / 255 := Nat.div_le_div_right huv
    omega
  · intro v hv
    show min (v / 255) 255 = 255
    have : 255 ≤ v / 255 := by omega
    omega
  · intro v
    exact ⟨rfl, Nat.min_le_right _ _⟩

/-- Claim C28 at a 1 by 1 picture of format R16 with the sample 65535: the byte
handed to the encoder is 255. -/
theorem WriteJpg_16bit_conversion_witness :
    ∃ buffer : List Byte,
      (WriteJpg (Env.simple []) "a.jpg" ⟨1, 1, MNSY_R16, false, some (.bytes [255, 255])⟩
          false).trace = [Event.stbi_write_jpg "a.jpg" 1 1 1 buffer false]
        ∧ (buffer.getD 0 0).val = 255 := by
  obtain ⟨buffer, h1, _, h3, _⟩ := WriteJpg_16bit_conversion (Env.simple []) "a.jpg"
    ⟨1, 1, MNSY_R16, false, some (.bytes [255, 255])⟩ false (by decide) (by decide)
    (by decide) (by decide)
  exact ⟨buffer, h1, h3 0 0 0 (by decide) (by decide) (by decide) (by decide)⟩

/-- Claim C29 fails at a valid 1 by 1 picture of format RGBA8: the encoder is
called with the channel count 4 and all four bytes of the pixel. -/
theorem WriteJpg_passes_four_channels :
    (pic_util_check_input_pictureInfo
        ⟨1, 1, MNSY_RGBA8, false, some (.bytes [1, 2, 3, 4])⟩).wasSuccessfull = true
      ∧ (WriteJpg (Env.simple []) "a.jpg" ⟨1, 1, MNSY_RGBA8, false, some (.bytes [1, 2, 3, 4])⟩
          false).err = ⟨true, ""⟩
      ∧ (WriteJpg (Env.simple []) "a.jpg" ⟨1, 1, MNSY_RGBA8, false, some (.bytes [1, 2, 3, 4])⟩
          false).trace = [Event.stbi_write_jpg "a.jpg" 1 1 4 [1, 2, 3, 4] false]
      ∧ (4 : Nat) ≠ min 4 3 := by
  decide

/-- Claim C29, amended. For every picture `WriteJpg` accepts (valid, not a
2-channel and not a 32-bit format) the encoder is called once, and the channel
count passed to it is the channel count of the format (1, 3 or 4): it is not
capped at 3. -/
theorem WriteJpg_channel_count_passed (env : Env) (filepath : String)
    (pictureInfo : PictureInfo) (flip : Bool)
    (hvalid : (pic_util_check_input_pictureInfo pictureInfo).wasSuccessfull = true)
    (h2 : get_channels_amount_from_textureFormat pictureInfo.textureFormat ≠ 2)
    (h32 : bitsPerChannelOf pictureInfo.textureFormat ≠ 32) :
    (get_channels_amount_from_textureFormat pictureInfo.textureFormat = 1
        ∨ get_channels_amount_from_textureFormat pictureInfo.textureFormat = 3
        ∨ get_channels_amount_from_textureFormat pictureInfo.textureFormat = 4)
      ∧ ∃ buffer : List Byte,
          (WriteJpg env filepath pictureInfo flip).trace
            = [Event.stbi_write_jpg filepath pictureInfo.width pictureInfo.height
                (get_channels_amount_from_textureFormat pictureInfo.textureFormat)
                buffer flip] := by
  have hfmt : pictureInfo.textureFormat ≠ MNSY_NONE := by
    intro e
    simp [pic_util_check_input_pictureInfo, e] at hvalid
    split_ifs at hvalid
  refine ⟨?_, ?_⟩
  · revert h2 hfmt
    cases pictureInfo.textureFormat <;> decide
  · unfold WriteJpg
    simp only [hvalid, Bool.not_true, Bool.false_eq_true, if_false]
    cases hf : pictureInfo.textureFormat <;>
      simp_all [get_channels_amount_from_textureFormat, bitsPerChannelOf,
        get_channel_textureFormat, TextureFormat.ordinal] <;>
      split_ifs <;> exact ⟨_, rfl⟩

/-- Claim C29, amended, at a 1 by 1 picture of format RGBA16. -/
theorem WriteJpg_channel_count_passed_witness :
    ∃ buffer : List Byte,
      (WriteJpg (Env.simple []) "a.jpg"
          ⟨1, 1, MNSY_RGBA16, false, some (.bytes [0, 1, 0, 2, 0, 3, 0, 4])⟩ false).trace
        = [Event.stbi_write_jpg "a.jpg" 1 1 4 buffer false] :=
  (WriteJpg_channel_count_passed (Env.simple []) "a.jpg"
    ⟨1, 1, MNSY_RGBA16, false, some (.bytes [0, 1, 0, 2, 0, 3, 0, 4])⟩ false (by decide)
    (by decide) (by decide)).2

/-! ## TIFF reader, scalar gray to RGB: theorems -/

/-- Writing one sample cell of `sz` bytes: the cell holds the value, every other
cell is unchanged. -/
theorem memWrite_cell (p : List Byte) (sz e : Nat) (val : List Byte)
    (hval : val.length = sz) (hin : e * sz + sz ≤ p.length) :
    (memWrite p (e * sz) val).length = p.length
      ∧ memRead (memWrite p (e * sz) val) (e * sz) sz = val
      ∧ ∀ d, d ≠ e → memRead (memWrite p (e * sz) val) (d * sz) sz = memRead p (d * sz) sz := by
  refine ⟨memWrite_length p (e * sz) val (by omega), ?_, ?_⟩
  · have := memRead_memWrite_same p (e * sz) val (by omega)
    rwa [hval] at this
  · intro d hd
    apply memRead_memWrite_disjoint p (e * sz) val (d * sz) sz (by omega)
    rcases Nat.lt_or_gt_of_ne hd with h | h
    · exact Or.inl (row_offset_le d e sz h)
    · right
      rw [hval]
      exact row_offset_le e d sz h

/-- The row read for output row `h` of a picture less than 65536 rows high. -/
theorem ReadTiff_srcRow_eq (H : Nat) (flip : Bool) (h : Nat) (hh : h < H) (hH : H < 65536) :
    ReadTiff_srcRow H flip h = if flip then H - h - 1 else h := by
  unfold ReadTiff_srcRow
  cases flip with
  | false => rfl
  | true =>
    simp only [if_true]
    have e32 : (2 : Nat) ^ 32 = 4294967296 := by norm_num
    rw [e32]
    omega

/-- One step of the scalar gray-to-RGB loops inside a picture whose sample count
fits 32 bits: the three cells of output pixel `(h, w)` receive the source cell of
row `y`, column `w`; every other cell keeps its value. -/
theorem ReadTiff_grayPixel_spec (sz : Nat) (buffer : List Byte) (W H : Nat) (flip : Bool)
    (h w : Nat) (p : List Byte) (hh : h < H) (hw : w < W) (hH : H < 65536)
    (hfit : W * H * 3 < 2 ^ 32) (hbuf : W * H * sz ≤ buffer.length)
    (hp : p.length = W * H * 3 * sz) :
    (ReadTiff_grayPixel sz buffer W H flip h w p).length = W * H * 3 * sz
      ∧ (∀ k, k < 3 →
          memRead (ReadTiff_grayPixel sz buffer W H flip h w p)
              (((h * W + w) * 3 + k) * sz) sz
            = memRead buffer (((if flip then H - h - 1 else h) * W + w) * sz) sz)
      ∧ ∀ d, (∀ k, k < 3 → d ≠ (h * W + w) * 3 + k) →
          memRead (ReadTiff_grayPixel sz buffer W H flip h w p) (d * sz) sz
            = memRead p (d * sz) sz := by
  have hWH : W * H = H * W := Nat.mul_comm W H
  have e32 : (2 : Nat) ^ 32 = 4294967296 := by norm_num
  have hy : (if flip then H - h - 1 else h) < H := flipRow_lt flip H h hh
  have hsrc : (if flip then H - h - 1 else h) * W + w < H * W := mul_add_lt W H _ w hy hw
  have hdst : h * W + w < H * W := mul_add_lt W H h w hh hw
  have e1 : ((if flip then H - h - 1 else h) * W + w) % 2 ^ 32
      = (if flip then H - h - 1 else h) * W + w := Nat.mod_eq_of_lt (by omega)
  have e2 : ((h * W + w) * 3) % 2 ^ 32 = (h * W + w) * 3 := Nat.mod_eq_of_lt (by omega)
  have hval : (memRead buffer (((if flip then H - h - 1 else h) * W + w) * sz) sz).length
      = sz := by
    apply memRead_length
    have := row_offset_le ((if flip then H - h - 1 else h) * W + w) (W * H) sz (by omega)
    omega
  have hcell : ∀ k, k < 3 → ((h * W + w) * 3 + k) * sz + sz ≤ W * H * 3 * sz := by
    intro k hk
    exact row_offset_le ((h * W + w) * 3 + k) (W * H * 3) sz (by omega)
  unfold ReadTiff_grayPixel
  simp only [ReadTiff_srcRow_eq H flip h hh hH, e1, e2]
  obtain ⟨l0, r0, k0⟩ := memWrite_cell p sz ((h * W + w) * 3 + 0) _ hval
    (by rw [hp]; exact hcell 0 (by omega))
  obtain ⟨l1, r1, k1⟩ := memWrite_cell _ sz ((h * W + w) * 3 + 1) _ hval
    (by rw [l0, hp]; exact hcell 1 (by omega))
  obtain ⟨l2, r2, k2⟩ := memWrite_cell _ sz ((h * W + w) * 3 + 2) _ hval
    (by rw [l1, l0, hp]; exact hcell 2 (by omega))
  refine ⟨by rw [l2, l1, l0, hp], ?_, ?_⟩
  · intro k hk
    have hk3 : k = 0 ∨ k = 1 ∨ k = 2 := by omega
    rcases hk3 with rfl | rfl | rfl
    · rw [k2 _ (by omega), k1 _ (by omega), r0]
    · rw [k2 _ (by omega), r1]
    · rw [r2]
  · intro d hd
    rw [k2 d (hd 2 (by omega)), k1 d (hd 1 (by omega)), k0 d (hd 0 (by omega))]

/-- With both sizes below 65536 and enough iterations allowed, the scalar
gray-to-RGB loops are the two counted loops. -/
theorem ReadTiff_grayToRGB_scalar_eq (fuel sz : Nat) (buffer : List Byte) (W H : Nat)
    (flip : Bool) (pixels : List Byte) (hW : W < 65536) (hH : H < 65536)
    (hfW : W < fuel) (hfH : H < fuel) :
    ReadTiff_grayToRGB_scalar fuel sz buffer W H flip pixels
      = some (forLoop H (fun h p0 =>
          forLoop W (fun w p => ReadTiff_grayPixel sz buffer W H flip h w p) p0) pixels) := by
  unfold ReadTiff_grayToRGB_scalar
  exact loopU16_eq_forLoop H _ _ fuel pixels hH hfH (fun h _ p0 =>
    loopU16_eq_forLoop W _ _ fuel p0 hW hfW (fun _ _ _ => rfl))

/-- The scalar gray-to-RGB loops fill the whole destination: each of the three
cells of output pixel `(h, w)` holds the source cell of row `y`, column `w`. -/
theorem ReadTiff_grayToRGB_scalar_spec (fuel sz : Nat) (buffer : List Byte) (W H : Nat)
    (flip : Bool) (hW : W < 65536) (hH : H < 65536) (hfW : W < fuel) (hfH : H < fuel)
    (hfit : W * H * 3 < 2 ^ 32) (hbuf : W * H * sz ≤ buffer.length) :
    ∃ pixels : List Byte,
      ReadTiff_grayToRGB_scalar fuel sz buffer W H flip (List.replicate (W * H * 3 * sz) 0)
          = some pixels
        ∧ pixels.length = W * H * 3 * sz
        ∧ ∀ h w k, h < H → w < W → k < 3 →
            memRead pixels (((h * W + w) * 3 + k) * sz) sz
              = memRead buffer (((if flip then H - h - 1 else h) * W + w) * sz) sz := by
  have main := foldl_gather_scatter
    (fun (i : Nat × Nat) (s : List Byte) => ReadTiff_grayPixel sz buffer W H flip i.1 i.2 s)
    (fun s => s.length = W * H * 3 * sz)
    (fun s d => memRead s (d * sz) sz)
    (fun i _ => memRead buffer (((if flip then H - i.1 - 1 else i.1) * W + i.2) * sz) sz)
    (fun i => i)
    (fun i => (List.range 3).map (fun k => (i.1 * W + i.2) * 3 + k))
    (fun _ v => v)
    (List.product (List.range H) (List.range W))
    (List.Nodup.product (List.nodup_range H) (List.nodup_range W))
    (by
      rintro ⟨h, w⟩ hi s hs
      obtain ⟨hh, hw⟩ := mem_range_product.mp hi
      exact (ReadTiff_grayPixel_spec sz buffer W H flip h w s hh hw hH hfit hbuf hs).1)
    (by
      rintro ⟨h, w⟩ hi s hs d hd
      obtain ⟨hh, hw⟩ := mem_range_product.mp hi
      obtain ⟨k, hk, rfl⟩ := List.mem_map.mp hd
      exact (ReadTiff_grayPixel_spec sz buffer W H flip h w s hh hw hH hfit hbuf hs).2.1 k
        (List.mem_range.mp hk))
    (by
      rintro ⟨h, w⟩ hi s hs d hd
      obtain ⟨hh, hw⟩ := mem_range_product.mp hi
      exact (ReadTiff_grayPixel_spec sz buffer W H flip h w s hh hw hH hfit hbuf hs).2.2 d
        (fun k hk e => hd (List.mem_map.mpr ⟨k, List.mem_range.mpr hk, e.symm⟩)))
    (by
      intro i _ j _ _ s _
      rfl)
    (by
      intro i _ j _ hne
      exact hne)
    (by
      rintro ⟨h, w⟩ hi ⟨h', w'⟩ hj hne d hd hd'
      obtain ⟨_, hw⟩ := mem_range_product.mp hi
      obtain ⟨_, hw'⟩ := mem_range_product.mp hj
      obtain ⟨k, hk, rfl⟩ := List.mem_map.mp hd
      obtain ⟨k', hk', e⟩ := List.mem_map.mp hd'
      obtain ⟨e1, _⟩ := mul_add_inj 3 _ k' _ k (List.mem_range.mp hk') (List.mem_range.mp hk) e
      obtain ⟨e2, e3⟩ := mul_add_inj W h' w' h w hw' hw e1
      exact hne (by rw [e2, e3]))
    (List.replicate (W * H * 3 * sz) 0) (by simp)
  obtain ⟨hlen, hvals, _⟩ := main
  refine ⟨_, ReadTiff_grayToRGB_scalar_eq fuel sz buffer W H flip _ hW hH hfW hfH, ?_, ?_⟩
  · rw [forLoop_nest2 H W]
    exact hlen
  · intro h w k hh hw hk
    rw [forLoop_nest2 H W]
    exact hvals (h, w) (mem_range_product.mpr ⟨hh, hw⟩) ((h * W + w) * 3 + k)
      (List.mem_map.mpr ⟨k, List.mem_range.mpr hk, rfl⟩)

/-- Strips that are decoded inside the buffer leave its size as it is. -/
theorem ReadTiff_readStrips_length (tif : TiffFile) (sz : Nat) (buffer : List Byte)
    (hstrips : ∀ i data, tif.strips[i]? = some (some data) →
      ReadTiff_stripOffset tif.stripSize sz i + data.length ≤ buffer.length) :
    (ReadTiff_readStrips tif sz buffer).1.length = buffer.length := by
  unfold ReadTiff_readStrips
  have key : ∀ n, n ≤ tif.strips.length →
      (forLoop n (fun strip st =>
        match tif.strips.getD strip none with
        | some data =>
          (memWrite st.1 (ReadTiff_stripOffset tif.stripSize sz strip) data,
            (data.length : Int))
        | none => (st.1, -1)) (buffer, (0 : Int))).1.length = buffer.length := by
    intro n
    induction n with
    | zero => intro _; rfl
    | succ n ih =>
      intro hn
      rw [forLoop_succ]
      have hget : tif.strips.getD n none = (tif.strips[n]?).getD none :=
        List.getD_eq_getElem?_getD _ _ _
      rcases hs : tif.strips[n]? with _ | a
      · rw [hget, hs]
        exact ih (by omega)
      · rw [hget, hs]
        cases a with
        | none => exact ih (by omega)
        | some data =>
          simp only [Option.getD_some]
          rw [memWrite_length _ _ _ (by rw [ih (by omega)]; exact hstrips n data hs)]
          exact ih (by omega)
  exact key _ (le_refl _)

/-- Inside the range of the 16-bit loop counters: for a single-channel 8-bit or
32-bit TIFF (sample size `sz` of 1 or 4 bytes) read with `convertGrayToRGB`, with
width and height from 1 to 65535,
`3 * width * height * sz` below `2 ^ 32` and strips that decode inside the buffer,
`ReadTiff` succeeds and returns the format RGB8 or RGB32 with a buffer of
`3 * width * height` samples in which each of the three samples of output pixel
`(h, w)` is the decoded sample of row `y`, column `w`, where `y` is
`height - h - 1` when flipping and `h` otherwise: the buffer is the one the
triplication pass produces, and no row-swap flip is applied to it. -/
theorem ReadTiff_gray_triplication (fuel : Nat) (disableSimd : Bool) (tif : TiffFile)
    (flip : Bool) (sz : Nat) (hopen : tif.opens = true) (hch : tif.channels = 1)
    (hsz : sz = 1 ∨ sz = 4) (hbits : tif.bitsPerChannel = 8 * sz)
    (hw0 : 0 < tif.width) (hw : tif.width < 65536)
    (hh0 : 0 < tif.height) (hh : tif.height < 65536)
    (hfit : tif.width * tif.height * 3 * sz < 2 ^ 32)
    (hstrips : ∀ i, i < tif.strips.length → ∃ data, tif.strips[i]? = some (some data)
      ∧ ReadTiff_stripOffset tif.stripSize sz i + data.length
          ≤ tif.width * tif.height * sz)
    (hfuel : 65536 ≤ fuel) :
    ∃ pixels : List Byte,
      ReadTiff fuel disableSimd tif flip true
          = some (⟨tif.width, tif.height, if sz = 1 then MNSY_RGB8 else MNSY_RGB32, false,
              some (.bytes pixels)⟩, ⟨true, ""⟩)
        ∧ pixels.length = tif.width * tif.height * 3 * sz
        ∧ ∀ h w k, h < tif.height → w < tif.width → k < 3 →
            memRead pixels (((h * tif.width + w) * 3 + k) * sz) sz
              = memRead
                  (ReadTiff_readStrips tif sz
                    (List.replicate (tif.width * tif.height * sz) 0)).1
                  (((if flip then tif.height - h - 1 else h) * tif.width + w) * sz) sz := by
  have e32 : (2 : Nat) ^ 32 = 4294967296 := by norm_num
  have hlast : tif.strips.getLast? ≠ some none := by
    intro hl
    rw [List.getLast?_eq_getElem?] at hl
    have hpos : 0 < tif.strips.length := by
      rcases Nat.eq_zero_or_pos tif.strips.length with h0 | h0
      · rw [h0] at hl
        simp [List.length_eq_zero.mp h0] at hl
      · exact h0
    obtain ⟨data, hd, _⟩ := hstrips (tif.strips.length - 1) (by omega)
    rw [hd] at hl
    cases hl
  have hWH : tif.width * tif.height < 2 ^ 32 := by
    have : tif.width * tif.height ≤ tif.width * tif.height * 3 * sz := by
      rcases hsz with rfl | rfl
      · omega
      · omega
    omega
  have hmodWH : (tif.width * tif.height) % 2 ^ 32 = tif.width * tif.height :=
    Nat.mod_eq_of_lt hWH
  have hfit3 : tif.width * tif.height * 3 < 2 ^ 32 := by
    rcases hsz with rfl | rfl
    · omega
    · omega
  have hlenbuf : (ReadTiff_readStrips tif sz
      (List.replicate (tif.width * tif.height * sz) 0)).1.length
        = tif.width * tif.height * sz := by
    rw [ReadTiff_readStrips_length tif sz _ (fun i data hd => by
      have hi : i < tif.strips.length := by
        by_contra hcon
        rw [List.getElem?_eq_none (by omega)] at hd
        cases hd
      obtain ⟨data', hd', hle⟩ := hstrips i hi
      rw [hd] at hd'
      cases hd'
      simpa using hle)]
    simp
  obtain ⟨pixels, hres, hplen, hpval⟩ := ReadTiff_grayToRGB_scalar_spec fuel sz
    (ReadTiff_readStrips tif sz (List.replicate (tif.width * tif.height * sz) 0)).1
    tif.width tif.height flip hw hh (by omega) (by omega) hfit3 (by rw [hlenbuf])
  refine ⟨pixels, ?_, hplen, hpval⟩
  rw [ReadTiff_gray_eq fuel disableSimd tif flip hopen (by omega) (by omega) hch
    (by
      rw [hch, hbits]
      rcases hsz with rfl | rfl <;> decide)
    hlast]
  rw [hch, hbits, hmodWH, Nat.mod_eq_of_lt hw, Nat.mod_eq_of_lt hh]
  rcases hsz with rfl | rfl
  · have ef : ReadTiff_format (8 * 1) 1 = (MNSY_R8, MNSY_R8) := by decide
    have es : ReadTiff_sampleSize MNSY_R8 = 1 := by decide
    have em : (tif.width * tif.height * 3 * (8 * 1 / 8)) % 2 ^ 32
        = tif.width * tif.height * 3 * 1 := by
      norm_num
      omega
    have eb : (1 * (8 * 1 / 8)) % 2 ^ 32 = 1 := by norm_num
    simp only [ef, es, eb, ReadTiff_grayToRGB, if_true, em] at hres ⊢
    rw [hres]
    rfl
  · have ef : ReadTiff_format (8 * 4) 1 = (MNSY_R32, MNSY_R32) := by decide
    have es : ReadTiff_sampleSize MNSY_R32 = 4 := by decide
    have em : (tif.width * tif.height * 3 * (8 * 4 / 8)) % 2 ^ 32
        = tif.width * tif.height * 3 * 4 := by
      norm_num
      omega
    have eb : (1 * (8 * 4 / 8)) % 2 ^ 32 = 4 := by norm_num
    simp only [ef, es, eb, ReadTiff_grayToRGB, reduceCtorEq, if_false, if_true, em] at hres ⊢
    rw [hres]
    rfl

/-- The triplication at a 2 by 2 gray 8-bit TIFF with the rows 1, 2 and 3, 4 in two
strips, read flipped: the first output pixel is three times the sample 3. -/
theorem ReadTiff_gray_triplication_witness :
    ∃ pixels : List Byte,
      ReadTiff 65536 false ⟨true, 2, 2, 1, 8, 2, [some [1, 2], some [3, 4]]⟩ true true
          = some (⟨2, 2, MNSY_RGB8, false, some (.bytes pixels)⟩, ⟨true, ""⟩)
        ∧ memRead pixels 0 1 = [3] ∧ memRead pixels 1 1 = [3] ∧ memRead pixels 2 1 = [3] := by
  obtain ⟨pixels, h1, _, h3⟩ := ReadTiff_gray_triplication 65536 false
    ⟨true, 2, 2, 1, 8, 2, [some [1, 2], some [3, 4]]⟩ true 1 rfl rfl (Or.inl rfl) rfl
    (by decide) (by decide) (by decide) (by decide) (by decide)
    (by
      intro i hi
      have hi2 : i < 2 := hi
      interval_cases i
      · exact ⟨[1, 2], rfl, by decide⟩
      · exact ⟨[3, 4], rfl, by decide⟩)
    (le_refl _)
  refine ⟨pixels, h1, ?_, ?_, ?_⟩
  · have := h3 0 0 0 (by decide) (by decide) (by decide)
    simpa using this.trans (by decide)
  · have := h3 0 0 1 (by decide) (by decide) (by decide)
    simpa using this.trans (by decide)
  · have := h3 0 0 2 (by decide) (by decide) (by decide)
    simpa using this.trans (by decide)

/-- With a width of 65536 or more the test `w < width` of the inner loop holds for
every value of the 16-bit counter `w`: the scalar gray-to-RGB loops never finish
the first row. -/
theorem ReadTiff_grayToRGB_scalar_never_finishes (fuel sz : Nat) (buffer : List Byte)
    (W H : Nat) (flip : Bool) (pixels : List Byte) (hW : 65536 ≤ W) (hH : 0 < H) :
    ReadTiff_grayToRGB_scalar fuel sz buffer W H flip pixels = none := by
  unfold ReadTiff_grayToRGB_scalar
  rw [loopU16_body_none _ 1 _ fuel 0 pixels (by simpa using hH)
    (by
      rw [loopU16_never_exits _ 1 _ (fun i hi => by
        simp only [decide_eq_true_eq]
        omega) fuel 0 pixels (by norm_num)]
      rfl)]
  rfl

/-- Claim C26 fails at an 8-bit gray TIFF of width 65536 and height 1 (one strip of
65536 bytes) read with `convertGrayToRGB`, in either build and with either flip
flag: whatever the number of iterations allowed, the read has not finished and no
buffer is returned (the loop `for (uint16_t w = 0; w < width; w++)` never exits). -/
theorem ReadTiff_gray_wide_never_finishes (fuel : Nat) (disableSimd flip : Bool) :
    ReadTiff fuel disableSimd
        ⟨true, 65536, 1, 1, 8, 65536, [some (List.replicate 65536 0)]⟩ flip true
      = none := by
  have h := ReadTiff_gray_eq fuel disableSimd
    ⟨true, 65536, 1, 1, 8, 65536, [some (List.replicate 65536 0)]⟩ flip rfl (by decide)
    (by decide) rfl (by decide) (fun h => Option.noConfusion (Option.some.inj h))
  rw [h]
  have e : ReadTiff_format 8 1 = (MNSY_R8, MNSY_R8) := by decide
  simp only [e, ReadTiff_grayToRGB, if_true]
  rw [ReadTiff_grayToRGB_scalar_never_finishes fuel 1 _ 65536 1 flip _ (le_refl _)
    (by norm_num)]
  rfl

end Mnemosy
